import Mathlib

/-!
# Log tailing of the v7 actor

A shallow embedding of `actor/v7action/logging.go`: the normalized `LogMessage`,
the conversion of loggregator envelopes into log messages, the producer side of
`GetStreamingLogs` (visitor, diagnostic writer, deferred channel closing) and the two
wrappers that first resolve an application by name and space; of the consumer in
`command/v7/logs_command.go` (`displayRecentLogs`, `streamLogs`); of the routes in
`actor/v7action/route.go` (lookup by name and space, destinations, summaries, deletion, the
domain name of a URL); of the roles in `actor/v7action/role.go` (`CreateSpaceRole`,
`getUsersByRoleType`); and of the application name override of a push in
`actor/v7pushaction/handle_app_name_override.go`.

Conventions of the embedding
* a Go `string` and a Go `[]byte` are lists of bytes, `len` is `List.length`;
* a Go slice is a list, the nil slice is the empty list;
* a Go map with string keys is an association list read with `mapIndex`, a missing key
  (and the nil map) reads as the zero value;
* a nilable pointer, channel, function or `error` is an `Option`, `nil` is `none`;
* a `time.Time` is the instant it denotes, in nanoseconds since the Unix epoch.
-/

namespace V7Action

/-! ## Strings, maps, time, errors -/

/-- One byte of a Go string. -/
abbrev Byte := UInt8

/-- Go strings are immutable byte sequences, not necessarily valid UTF-8. -/
abbrev GoString := List Byte

/-- The bytes of a string literal of the source (its UTF-8 encoding). -/
def str (s : String) : GoString := s.data.flatMap String.utf8EncodeChar

/-- Indexing a Go map `m[key]`: the value stored under the key, the zero value of the
value type when the key is absent. -/
def mapIndex {κ ν : Type} [BEq κ] [Inhabited ν] (m : List (κ × ν)) (key : κ) : ν :=
  (m.lookup key).getD default

/-- A `time.Time`, identified with the instant it denotes. -/
structure Time where
  unixNano : Int
deriving DecidableEq, Repr

/-- Go `time.Unix(sec, nsec)`: the instant `sec` seconds and `nsec` nanoseconds after the
epoch; every `nsec` is accepted. -/
def time_Unix (sec nsec : Int) : Time := ⟨sec * 1000000000 + nsec⟩

/-- Go `t.Before(u)`. -/
def Time.Before (t u : Time) : Bool := decide (t.unixNano < u.unixNano)

/-- Go `error` values met in this package. -/
inductive GoError where
  /-- The value of `errors.New(text)`. -/
  | errorString (text : GoString)
  /-- Any error handed over by a collaborator, named by a tag and its text. -/
  | collaborator (tag : Nat) (text : GoString)
  /-- The value `actionerror.DomainNotFoundError{Name, GUID}`. -/
  | DomainNotFoundError (Name GUID : GoString)
  /-- The value `actionerror.RouteNotFoundError{DomainName, DomainGUID, Host, Path}`. -/
  | RouteNotFoundError (DomainName DomainGUID Host Path : GoString)
  /-- A `ccerror.RoleAlreadyExistsError`, given by the text it reports. -/
  | RoleAlreadyExistsError (text : GoString)
deriving DecidableEq, Repr

/-- Go `errors.New`. -/
def errors_New (text : GoString) : GoError := GoError.errorString text

/-- Go `err.Error()`. The texts of the two errors of package `actionerror`, which is not
among the sources, are those of that package. -/
def GoError.Error : GoError → GoString
  | GoError.errorString text => text
  | GoError.collaborator _ text => text
  | GoError.DomainNotFoundError Name GUID =>
    if Name ≠ [] then str "Domain '" ++ Name ++ str "' not found."
    else if GUID ≠ [] then str "Domain with GUID '" ++ GUID ++ str "' not found."
    else str "Domain not found."
  | GoError.RouteNotFoundError DomainName _ Host Path =>
    if Host ≠ [] ∧ Path ≠ [] then
      str "Route with host '" ++ Host ++ str "', domain '" ++ DomainName ++ str "', and path '"
        ++ Path ++ str "' not found."
    else if Host ≠ [] then
      str "Route with host '" ++ Host ++ str "' and domain '" ++ DomainName ++ str "' not found."
    else if Path ≠ [] then
      str "Route with domain '" ++ DomainName ++ str "' and path '" ++ Path ++ str "' not found."
    else str "Route with domain '" ++ DomainName ++ str "' not found."
  | GoError.RoleAlreadyExistsError text => text

/-- Warnings gathered from the API calls of an actor method. -/
abbrev Warnings := List GoString

/-! ## Envelopes of `loggregator_v2` -/

/-- A `loggregator_v2.Log`: payload bytes and the numeric log-type code (field `Type` of the
source, a `Log_Type`, which is an `int32` enumeration). -/
structure Log where
  Payload : List Byte
  Type_ : Int
deriving DecidableEq, Repr

/-- The `message` one-of of an envelope. Only the log variant is ever read by this package,
so the payloads of the other variants are left out. The wrapper of the log variant and the
`Log` it points to are taken non-nil, as the decoder of the transport builds them. -/
inductive Envelope_Message where
  | Envelope_Log (log : Log)
  | Envelope_Counter
  | Envelope_Gauge
  | Envelope_Timer
  | Envelope_Event
deriving DecidableEq, Repr

/-- A `loggregator_v2.Envelope`; `Message = none` is the unset one-of. -/
structure Envelope where
  Timestamp : Int
  SourceId : GoString
  InstanceId : GoString
  Tags : List (GoString × GoString)
  Message : Option Envelope_Message
deriving DecidableEq, Repr

/-- Getter `GetMessage` on a `*Envelope`; nil-safe as the generated getters are. -/
def Envelope.GetMessage : Option Envelope → Option Envelope_Message
  | some e => e.Message
  | none => none

/-- Getter `GetTimestamp` on a `*Envelope`. -/
def Envelope.GetTimestamp : Option Envelope → Int
  | some e => e.Timestamp
  | none => 0

/-- Getter `GetTags` on a `*Envelope`. -/
def Envelope.GetTags : Option Envelope → List (GoString × GoString)
  | some e => e.Tags
  | none => []

/-- Getter `GetInstanceId` on a `*Envelope`. -/
def Envelope.GetInstanceId : Option Envelope → GoString
  | some e => e.InstanceId
  | none => []

/-- Modelled from the spec: the table `Log_Type_name` of package `loggregator_v2`, which is
not among the sources, gives "the transport's symbolic name for the envelope's numeric
log-type code": "OUT" for the code 0 and "ERR" for the code 1. -/
def Log_Type_name : List (Int × GoString) := [(0, str "OUT"), (1, str "ERR")]

/-! ## LogMessage -/

/-- The constant `StagingLog`. -/
def StagingLog : GoString := str "STG"

/-- The normalized log record. -/
structure LogMessage where
  message : GoString
  messageType : GoString
  timestamp : Time
  sourceType : GoString
  sourceInstance : GoString
deriving DecidableEq, Repr

def LogMessage.Message (log : LogMessage) : GoString := log.message

def LogMessage.Type (log : LogMessage) : GoString := log.messageType

def LogMessage.Staging (log : LogMessage) : Bool := log.sourceType == StagingLog

def LogMessage.Timestamp (log : LogMessage) : Time := log.timestamp

def LogMessage.SourceType (log : LogMessage) : GoString := log.sourceType

def LogMessage.SourceInstance (log : LogMessage) : GoString := log.sourceInstance

def NewLogMessage (message messageType : GoString) (timestamp : Time)
    (sourceType sourceInstance : GoString) : LogMessage :=
  { message := message
    messageType := messageType
    timestamp := timestamp
    sourceType := sourceType
    sourceInstance := sourceInstance }

/-! ## Conversion of envelopes -/

/-- One iteration of the loop of `convertEnvelopesToLogMessages`: an envelope whose message
is not the log variant is skipped, a log envelope appends one message. -/
def convertEnvelopesToLogMessages.body (logMessages : List LogMessage)
    (envelope : Option Envelope) : List LogMessage :=
  match Envelope.GetMessage envelope with
  | some (Envelope_Message.Envelope_Log log) =>
      logMessages ++ [NewLogMessage
        log.Payload
        (mapIndex Log_Type_name log.Type_)
        (time_Unix 0 (Envelope.GetTimestamp envelope))
        (mapIndex (Envelope.GetTags envelope) (str "source_type"))
        (Envelope.GetInstanceId envelope)]
  | _ => logMessages

/-- The function `convertEnvelopesToLogMessages`: the loop over the envelopes, starting from
the nil slice. -/
def convertEnvelopesToLogMessages (envelopes : List (Option Envelope)) : List LogMessage :=
  envelopes.foldl convertEnvelopesToLogMessages.body []

/-! ### Vocabulary of the specification for the conversion -/

/-- The log carried by an envelope whose message variant is the log variant. -/
def logOf (envelope : Option Envelope) : Option Log :=
  match envelope with
  | some e =>
    match e.Message with
    | some (Envelope_Message.Envelope_Log log) => some log
    | _ => none
  | none => none

/-- Whether the message variant of an envelope is the log variant. -/
def isLogVariant (envelope : Option Envelope) : Bool := (logOf envelope).isSome

/-- The log-variant envelopes of a sequence, in input order, each with its log. -/
def logVariantEnvelopes (envelopes : List (Option Envelope)) : List (Envelope × Log) :=
  envelopes.filterMap fun envelope =>
    match envelope with
    | some e =>
      match e.Message with
      | some (Envelope_Message.Envelope_Log log) => some (e, log)
      | _ => none
    | none => none

/-- The message built from a log-variant envelope and its log, field by field as the
specification lists them. -/
def logMessageOf (p : Envelope × Log) : LogMessage :=
  { message := p.2.Payload
    messageType := mapIndex Log_Type_name p.2.Type_
    timestamp := time_Unix 0 p.1.Timestamp
    sourceType := mapIndex p.1.Tags (str "source_type")
    sourceInstance := p.1.InstanceId }

/-! ### Sample values -/

/-- A log envelope: payload "hello", log type `OUT`, source type "APP", instance "0". -/
def sampleLogEnvelope (timestamp : Int) : Envelope :=
  { Timestamp := timestamp
    SourceId := str "app-guid"
    InstanceId := str "0"
    Tags := [(str "source_type", str "APP")]
    Message := some (Envelope_Message.Envelope_Log { Payload := str "hello", Type_ := 0 }) }

/-- A counter envelope. -/
def sampleCounterEnvelope : Envelope :=
  { Timestamp := 7
    SourceId := str "app-guid"
    InstanceId := str "1"
    Tags := []
    Message := some Envelope_Message.Envelope_Counter }

/-- A message of kind "OUT" whose source type is "STG". -/
def sampleStagingMessage : LogMessage :=
  NewLogMessage (str "Downloading app package...") (str "OUT") (time_Unix 0 5) (str "STG") (str "0")

/-- A message of kind "STG" whose source type is "APP". -/
def sampleKindStgMessage : LogMessage :=
  NewLogMessage (str "hello") (str "STG") (time_Unix 0 5) (str "APP") (str "0")

/-- A batch of four envelopes: a log, a counter, and two more logs. -/
def sampleBatch : List (Option Envelope) :=
  [some (sampleLogEnvelope 1), some sampleCounterEnvelope, some (sampleLogEnvelope 2),
    some (sampleLogEnvelope 3)]

/-- A context whose cancel function is never invoked. -/
def neverCancelled : Nat → Bool := fun _ => false

/-- A context found cancelled from the poll number `n` on. -/
def cancelledFrom (n : Nat) : Nat → Bool := fun i => decide (n ≤ i)

/-! ## Channels and the producer of `GetStreamingLogs` -/

/-- A Go channel as its sender sees it: every value sent so far, oldest first, and whether
the channel has been closed. A send that has to wait for room in the buffer is still that
one send, so the capacity given to `make` does not show in the sequence of values sent;
the receiver reads this sequence from its front. -/
structure Chan (α : Type) where
  sent : List α
  closed : Bool
deriving DecidableEq, Repr

/-- Go `make(chan T, n)`: an open channel on which nothing was sent. -/
def Chan.make {α : Type} : Chan α := { sent := [], closed := false }

/-- Go `c <- v`; `none` is the run-time panic of a send on a closed channel. -/
def Chan.send {α : Type} (c : Chan α) (v : α) : Option (Chan α) :=
  if c.closed then none else some { c with sent := c.sent ++ [v] }

/-- Go `close(c)`; `none` is the run-time panic of closing a closed channel. -/
def Chan.close {α : Type} (c : Chan α) : Option (Chan α) :=
  if c.closed then none else some { c with closed := true }

/-- Go `strings.Trim(s, cutset)` for a cutset of ASCII bytes: the string without its longest
leading and its longest trailing run of bytes of the cutset (the trailing run is cut first).
No byte of a multi-byte UTF-8 sequence is an ASCII byte, so cutting bytes and cutting
code points agree for such a cutset. -/
def strings_Trim (s cutset : GoString) : GoString :=
  ((s.reverse.dropWhile fun b => cutset.contains b).reverse).dropWhile fun b => cutset.contains b

/-- The type `channelWriter`. -/
structure channelWriter where
  errChannel : Chan GoError
deriving DecidableEq, Repr

/-- The method `channelWriter.Write`: the result `(n, err)` and the writer afterwards;
`none` is a panic of the send. -/
def channelWriter.Write (c : channelWriter) (bytes : List Byte) :
    Option ((Nat × Option GoError) × channelWriter) :=
  match c.errChannel.send (errors_New (strings_Trim bytes (str "\n"))) with
  | none => none
  | some errChannel => some ((bytes.length, none), { errChannel := errChannel })

/-- What the goroutine started by `GetStreamingLogs` shares with its consumer: the two
channels, and the number of times it has polled `ctx.Done()` so far. -/
structure StreamState where
  outgoingLogStream : Chan LogMessage
  outgoingErrStream : Chan GoError
  polls : Nat
deriving DecidableEq, Repr

/-- The state in which the goroutine starts: both channels freshly made. -/
def StreamState.start : StreamState :=
  { outgoingLogStream := Chan.make, outgoingErrStream := Chan.make, polls := 0 }

/-- The `for ... range logMessages` loop of the visitor. `ctxDone n` tells whether the poll
number `n` of `ctx.Done()` finds the context cancelled (the cancel function is invoked by
the consumer, at a moment the producer does not choose). The result is the boolean returned
by the visitor, `none` a panic. -/
def GetStreamingLogs.visitor.loop (ctxDone : Nat → Bool) :
    List LogMessage → StreamState → Option (Bool × StreamState)
  | [], s => some (true, s)
  | logMessage :: rest, s =>
    if ctxDone s.polls then
      some (false, { s with polls := s.polls + 1 })
    else
      match s.outgoingLogStream.send logMessage with
      | none => none
      | some c =>
        GetStreamingLogs.visitor.loop ctxDone rest
          { s with outgoingLogStream := c, polls := s.polls + 1 }

/-- The visitor that `GetStreamingLogs` hands to the walk. -/
def GetStreamingLogs.visitor (ctxDone : Nat → Bool) (envelopes : List (Option Envelope))
    (s : StreamState) : Option (Bool × StreamState) :=
  GetStreamingLogs.visitor.loop ctxDone (convertEnvelopesToLogMessages envelopes) s

/-- Go `(*log.Logger).Output` for the logger `log.New(w, "", 0)`: no header, the text, a
newline added when the text does not end with one, written with a single `Write`. -/
def log_Logger.Output (w : channelWriter) (text : GoString) :
    Option (Option GoError × channelWriter) :=
  let buf := if text.getLast? = some 10 then text else text ++ [10]
  match w.Write buf with
  | none => none
  | some ((_, err), w1) => some (err, w1)

/-- The logger that `GetStreamingLogs` hands to the walk, acting on the shared state. -/
def GetStreamingLogs.logger (text : GoString) (s : StreamState) : Option StreamState :=
  match log_Logger.Output { errChannel := s.outgoingErrStream } text with
  | none => none
  | some (_, w) => some { s with outgoingErrStream := w.errChannel }

/-- What a walk of the log store does to its callbacks. -/
inductive WalkEvent where
  /-- A read returned this batch and the walk hands it to the visitor. -/
  | batch (envelopes : List (Option Envelope))
  /-- The walk prints this diagnostic text through its logger. -/
  | diagnostic (text : GoString)
deriving DecidableEq, Repr

/-- Modelled from the spec: `logcache.Walk` is a collaborator outside this repository, a
provided walk driver that repeatedly calls the read primitive, applies a fixed-interval
always-retry backoff on error, and invokes a supplied per-batch visitor callback returning
a boolean that tells whether to continue. A walk that returns is given by the finite script of what it
did: it goes through the script in order, returns at the first batch whose visitor answers
false, and otherwise when the script is exhausted (the walk primitive ending). -/
def logcache_Walk (visitor : List (Option Envelope) → StreamState → Option (Bool × StreamState))
    (logger : GoString → StreamState → Option StreamState) :
    List WalkEvent → StreamState → Option StreamState
  | [], s => some s
  | WalkEvent.batch envelopes :: rest, s =>
    match visitor envelopes s with
    | none => none
    | some (true, s1) => logcache_Walk visitor logger rest s1
    | some (false, s1) => some s1
  | WalkEvent.diagnostic text :: rest, s =>
    match logger text s with
    | none => none
    | some s1 => logcache_Walk visitor logger rest s1

/-- The two deferred calls of the goroutine, run when the walk has returned: the one
registered last runs first. -/
def GetStreamingLogs.deferred (s : StreamState) : Option StreamState :=
  match s.outgoingErrStream.close with
  | none => none
  | some errStream =>
    match s.outgoingLogStream.close with
    | none => none
    | some logStream =>
      some { s with outgoingErrStream := errStream, outgoingLogStream := logStream }

/-- The body of the goroutine of `GetStreamingLogs`: the walk, then the deferred closes. -/
def GetStreamingLogs.goroutine (ctxDone : Nat → Bool) (events : List WalkEvent)
    (s : StreamState) : Option StreamState :=
  match logcache_Walk (GetStreamingLogs.visitor ctxDone) GetStreamingLogs.logger events s with
  | none => none
  | some s1 => GetStreamingLogs.deferred s1

/-! ## The wrappers resolving the application -/

/-- The message record returned by `loggingaction.GetRecentLogs`. -/
structure loggingaction_LogMessage where
  Message : GoString
  MessageType : GoString
  Timestamp : Time
  SourceType : GoString
  SourceInstance : GoString
deriving DecidableEq, Repr

/-- The log cache client: how the log store answers a recent-logs query for an application
GUID, and what has been asked of the client so far, in call order: the application GUIDs
for which a tailing goroutine was started (each walks the store through `client.Read`) and
the application GUIDs of the recent-logs queries. -/
structure LogCacheClient where
  recentLogs : GoString → List loggingaction_LogMessage × Option GoError
  tails : List GoString
  recentQueries : List GoString

/-- The receiving end of the channels, and the cancel function, of the tail with this
number among the tails started through the client. -/
structure TailHandle where
  tail : Nat
deriving DecidableEq, Repr

/-- The function `GetStreamingLogs`: makes the two channels and the context, starts the
goroutine (`GetStreamingLogs.goroutine`, from `StreamState.start`) and returns at once the
message channel, the error channel and the cancel function. -/
def GetStreamingLogs (appGUID : GoString) (client : LogCacheClient) :
    (Option TailHandle × Option TailHandle × Option TailHandle) × LogCacheClient :=
  let h : TailHandle := { tail := client.tails.length }
  ((some h, some h, some h), { client with tails := client.tails ++ [appGUID] })

/-- The fields of a `v7action.Application` read here. -/
structure Application where
  Name : GoString
  GUID : GoString
deriving DecidableEq, Repr

/-- The actor, with the one method of it that `logging.go` calls and that is not among the
sources: the application resolver `GetApplicationByNameAndSpace`, which returns the
application, the warnings and the error, and does not use the log cache client. -/
structure Actor where
  GetApplicationByNameAndSpace : GoString → GoString → Application × Warnings × Option GoError

/-- Modelled from the spec: `loggingaction.GetRecentLogs` is not among the sources;
"recent(identifier) → ordered batch of message DTOs, error". It makes one query through the
client and returns the answer of the log store. -/
def loggingaction_GetRecentLogs (appGUID : GoString) (client : LogCacheClient) :
    (List loggingaction_LogMessage × Option GoError) × LogCacheClient :=
  (client.recentLogs appGUID, { client with recentQueries := client.recentQueries ++ [appGUID] })

/-- The method `Actor.GetStreamingLogsForApplicationByNameAndSpace`. -/
def Actor.GetStreamingLogsForApplicationByNameAndSpace (actor : Actor)
    (appName spaceGUID : GoString) (client : LogCacheClient) :
    (Option TailHandle × Option TailHandle × Option TailHandle × Warnings × Option GoError)
      × LogCacheClient :=
  match actor.GetApplicationByNameAndSpace appName spaceGUID with
  | (_, allWarnings, some err) => ((none, none, none, allWarnings, some err), client)
  | (app, allWarnings, none) =>
    match GetStreamingLogs app.GUID client with
    | ((messages, logErrs, cancelFunc), client1) =>
      ((messages, logErrs, cancelFunc, allWarnings, none), client1)

/-- The loop of `GetRecentLogsForApplicationByNameAndSpace` copying the records. -/
def Actor.GetRecentLogsForApplicationByNameAndSpace.copy
    (logCacheMessages : List loggingaction_LogMessage) : List LogMessage :=
  logCacheMessages.foldl (fun logMessages message =>
    logMessages ++ [{ message := message.Message
                      messageType := message.MessageType
                      timestamp := message.Timestamp
                      sourceType := message.SourceType
                      sourceInstance := message.SourceInstance }]) []

/-- The method `Actor.GetRecentLogsForApplicationByNameAndSpace`. -/
def Actor.GetRecentLogsForApplicationByNameAndSpace (actor : Actor)
    (appName spaceGUID : GoString) (client : LogCacheClient) :
    (List LogMessage × Warnings × Option GoError) × LogCacheClient :=
  match actor.GetApplicationByNameAndSpace appName spaceGUID with
  | (_, allWarnings, some err) => (([], allWarnings, some err), client)
  | (app, allWarnings, none) =>
    match loggingaction_GetRecentLogs app.GUID client with
    | ((_, some err), client1) => (([], allWarnings, some err), client1)
    | ((logCacheMessages, none), client1) =>
      ((Actor.GetRecentLogsForApplicationByNameAndSpace.copy logCacheMessages, allWarnings, none),
        client1)

/-! ### Sample collaborators -/

/-- An error of the application resolver. -/
def sampleResolverError : GoError := GoError.collaborator 1 (str "App 'some-app' not found.")

/-- An actor whose application resolver fails, with one warning. -/
def sampleFailingActor : Actor :=
  { GetApplicationByNameAndSpace := fun _ _ =>
      ({ Name := [], GUID := [] }, [str "some-app-warnings"], some sampleResolverError) }

/-- A log cache client of which nothing was asked yet, with one recent message in store. -/
def sampleClient : LogCacheClient :=
  { recentLogs := fun _ =>
      ([{ Message := str "message-1", MessageType := str "OUT", Timestamp := time_Unix 0 3,
          SourceType := str "APP", SourceInstance := str "0" }], none)
    tails := []
    recentQueries := [] }

/-! ## The sortable collection `LogMessages` -/

/-- The type `LogMessages`, a slice of messages. -/
abbrev LogMessages := List LogMessage

/-- The method `LogMessages.Len`. -/
def LogMessages.Len (lm : LogMessages) : Nat := lm.length

/-- The method `LogMessages.Less`; `none` is the panic of an index out of range. -/
def LogMessages.Less (lm : LogMessages) (i j : Nat) : Option Bool :=
  match lm[i]?, lm[j]? with
  | some a, some b => some (a.timestamp.Before b.timestamp)
  | _, _ => none

/-- The method `LogMessages.Swap`; `none` is the panic of an index out of range. -/
def LogMessages.Swap (lm : LogMessages) (i j : Nat) : Option LogMessages :=
  match lm[i]?, lm[j]? with
  | some a, some b => some ((lm.set i b).set j a)
  | _, _ => none

/-! ### Sample collaborators of the recent-logs query -/

/-- An actor whose application resolver succeeds, with one warning. -/
def sampleActor : Actor :=
  { GetApplicationByNameAndSpace := fun appName _ =>
      ({ Name := appName, GUID := str "some-app-guid" }, [str "some-app-warnings"], none) }

/-- A recent-logs record with the given timestamp. -/
def sampleRecord (nanoseconds : Int) : loggingaction_LogMessage :=
  { Message := str "message", MessageType := str "OUT", Timestamp := time_Unix 0 nanoseconds,
    SourceType := str "APP", SourceInstance := str "0" }

/-- A log cache client whose store answers with three records, of timestamps 3, 1, 2. -/
def sampleRecentClient : LogCacheClient :=
  { recentLogs := fun _ => ([sampleRecord 3, sampleRecord 1, sampleRecord 2], none)
    tails := []
    recentQueries := [] }

/-- An error of the recent-logs query. -/
def sampleRecentError : GoError := GoError.collaborator 2 (str "some-recent-logs-error")

/-- A log cache client whose recent-logs query fails, records being returned with the error. -/
def sampleBrokenRecentClient : LogCacheClient :=
  { recentLogs := fun _ => ([sampleRecord 3], some sampleRecentError)
    tails := []
    recentQueries := [] }

/-- Three messages of timestamps 5, 5 and 9. -/
def sampleLogMessages : LogMessages :=
  [NewLogMessage (str "a") (str "OUT") (time_Unix 0 5) (str "APP") (str "0"),
   NewLogMessage (str "b") (str "ERR") (time_Unix 0 5) (str "APP") (str "1"),
   NewLogMessage (str "c") (str "OUT") (time_Unix 0 9) (str "APP") (str "0")]

/-- A log envelope of log-type code 7 without any tag. -/
def sampleUntaggedEnvelope : Envelope :=
  { Timestamp := 11
    SourceId := str "app-guid"
    InstanceId := str "2"
    Tags := []
    Message := some (Envelope_Message.Envelope_Log { Payload := str "bye", Type_ := 7 }) }

/-! ## The command `logs` (`command/v7/logs_command.go`) -/

/-- The receiving end of a channel: the values it still delivers, oldest first, and whether
it is found closed once they are received. -/
structure RecvChan (α : Type) where
  pending : List α
  closes : Bool
deriving DecidableEq, Repr

/-- The receiving end of a channel on which its sender sent these values and did this
closing. -/
def Chan.receiver {α : Type} (c : Chan α) : RecvChan α := { pending := c.sent, closes := c.closed }

/-- What the command does, in the order in which it does it: the calls of
`cmd.UI.DisplayLogMessage(message, true)`, of `cmd.UI.DisplayWarnings(warnings)` and of the
cancel function. -/
inductive Effect where
  | DisplayLogMessage (message : LogMessage)
  | DisplayWarnings (warnings : Warnings)
  | cancelFunc
deriving DecidableEq, Repr

/-- The interface `LogsActor`. When the error of the streaming method is nil the two
channels and the cancel function are not nil. -/
structure LogsActor where
  GetStreamingLogsForApplicationByNameAndSpace :
    GoString → GoString → LogCacheClient →
      RecvChan LogMessage × RecvChan GoError × Warnings × Option GoError
  GetRecentLogsForApplicationByNameAndSpace :
    GoString → GoString → LogCacheClient → List LogMessage × Warnings × Option GoError

/-- The fields of a `LogsCommand` read by `displayRecentLogs` and `streamLogs`; `AppName` is
`cmd.RequiredArgs.AppName` and `SpaceGUID` is `cmd.Config.TargetedSpace().GUID`. -/
structure LogsCommand where
  AppName : GoString
  SpaceGUID : GoString
  Recent : Bool
  Actor : LogsActor
  LogCacheClient : LogCacheClient

/-- The method `LogsCommand.displayRecentLogs`: the error returned and what was done. -/
def LogsCommand.displayRecentLogs (cmd : LogsCommand) : Option GoError × List Effect :=
  match cmd.Actor.GetRecentLogsForApplicationByNameAndSpace cmd.AppName cmd.SpaceGUID
      cmd.LogCacheClient with
  | (messages, warnings, err) =>
    let shown := messages.foldl (fun effects message =>
      effects ++ [Effect.DisplayLogMessage message]) []
    (err, shown ++ [Effect.DisplayWarnings warnings])

/-- The case of the `select` of `streamLogs` that fires. -/
inductive SelectCase where
  | messages
  | logErrs
deriving DecidableEq, Repr

/-- The `for` loop of `streamLogs`, run along a schedule telling, for each `select` in turn,
which case fires. The result is the error returned and what was done; `none` is a schedule
that cannot happen (a case fires on a channel that has nothing to deliver and is not closed)
or one that ends while the command is still waiting. -/
def LogsCommand.streamLogs.loop :
    List SelectCase → RecvChan LogMessage → RecvChan GoError → Bool → Bool → List Effect →
      Option (Option GoError × List Effect)
  | [], _, _, _, _, _ => none
  | SelectCase.messages :: schedule, messages, logErrs, messagesClosed, errLogsClosed, effects =>
    match messages.pending with
    | message :: rest =>
      if messagesClosed && errLogsClosed then
        some (none, effects ++ [Effect.DisplayLogMessage message])
      else
        LogsCommand.streamLogs.loop schedule { messages with pending := rest } logErrs
          messagesClosed errLogsClosed (effects ++ [Effect.DisplayLogMessage message])
    | [] =>
      if messages.closes then
        if true && errLogsClosed then some (none, effects)
        else LogsCommand.streamLogs.loop schedule messages logErrs true errLogsClosed effects
      else none
  | SelectCase.logErrs :: schedule, messages, logErrs, messagesClosed, _, effects =>
    match logErrs.pending with
    | logErr :: _ => some (some logErr, effects ++ [Effect.cancelFunc])
    | [] =>
      if logErrs.closes then
        if messagesClosed && true then some (none, effects)
        else LogsCommand.streamLogs.loop schedule messages logErrs messagesClosed true effects
      else none

/-- The method `LogsCommand.streamLogs`, run along a schedule of its `select`. -/
def LogsCommand.streamLogs (cmd : LogsCommand) (schedule : List SelectCase) :
    Option (Option GoError × List Effect) :=
  match cmd.Actor.GetStreamingLogsForApplicationByNameAndSpace cmd.AppName cmd.SpaceGUID
      cmd.LogCacheClient with
  | (messages, logErrs, warnings, err) =>
    match err with
    | some e => some (some e, [Effect.DisplayWarnings warnings])
    | none =>
      LogsCommand.streamLogs.loop schedule messages logErrs false false
        [Effect.DisplayWarnings warnings]

/-- The `for` loop of `streamLogs` followed along a schedule of its `select`, finished or
not: whether the method has returned, and with which error, and what it has done so far.
`none` says that the method has not returned: it waits in its `select`, at the end of the
schedule or at a case that cannot fire. -/
def LogsCommand.streamLogs.loopSoFar :
    List SelectCase → RecvChan LogMessage → RecvChan GoError → Bool → Bool → List Effect →
      Option (Option GoError) × List Effect
  | [], _, _, _, _, effects => (none, effects)
  | SelectCase.messages :: schedule, messages, logErrs, messagesClosed, errLogsClosed, effects =>
    match messages.pending with
    | message :: rest =>
      if messagesClosed && errLogsClosed then
        (some none, effects ++ [Effect.DisplayLogMessage message])
      else
        LogsCommand.streamLogs.loopSoFar schedule { messages with pending := rest } logErrs
          messagesClosed errLogsClosed (effects ++ [Effect.DisplayLogMessage message])
    | [] =>
      if messages.closes then
        if true && errLogsClosed then (some none, effects)
        else LogsCommand.streamLogs.loopSoFar schedule messages logErrs true errLogsClosed effects
      else (none, effects)
  | SelectCase.logErrs :: schedule, messages, logErrs, messagesClosed, _, effects =>
    match logErrs.pending with
    | logErr :: _ => (some (some logErr), effects ++ [Effect.cancelFunc])
    | [] =>
      if logErrs.closes then
        if messagesClosed && true then (some none, effects)
        else LogsCommand.streamLogs.loopSoFar schedule messages logErrs messagesClosed true effects
      else (none, effects)

/-- The method `LogsCommand.streamLogs` followed along a schedule of its `select`, finished
or not: whether it has returned, and with which error, and what it has done so far. -/
def LogsCommand.streamLogsSoFar (cmd : LogsCommand) (schedule : List SelectCase) :
    Option (Option GoError) × List Effect :=
  match cmd.Actor.GetStreamingLogsForApplicationByNameAndSpace cmd.AppName cmd.SpaceGUID
      cmd.LogCacheClient with
  | (messages, logErrs, warnings, err) =>
    match err with
    | some e => (some (some e), [Effect.DisplayWarnings warnings])
    | none =>
      LogsCommand.streamLogs.loopSoFar schedule messages logErrs false false
        [Effect.DisplayWarnings warnings]

/-- An error of the stream. -/
def sampleStreamError : GoError := errors_New (str "failed to read")

/-- A command whose actor streams three messages and one error, and whose recent query
returns the three messages, both with one warning and no error. -/
def sampleLogsCommand : LogsCommand :=
  { AppName := str "some-app"
    SpaceGUID := str "some-space-guid"
    Recent := false
    Actor :=
      { GetStreamingLogsForApplicationByNameAndSpace := fun _ _ _ =>
          ({ pending := sampleLogMessages, closes := true },
           { pending := [sampleStreamError], closes := true }, [str "some-warning"], none)
        GetRecentLogsForApplicationByNameAndSpace := fun _ _ _ =>
          (sampleLogMessages, [str "some-warning"], none) }
    LogCacheClient := sampleClient }

/-- A command whose actor fails in both methods, with one warning. -/
def sampleFailingLogsCommand : LogsCommand :=
  { AppName := str "some-app"
    SpaceGUID := str "some-space-guid"
    Recent := false
    Actor :=
      { GetStreamingLogsForApplicationByNameAndSpace := fun _ _ _ =>
          ({ pending := [], closes := false }, { pending := [], closes := false },
           [str "some-warning"], some sampleResolverError)
        GetRecentLogsForApplicationByNameAndSpace := fun _ _ _ =>
          ([], [str "some-warning"], some sampleResolverError) }
    LogCacheClient := sampleClient }

/-- A command whose actor streams three messages and no error, both channels being closed
at the end, with one warning. -/
def sampleQuietLogsCommand : LogsCommand :=
  { AppName := str "some-app"
    SpaceGUID := str "some-space-guid"
    Recent := false
    Actor :=
      { GetStreamingLogsForApplicationByNameAndSpace := fun _ _ _ =>
          ({ pending := sampleLogMessages, closes := true },
           { pending := [], closes := true }, [str "some-warning"], none)
        GetRecentLogsForApplicationByNameAndSpace := fun _ _ _ =>
          (sampleLogMessages, [str "some-warning"], none) }
    LogCacheClient := sampleClient }

/-- A command whose actor streams three messages and leaves both channels open, with one
warning and no error: a tail that does not end. -/
def sampleOpenLogsCommand : LogsCommand :=
  { AppName := str "some-app"
    SpaceGUID := str "some-space-guid"
    Recent := false
    Actor :=
      { GetStreamingLogsForApplicationByNameAndSpace := fun _ _ _ =>
          ({ pending := sampleLogMessages, closes := false },
           { pending := [], closes := false }, [str "some-warning"], none)
        GetRecentLogsForApplicationByNameAndSpace := fun _ _ _ =>
          (sampleLogMessages, [str "some-warning"], none) }
    LogCacheClient := sampleClient }

/-! ## Routes (`actor/v7action/route.go`) -/

/-- Go `strings.Index(s, sep)`: the index of the first occurrence of `sep` in `s`, `none`
for the result -1. -/
def strings_Index : GoString → GoString → Option Nat
  | [], sep => if sep = [] then some 0 else none
  | b :: rest, sep =>
    if sep.isPrefixOf (b :: rest) then some 0 else (strings_Index rest sep).map fun m => m + 1

/-- Go `strings.SplitN(s, sep, n)` for a non-empty separator and `n ≥ 0`: at most `n` pieces,
the last one being the unsplit remainder; no piece for `n = 0`. -/
def strings_SplitN : GoString → GoString → Nat → List GoString
  | _, _, 0 => []
  | s, _, 1 => [s]
  | s, sep, n + 2 =>
    match strings_Index s sep with
    | none => [s]
    | some m => s.take m :: strings_SplitN (s.drop (m + sep.length)) sep (n + 1)

/-- Go `strings.TrimPrefix(s, p)`. -/
def strings_TrimPrefix (s p : GoString) : GoString :=
  if p.isPrefixOf s then s.drop p.length else s

/-- Go `strings.TrimSuffix(s, p)`. -/
def strings_TrimSuffix (s p : GoString) : GoString :=
  if p.isSuffixOf s then s.take (s.length - p.length) else s

/-- The function `getDomainName`. -/
def getDomainName (fullURL host path : GoString) : GoString :=
  let domainWithoutHost := strings_TrimPrefix fullURL (host ++ str ".")
  strings_TrimSuffix domainWithoutHost path

/-- Assignment `m[key] = value` to a Go map. -/
def mapAssign {κ ν : Type} [BEq κ] (m : List (κ × ν)) (key : κ) (value : ν) : List (κ × ν) :=
  (key, value) :: m.filter fun p => !(p.1 == key)

/-- The test `_, ok := m[key]` on a Go map. -/
def mapHas {κ ν : Type} [BEq κ] (m : List (κ × ν)) (key : κ) : Bool :=
  (m.lookup key).isSome

/-- The keys of `ccv3.Query` used in `route.go`. -/
inductive QueryKey where
  | SpaceGUIDFilter
  | DomainGUIDFilter
  | HostsFilter
  | PathsFilter
  | GUIDFilter
  | OrganizationGUIDFilter
  | Include
deriving DecidableEq, Repr

/-- A `ccv3.Query`. -/
structure Query where
  Key : QueryKey
  Values : List GoString
deriving DecidableEq, Repr

/-- The fields of a `ccv3.Route` read in `route.go`. -/
structure ccv3_Route where
  GUID : GoString
  SpaceGUID : GoString
  DomainGUID : GoString
  Host : GoString
  Path : GoString
  URL : GoString
deriving DecidableEq, Repr

/-- The fields of a `ccv3.Space` read in `route.go`. -/
structure ccv3_Space where
  GUID : GoString
  Name : GoString
deriving DecidableEq, Repr

/-- The zero value `ccv3.Space{}`. -/
instance : Inhabited ccv3_Space := ⟨{ GUID := [], Name := [] }⟩

/-- The fields of a `Domain` read in `route.go`. -/
structure Domain where
  GUID : GoString
  Name : GoString
deriving DecidableEq, Repr

/-- The type `Route`. -/
structure Route where
  GUID : GoString
  SpaceGUID : GoString
  DomainGUID : GoString
  Host : GoString
  Path : GoString
  DomainName : GoString
  SpaceName : GoString
  URL : GoString
deriving DecidableEq, Repr

/-- The zero value `Route{}`. -/
def Route.zero : Route :=
  { GUID := [], SpaceGUID := [], DomainGUID := [], Host := [], Path := [], DomainName := [],
    SpaceName := [], URL := [] }

instance : Inhabited Route := ⟨Route.zero⟩

/-- The field `Process` of a `ccv3.RouteDestinationApp`, with its field `Type`. -/
structure RouteDestinationProcess where
  Type_ : GoString
deriving DecidableEq, Repr

/-- The type `RouteDestinationApp`, which is `ccv3.RouteDestinationApp`. -/
structure RouteDestinationApp where
  GUID : GoString
  Process : RouteDestinationProcess
deriving DecidableEq, Repr

/-- A `ccv3.RouteDestination`. -/
structure ccv3_RouteDestination where
  GUID : GoString
  App : RouteDestinationApp
deriving DecidableEq, Repr

/-- The type `RouteDestination`. -/
structure RouteDestination where
  GUID : GoString
  App : RouteDestinationApp
deriving DecidableEq, Repr

/-- The zero value `RouteDestination{}`. -/
def RouteDestination.zero : RouteDestination :=
  { GUID := [], App := { GUID := [], Process := { Type_ := [] } } }

/-- The type `RouteSummary`: a route and the names of its applications. -/
structure RouteSummary where
  Route : Route
  AppNames : List GoString
deriving DecidableEq, Repr

/-- A `constant.RoleType`, a string type. -/
abbrev RoleType := GoString

/-- The fields of a `ccv3.Role` (field `Type_` is the field `Type` of the source). -/
structure ccv3_Role where
  GUID : GoString
  Type_ : RoleType
  UserGUID : GoString
  Username : GoString
  Origin : GoString
  OrgGUID : GoString
  SpaceGUID : GoString
deriving DecidableEq, Repr

/-- The fields of a `ccv3.User`; the type `User` of the actor is the same type. -/
structure User where
  GUID : GoString
  Username : GoString
  PresentationName : GoString
  Origin : GoString
deriving DecidableEq, Repr

/-- The zero value `User{}`. -/
instance : Inhabited User :=
  ⟨{ GUID := [], Username := [], PresentationName := [], Origin := [] }⟩

/-- The field of `ccv3.IncludedResources` read in `role.go`. -/
structure IncludedResources where
  Users : List User
deriving DecidableEq, Repr

/-- A call made by `route.go` or `role.go` to a collaborator that is not among the sources:
the actor methods `GetDomainByName` and `GetApplicationsByGUIDs`, and the methods `GetRoutes`,
`GetSpaces`, `GetRouteDestinations`, `DeleteRoute`, `PollJob`, `CreateRole` and `GetRoles` of
the cloud controller client. -/
inductive Call where
  | GetDomainByName (domainName : GoString)
  | GetRoutes (filters : List Query)
  | GetSpaces (query : Query)
  | GetRouteDestinations (routeGUID : GoString)
  | GetApplicationsByGUIDs (appGUIDs : List GoString)
  | DeleteRoute (routeGUID : GoString)
  | PollJob (jobURL : GoString)
  | CreateRole (role : ccv3_Role)
  | GetRoles (queries : List Query)
deriving DecidableEq, Repr

/-- A call together with the warnings and the error it returned. -/
structure Exchange where
  call : Call
  warnings : Warnings
  err : Option GoError
deriving DecidableEq, Repr

/-- How the collaborators answer. An answer may depend on every exchange made before it as
well as on the arguments of the call. Unless given, the answers on destinations, applications,
route deletion, jobs and roles are empty and without error. -/
structure CloudController where
  GetDomainByName : List Exchange → GoString → Domain × Warnings × Option GoError
  GetRoutes : List Exchange → List Query → List ccv3_Route × Warnings × Option GoError
  GetSpaces : List Exchange → Query → List ccv3_Space × Warnings × Option GoError
  GetRouteDestinations :
    List Exchange → GoString → List ccv3_RouteDestination × Warnings × Option GoError :=
      fun _ _ => ([], [], none)
  GetApplicationsByGUIDs :
    List Exchange → List GoString → List Application × Warnings × Option GoError :=
      fun _ _ => ([], [], none)
  DeleteRoute : List Exchange → GoString → GoString × Warnings × Option GoError :=
    fun _ _ => ([], [], none)
  PollJob : List Exchange → GoString → Warnings × Option GoError := fun _ _ => ([], none)
  CreateRole : List Exchange → ccv3_Role → ccv3_Role × Warnings × Option GoError :=
    fun _ role => (role, [], none)
  GetRoles :
    List Exchange → List Query → List ccv3_Role × IncludedResources × Warnings × Option GoError :=
      fun _ _ => ([], { Users := [] }, [], none)

/-- The call `actor.GetDomainByName(domainName)`: its results, and the exchanges with this
one added. -/
def CloudController.callGetDomainByName (cc : CloudController) (domainName : GoString)
    (history : List Exchange) : (Domain × Warnings × Option GoError) × List Exchange :=
  match cc.GetDomainByName history domainName with
  | (domain, warnings, err) =>
    ((domain, warnings, err),
      history ++ [{ call := Call.GetDomainByName domainName, warnings := warnings, err := err }])

/-- The call `actor.CloudControllerClient.GetRoutes(filters...)`. -/
def CloudController.callGetRoutes (cc : CloudController) (filters : List Query)
    (history : List Exchange) : (List ccv3_Route × Warnings × Option GoError) × List Exchange :=
  match cc.GetRoutes history filters with
  | (routes, warnings, err) =>
    ((routes, warnings, err),
      history ++ [{ call := Call.GetRoutes filters, warnings := warnings, err := err }])

/-- The call `actor.CloudControllerClient.GetSpaces(query)`. -/
def CloudController.callGetSpaces (cc : CloudController) (query : Query)
    (history : List Exchange) : (List ccv3_Space × Warnings × Option GoError) × List Exchange :=
  match cc.GetSpaces history query with
  | (spaces, warnings, err) =>
    ((spaces, warnings, err),
      history ++ [{ call := Call.GetSpaces query, warnings := warnings, err := err }])

/-- The type assertion `_, ok := err.(actionerror.DomainNotFoundError)`. -/
def isDomainNotFoundError : Option GoError → Bool
  | some (GoError.DomainNotFoundError _ _) => true
  | _ => false

/-- The method `Actor.parseRoutePath`, the actor being given by its collaborators. The two
indexings of `routeParts` and of `domainParts` are in range: a split into at most two pieces
has at least one piece, and the second piece is read only when there are two. -/
def Actor.parseRoutePath (cc : CloudController) (routePath : GoString)
    (history : List Exchange) :
    (GoString × GoString × GoString × GoString × Warnings × Option GoError) × List Exchange :=
  let routeParts := strings_SplitN routePath (str "/") 2
  let domainName := routeParts.getD 0 []
  let pathPart := if routeParts.length > 1 then str "/" ++ routeParts.getD 1 [] else []
  let domainParts := strings_SplitN domainName (str ".") 2
  let domainHasMultipleParts := decide (domainParts.length > 1)
  match cc.callGetDomainByName domainName history with
  | ((domain, allWarnings, err), history1) =>
    let domainNotFound := isDomainNotFoundError err
    let needToCheckForHost := domainNotFound && domainHasMultipleParts
    if err.isSome && !needToCheckForHost then
      (([], [], [], [], allWarnings, err), history1)
    else if needToCheckForHost then
      let domainName := domainParts.getD 1 []
      let hostPart := domainParts.getD 0 []
      match cc.callGetDomainByName domainName history1 with
      | ((domain, warnings, err), history2) =>
        let allWarnings := allWarnings ++ warnings
        if err.isSome then
          (([], [], [], [], allWarnings, err), history2)
        else
          ((hostPart, pathPart, domainName, domain.GUID, allWarnings, none), history2)
    else
      (([], pathPart, domainName, domain.GUID, allWarnings, none), history1)

/-- The first loop of `createActionRoutes`: the set of the space GUIDs seen and the values
of the spaces query, each space GUID once, in the order of first occurrence. -/
def Actor.createActionRoutes.spacesQuery (routes : List ccv3_Route) :
    List (GoString × Unit) × Query :=
  routes.foldl (fun (state : List (GoString × Unit) × Query) route =>
    if !(mapHas state.1 route.SpaceGUID) then
      (mapAssign state.1 route.SpaceGUID (),
        { state.2 with Values := state.2.Values ++ [route.SpaceGUID] })
    else state) ([], { Key := QueryKey.GUIDFilter, Values := [] })

/-- The method `Actor.createActionRoutes`. -/
def Actor.createActionRoutes (cc : CloudController) (routes : List ccv3_Route)
    (allWarnings : Warnings) (history : List Exchange) :
    (List Route × Warnings × Option GoError) × List Exchange :=
  let spacesQuery := (Actor.createActionRoutes.spacesQuery routes).2
  match cc.callGetSpaces spacesQuery history with
  | ((spaces, warnings, err), history1) =>
    let allWarnings := allWarnings ++ warnings
    match err with
    | some e => (([], allWarnings, some e), history1)
    | none =>
      let spacesByGUID := spaces.foldl (fun (m : List (GoString × ccv3_Space)) space =>
        mapAssign m space.GUID space) []
      let actorRoutes := routes.foldl (fun (actorRoutes : List Route) route =>
        actorRoutes ++ [{ GUID := route.GUID
                          Host := route.Host
                          Path := route.Path
                          SpaceGUID := route.SpaceGUID
                          DomainGUID := route.DomainGUID
                          URL := route.URL
                          SpaceName := (mapIndex spacesByGUID route.SpaceGUID).Name
                          DomainName := getDomainName route.URL route.Host route.Path }]) []
      ((actorRoutes, allWarnings, none), history1)

/-- The method `Actor.GetRouteByNameAndSpace`. The indexing `actionRoutes[0]` is in range:
`createActionRoutes` returns one route per route given, and at least one is given. -/
def Actor.GetRouteByNameAndSpace (cc : CloudController) (routePath spaceGUID : GoString)
    (history : List Exchange) : (Route × Warnings × Option GoError) × List Exchange :=
  let filters : List Query := [{ Key := QueryKey.SpaceGUIDFilter, Values := [spaceGUID] }]
  match Actor.parseRoutePath cc routePath history with
  | ((hostPart, pathPart, domainName, domainGUID, allWarnings, err), history1) =>
    match err with
    | some e => ((Route.zero, allWarnings, some e), history1)
    | none =>
      let filters := filters ++ [{ Key := QueryKey.DomainGUIDFilter, Values := [domainGUID] }]
      let filters := filters ++ [{ Key := QueryKey.HostsFilter, Values := [hostPart] }]
      let filters := filters ++ [{ Key := QueryKey.PathsFilter, Values := [pathPart] }]
      match cc.callGetRoutes filters history1 with
      | ((routes, warnings, err), history2) =>
        let allWarnings := allWarnings ++ warnings
        match err with
        | some e => ((Route.zero, allWarnings, some e), history2)
        | none =>
          if routes.length = 0 then
            ((Route.zero, allWarnings,
              some (GoError.RouteNotFoundError domainName [] hostPart pathPart)), history2)
          else
            match Actor.createActionRoutes cc routes allWarnings history2 with
            | ((actionRoutes, allWarnings, err), history3) =>
              match err with
              | some e => ((Route.zero, allWarnings, some e), history3)
              | none => ((actionRoutes.getD 0 Route.zero, allWarnings, none), history3)

/-! ### Vocabulary for the statements on routes -/

/-- The text of a route path before its first "/", which `parseRoutePath` looks up first. -/
def routeDomainName (routePath : GoString) : GoString :=
  (strings_SplitN routePath (str "/") 2).getD 0 []

/-- The path part of a route path: empty without "/", else the text from the first "/" on. -/
def routePathPart (routePath : GoString) : GoString :=
  if (strings_SplitN routePath (str "/") 2).length > 1 then
    str "/" ++ (strings_SplitN routePath (str "/") 2).getD 1 []
  else []

/-- The four filters of the routes query of `GetRouteByNameAndSpace`. -/
def routeFilters (spaceGUID domainGUID hostPart pathPart : GoString) : List Query :=
  [{ Key := QueryKey.SpaceGUIDFilter, Values := [spaceGUID] },
   { Key := QueryKey.DomainGUIDFilter, Values := [domainGUID] },
   { Key := QueryKey.HostsFilter, Values := [hostPart] },
   { Key := QueryKey.PathsFilter, Values := [pathPart] }]

/-- The warnings of a sequence of exchanges, in call order. -/
def warningsOf (exchanges : List Exchange) : Warnings :=
  exchanges.flatMap fun x => x.warnings

/-- Whether a call is a domain lookup. -/
def Call.isDomainLookup : Call → Bool
  | Call.GetDomainByName _ => true
  | _ => false

/-- Whether the text before the first "/" of a route path has a "." in it, so that a host
may be split off. -/
def routeNameHasDot (routePath : GoString) : Bool :=
  decide ((strings_SplitN (routeDomainName routePath) (str ".") 2).length > 1)

/-- The host split off the text before the first "/": what stands before its first ".". -/
def routeHostPart (routePath : GoString) : GoString :=
  (strings_SplitN (routeDomainName routePath) (str ".") 2).getD 0 []

/-- The domain name left when the host is split off: what stands after the first ".". -/
def routeDomainAfterHost (routePath : GoString) : GoString :=
  (strings_SplitN (routeDomainName routePath) (str ".") 2).getD 1 []

/-- The exchange recorded for a domain lookup. -/
def lookupExchange (domainName : GoString) (warnings : Warnings) (err : Option GoError) :
    Exchange :=
  { call := Call.GetDomainByName domainName, warnings := warnings, err := err }

/-- The exchange recorded for a routes query. -/
def routesExchange (filters : List Query) (warnings : Warnings) (err : Option GoError) :
    Exchange :=
  { call := Call.GetRoutes filters, warnings := warnings, err := err }

/-- The exchange recorded for a spaces query. -/
def spacesExchange (query : Query) (warnings : Warnings) (err : Option GoError) : Exchange :=
  { call := Call.GetSpaces query, warnings := warnings, err := err }

/-- The spaces found by the spaces query, by GUID: the map built by the second loop of
`createActionRoutes`. -/
def spacesByGUID (spaces : List ccv3_Space) : List (GoString × ccv3_Space) :=
  spaces.foldl (fun (m : List (GoString × ccv3_Space)) space => mapAssign m space.GUID space) []

/-- The route that `createActionRoutes` builds from a route of the routes query. -/
def actionRouteOf (spaces : List ccv3_Space) (route : ccv3_Route) : Route :=
  { GUID := route.GUID
    Host := route.Host
    Path := route.Path
    SpaceGUID := route.SpaceGUID
    DomainGUID := route.DomainGUID
    URL := route.URL
    SpaceName := (mapIndex (spacesByGUID spaces) route.SpaceGUID).Name
    DomainName := getDomainName route.URL route.Host route.Path }

/-! ### Sample collaborators of the routes -/

/-- The collaborators of the test "UpdateRouteLabels" of `label_test.go`: one domain, one
route and one space, with the warnings of the test, whatever is asked. -/
def sampleCloudController : CloudController :=
  { GetDomainByName := fun _ _ =>
      ({ Name := str "domain-name", GUID := str "domain-guid" }, [str "get-domains-warning"], none)
    GetRoutes := fun _ _ =>
      ([{ GUID := str "route-guid", SpaceGUID := str "space-guid", DomainGUID := str "domain-guid",
          Host := str "hostname", URL := str "hostname.domain-name", Path := str "/the-path" }],
       [str "get-route-warning-1", str "get-route-warning-2"], none)
    GetSpaces := fun _ _ =>
      ([{ Name := str "space-name", GUID := str "space-guid" }], [str "get-spaces-warning"], none) }

/-- The collaborators of the test "fetching the route fails" of `label_test.go`. -/
def sampleBrokenCloudController : CloudController :=
  { GetDomainByName := fun _ _ =>
      ({ Name := [], GUID := [] }, [str "get-domains-warning"],
        some (errors_New (str "get-domain-error")))
    GetRoutes := fun _ _ => ([], [], none)
    GetSpaces := fun _ _ => ([], [], none) }

/-- Collaborators that know the domain "example.com" only: any other name is answered with a
domain-not-found error and one warning. -/
def sampleHostCloudController : CloudController :=
  { sampleCloudController with
    GetDomainByName := fun _ name =>
      if name = str "example.com" then
        ({ Name := str "example.com", GUID := str "domain-guid" }, [str "found-warning"], none)
      else
        ({ Name := [], GUID := [] }, [str "not-found-warning"],
          some (GoError.DomainNotFoundError name [])) }

/-! ## Destinations, summaries and deletion of routes (`actor/v7action/route.go`) -/

/-- The constant `constant.ProcessTypeWeb`. -/
def constant_ProcessTypeWeb : GoString := str "web"

/-- The call `actor.CloudControllerClient.GetRouteDestinations(routeGUID)`. -/
def CloudController.callGetRouteDestinations (cc : CloudController) (routeGUID : GoString)
    (history : List Exchange) :
    (List ccv3_RouteDestination × Warnings × Option GoError) × List Exchange :=
  match cc.GetRouteDestinations history routeGUID with
  | (destinations, warnings, err) =>
    ((destinations, warnings, err),
      history ++ [{ call := Call.GetRouteDestinations routeGUID, warnings := warnings, err := err }])

/-- The call `actor.GetApplicationsByGUIDs(appGUIDs)`. -/
def CloudController.callGetApplicationsByGUIDs (cc : CloudController) (appGUIDs : List GoString)
    (history : List Exchange) : (List Application × Warnings × Option GoError) × List Exchange :=
  match cc.GetApplicationsByGUIDs history appGUIDs with
  | (apps, warnings, err) =>
    ((apps, warnings, err),
      history ++ [{ call := Call.GetApplicationsByGUIDs appGUIDs, warnings := warnings,
                    err := err }])

/-- The call `actor.CloudControllerClient.DeleteRoute(routeGUID)`. -/
def CloudController.callDeleteRoute (cc : CloudController) (routeGUID : GoString)
    (history : List Exchange) : (GoString × Warnings × Option GoError) × List Exchange :=
  match cc.DeleteRoute history routeGUID with
  | (jobURL, warnings, err) =>
    ((jobURL, warnings, err),
      history ++ [{ call := Call.DeleteRoute routeGUID, warnings := warnings, err := err }])

/-- The call `actor.CloudControllerClient.PollJob(jobURL)`. -/
def CloudController.callPollJob (cc : CloudController) (jobURL : GoString)
    (history : List Exchange) : (Warnings × Option GoError) × List Exchange :=
  match cc.PollJob history jobURL with
  | (warnings, err) =>
    ((warnings, err),
      history ++ [{ call := Call.PollJob jobURL, warnings := warnings, err := err }])

/-- The method `Actor.GetRouteDestinations`. -/
def Actor.GetRouteDestinations (cc : CloudController) (routeGUID : GoString)
    (history : List Exchange) :
    (List RouteDestination × Warnings × Option GoError) × List Exchange :=
  match cc.callGetRouteDestinations routeGUID history with
  | ((destinations, warnings, err), history1) =>
    let actorDestinations := destinations.foldl (fun (acc : List RouteDestination) dst =>
      acc ++ [{ GUID := dst.GUID, App := dst.App }]) []
    ((actorDestinations, warnings, err), history1)

/-- The error returned by `GetRouteDestinationByAppGUID`: the error of the collaborator, handed
on, or the value `actionerror.RouteDestinationNotFoundError{AppGUID, ProcessType, RouteGUID}`. -/
inductive DestinationError where
  | collaborator (err : GoError)
  | RouteDestinationNotFoundError (AppGUID ProcessType RouteGUID : GoString)
deriving DecidableEq, Repr

/-- The loop of `GetRouteDestinationByAppGUID`: the first destination of the application
whose process type is web. -/
def Actor.GetRouteDestinationByAppGUID.search (appGUID : GoString) :
    List RouteDestination → Option RouteDestination
  | [] => none
  | destination :: rest =>
    if destination.App.GUID == appGUID
        && destination.App.Process.Type_ == constant_ProcessTypeWeb then
      some destination
    else Actor.GetRouteDestinationByAppGUID.search appGUID rest

/-- The method `Actor.GetRouteDestinationByAppGUID`. -/
def Actor.GetRouteDestinationByAppGUID (cc : CloudController) (routeGUID appGUID : GoString)
    (history : List Exchange) :
    (RouteDestination × Warnings × Option DestinationError) × List Exchange :=
  match Actor.GetRouteDestinations cc routeGUID history with
  | ((allDestinations, warnings, err), history1) =>
    match err with
    | some e => ((RouteDestination.zero, warnings, some (DestinationError.collaborator e)), history1)
    | none =>
      match Actor.GetRouteDestinationByAppGUID.search appGUID allDestinations with
      | some destination => ((destination, warnings, none), history1)
      | none =>
        ((RouteDestination.zero, warnings,
          some (DestinationError.RouteDestinationNotFoundError appGUID constant_ProcessTypeWeb
            routeGUID)), history1)

/-- The method `Actor.DeleteRoute`. -/
def Actor.DeleteRoute (cc : CloudController) (domainName hostname path : GoString)
    (history : List Exchange) : (Warnings × Option GoError) × List Exchange :=
  let allWarnings : Warnings := []
  match cc.callGetDomainByName domainName history with
  | ((domain, warnings, err), history1) =>
    let allWarnings := allWarnings ++ warnings
    match err with
    | some (GoError.DomainNotFoundError name guid) =>
      ((allWarnings ++ [GoError.Error (GoError.DomainNotFoundError name guid)], none), history1)
    | some e => ((allWarnings, some e), history1)
    | none =>
      let queryArray : List Query :=
        [{ Key := QueryKey.DomainGUIDFilter, Values := [domain.GUID] },
         { Key := QueryKey.HostsFilter, Values := [hostname] },
         { Key := QueryKey.PathsFilter, Values := [path] }]
      match cc.callGetRoutes queryArray history1 with
      | ((routes, apiWarnings, err), history2) =>
        let allWarnings := allWarnings ++ apiWarnings
        match err with
        | some e => ((allWarnings, some e), history2)
        | none =>
          match routes with
          | [] =>
            ((allWarnings, some (GoError.RouteNotFoundError domainName [] hostname path)),
              history2)
          | route :: _ =>
            match cc.callDeleteRoute route.GUID history2 with
            | ((jobURL, apiWarnings, err), history3) =>
              let allWarnings := allWarnings ++ apiWarnings
              match err with
              | some e => ((allWarnings, some e), history3)
              | none =>
                match cc.callPollJob jobURL history3 with
                | ((pollJobWarnings, err), history4) =>
                  ((allWarnings ++ pollJobWarnings, err), history4)

/-- The variables of the first loop of `GetRouteSummaries`. -/
structure GetRouteSummaries.State where
  allWarnings : Warnings
  destinationAppGUIDsByRouteGUID : List (GoString × List GoString)
  destinationAppGUIDs : List (GoString × Bool)
  uniqueAppGUIDs : List GoString
deriving DecidableEq, Repr

/-- One iteration of the loop of `GetRouteSummaries` over the destinations of a route. -/
def GetRouteSummaries.destination (routeGUID : GoString) (st : GetRouteSummaries.State)
    (destination : RouteDestination) : GetRouteSummaries.State :=
  let appGUID := destination.App.GUID
  let st1 :=
    if !(mapHas st.destinationAppGUIDs appGUID) then
      { st with
        destinationAppGUIDs := mapAssign st.destinationAppGUIDs appGUID true
        uniqueAppGUIDs := st.uniqueAppGUIDs ++ [appGUID] }
    else st
  { st1 with
    destinationAppGUIDsByRouteGUID :=
      mapAssign st1.destinationAppGUIDsByRouteGUID routeGUID
        (mapIndex st1.destinationAppGUIDsByRouteGUID routeGUID ++ [appGUID]) }

/-- The first loop of `GetRouteSummaries`, over the routes: the error on which it returns, if
any, the variables, and the exchanges made. -/
def GetRouteSummaries.collect (cc : CloudController) :
    List Route → GetRouteSummaries.State → List Exchange →
      Option GoError × GetRouteSummaries.State × List Exchange
  | [], st, history => (none, st, history)
  | route :: rest, st, history =>
    match Actor.GetRouteDestinations cc route.GUID history with
    | ((destinations, warnings, err), history1) =>
      let st1 := { st with allWarnings := st.allWarnings ++ warnings }
      match err with
      | some e => (some e, st1, history1)
      | none =>
        GetRouteSummaries.collect cc rest
          (destinations.foldl (GetRouteSummaries.destination route.GUID) st1) history1

/-- The method `Actor.GetRouteSummaries`. The comparison `sorting.LessIgnoreCase` and the
sorting `sort.Slice` are not among the sources and are given. -/
def Actor.GetRouteSummaries (cc : CloudController)
    (LessIgnoreCase : GoString → GoString → Bool)
    (sort_Slice : (RouteSummary → RouteSummary → Bool) → List RouteSummary → List RouteSummary)
    (routes : List Route) (history : List Exchange) :
    (List RouteSummary × Warnings × Option GoError) × List Exchange :=
  match GetRouteSummaries.collect cc routes
      { allWarnings := [], destinationAppGUIDsByRouteGUID := [], destinationAppGUIDs := [],
        uniqueAppGUIDs := [] } history with
  | (some e, st, history1) => (([], st.allWarnings, some e), history1)
  | (none, st, history1) =>
    match cc.callGetApplicationsByGUIDs st.uniqueAppGUIDs history1 with
    | ((apps, warnings, err), history2) =>
      let allWarnings := st.allWarnings ++ warnings
      match err with
      | some e => (([], allWarnings, some e), history2)
      | none =>
        let appNamesByGUID := apps.foldl (fun (m : List (GoString × GoString)) app =>
          mapAssign m app.GUID app.Name) []
        let routeSummaries := routes.foldl (fun (routeSummaries : List RouteSummary) route =>
          let appGUIDs := mapIndex st.destinationAppGUIDsByRouteGUID route.GUID
          let appNames := appGUIDs.foldl (fun (appNames : List GoString) appGUID =>
            appNames ++ [mapIndex appNamesByGUID appGUID]) []
          routeSummaries ++ [{ Route := route, AppNames := appNames }]) []
        ((sort_Slice (fun a b => LessIgnoreCase a.Route.SpaceName b.Route.SpaceName)
            routeSummaries, allWarnings, none), history2)

/-! ## Roles (`actor/v7action/role.go`) -/

/-- The constant `constant.OrgUserRole`. -/
def constant_OrgUserRole : RoleType := str "organization_user"

/-- The zero value `ccv3.Role{}`. -/
def ccv3_Role.zero : ccv3_Role :=
  { GUID := [], Type_ := [], UserGUID := [], Username := [], Origin := [], OrgGUID := [],
    SpaceGUID := [] }

/-- The call `actor.CloudControllerClient.CreateRole(role)`. -/
def CloudController.callCreateRole (cc : CloudController) (role : ccv3_Role)
    (history : List Exchange) : (ccv3_Role × Warnings × Option GoError) × List Exchange :=
  match cc.CreateRole history role with
  | (created, warnings, err) =>
    ((created, warnings, err),
      history ++ [{ call := Call.CreateRole role, warnings := warnings, err := err }])

/-- The call `actor.CloudControllerClient.GetRoles(queries...)`. -/
def CloudController.callGetRoles (cc : CloudController) (queries : List Query)
    (history : List Exchange) :
    (List ccv3_Role × IncludedResources × Warnings × Option GoError) × List Exchange :=
  match cc.GetRoles history queries with
  | (roles, includes, warnings, err) =>
    ((roles, includes, warnings, err),
      history ++ [{ call := Call.GetRoles queries, warnings := warnings, err := err }])

/-- The method `Actor.CreateOrgRole`. -/
def Actor.CreateOrgRole (cc : CloudController) (roleType : RoleType)
    (orgGUID userNameOrGUID userOrigin : GoString) (isClient : Bool) (history : List Exchange) :
    (Warnings × Option GoError) × List Exchange :=
  let roleToCreate : ccv3_Role := { ccv3_Role.zero with Type_ := roleType, OrgGUID := orgGUID }
  let roleToCreate : ccv3_Role :=
    if isClient then { roleToCreate with UserGUID := userNameOrGUID }
    else { roleToCreate with Username := userNameOrGUID, Origin := userOrigin }
  match cc.callCreateRole roleToCreate history with
  | ((_, warnings, err), history1) => ((warnings, err), history1)

/-- The type assertion `_, isIdempotentError := err.(ccerror.RoleAlreadyExistsError)`. -/
def isRoleAlreadyExistsError : GoError → Bool
  | GoError.RoleAlreadyExistsError _ => true
  | _ => false

/-- The method `Actor.CreateSpaceRole`. -/
def Actor.CreateSpaceRole (cc : CloudController) (roleType : RoleType)
    (orgGUID spaceGUID userNameOrGUID userOrigin : GoString) (isClient : Bool)
    (history : List Exchange) : (Warnings × Option GoError) × List Exchange :=
  let roleToCreate : ccv3_Role :=
    { ccv3_Role.zero with Type_ := roleType, SpaceGUID := spaceGUID }
  let roleToCreate : ccv3_Role :=
    if isClient then { roleToCreate with UserGUID := userNameOrGUID }
    else { roleToCreate with Username := userNameOrGUID, Origin := userOrigin }
  match Actor.CreateOrgRole cc constant_OrgUserRole orgGUID userNameOrGUID userOrigin isClient
      history with
  | ((warnings, err), history1) =>
    let attempt : (Warnings × Option GoError) × List Exchange :=
      match cc.callCreateRole roleToCreate history1 with
      | ((_, ccv3Warnings, err), history2) => ((warnings ++ ccv3Warnings, err), history2)
    match err with
    | some e => if !(isRoleAlreadyExistsError e) then ((warnings, some e), history1) else attempt
    | none => attempt

/-- The method `Actor.getUsersByRoleType`. -/
def Actor.getUsersByRoleType (cc : CloudController) (guid : GoString) (filterKey : QueryKey)
    (history : List Exchange) :
    (List (RoleType × List User) × Warnings × Option GoError) × List Exchange :=
  match cc.callGetRoles
      [{ Key := filterKey, Values := [guid] }, { Key := QueryKey.Include, Values := [str "user"] }]
      history with
  | ((ccv3Roles, includes, ccWarnings, err), history1) =>
    match err with
    | some e => (([], ccWarnings, some e), history1)
    | none =>
      let usersByGuids := includes.Users.foldl (fun (m : List (GoString × User)) user =>
        mapAssign m user.GUID user) []
      let usersByRoleType := ccv3Roles.foldl
        (fun (m : List (RoleType × List User)) role =>
          let user := mapIndex usersByGuids role.UserGUID
          mapAssign m role.Type_ (mapIndex m role.Type_ ++ [user])) []
      ((usersByRoleType, ccWarnings, none), history1)

/-! ### Sample collaborators of the roles -/

/-- A user of the given GUID and name. -/
def sampleUser (guid name : String) : User :=
  { GUID := str guid, Username := str name, PresentationName := str name, Origin := str "uaa" }

/-- A role of the given type held by the user of the given GUID. -/
def sampleRole (roleType userGUID : String) : ccv3_Role :=
  { ccv3_Role.zero with Type_ := str roleType, UserGUID := str userGUID }

/-- Collaborators whose roles query returns three roles and three included users, two of
which share a GUID. -/
def sampleRolesCloudController : CloudController :=
  { sampleCloudController with
    GetRoles := fun _ _ =>
      ([sampleRole "organization_manager" "user-1", sampleRole "organization_user" "user-2",
        sampleRole "organization_manager" "user-3"],
       { Users := [sampleUser "user-1" "first", sampleUser "user-2" "second",
                   sampleUser "user-1" "renamed"] },
       [str "get-roles-warning"], none) }

/-! ### Vocabulary and sample collaborators for destinations, deletion and roles -/

/-- The role that `CreateOrgRole` and `CreateSpaceRole` ask the cloud controller to create
for a user: the type, the organization or space, and the user, given by GUID when it is a
client and by name and origin otherwise. -/
def userRole (roleType : RoleType) (orgGUID spaceGUID userNameOrGUID userOrigin : GoString)
    (isClient : Bool) : ccv3_Role :=
  { GUID := []
    Type_ := roleType
    OrgGUID := orgGUID
    SpaceGUID := spaceGUID
    UserGUID := if isClient then userNameOrGUID else []
    Username := if isClient then [] else userNameOrGUID
    Origin := if isClient then [] else userOrigin }

/-- The exchange recorded for a role creation. -/
def roleExchange (role : ccv3_Role) (warnings : Warnings) (err : Option GoError) : Exchange :=
  { call := Call.CreateRole role, warnings := warnings, err := err }

/-- The exchange recorded for a destinations request. -/
def destinationsExchange (routeGUID : GoString) (warnings : Warnings) (err : Option GoError) :
    Exchange :=
  { call := Call.GetRouteDestinations routeGUID, warnings := warnings, err := err }

/-- The three filters of the routes query of `DeleteRoute`. -/
def deleteFilters (domainGUID hostname path : GoString) : List Query :=
  [{ Key := QueryKey.DomainGUIDFilter, Values := [domainGUID] },
   { Key := QueryKey.HostsFilter, Values := [hostname] },
   { Key := QueryKey.PathsFilter, Values := [path] }]

/-- Whether a destination belongs to the application and has the process type web. -/
def isWebDestinationOf (appGUID : GoString) (d : ccv3_RouteDestination) : Bool :=
  d.App.GUID == appGUID && d.App.Process.Type_ == constant_ProcessTypeWeb

/-- A destination of the given GUID, application and process type. -/
def sampleDestination (guid appGUID processType : String) : ccv3_RouteDestination :=
  { GUID := str guid, App := { GUID := str appGUID, Process := { Type_ := str processType } } }

/-- Collaborators for the destinations and the roles: every route has three destinations,
two of the application "app-1" (a worker and a web process) and one of "app-2"; the
applications "app-1" and "app-2" are known; creating an organization role fails with a
role-already-exists error and creating any other role succeeds. -/
def sampleDestinationsCloudController : CloudController :=
  { sampleCloudController with
    GetRouteDestinations := fun _ _ =>
      ([sampleDestination "dst-1" "app-1" "worker", sampleDestination "dst-2" "app-1" "web",
        sampleDestination "dst-3" "app-2" "web"], [str "get-destinations-warning"], none)
    GetApplicationsByGUIDs := fun _ _ =>
      ([{ Name := str "first-app", GUID := str "app-1" },
        { Name := str "second-app", GUID := str "app-2" }], [str "get-apps-warning"], none)
    CreateRole := fun _ role =>
      if role.OrgGUID ≠ [] then
        (role, [str "create-org-role-warning"],
          some (GoError.RoleAlreadyExistsError (str "User already has the role")))
      else (role, [str "create-space-role-warning"], none) }

/-- Collaborators that do not know any domain, and have no route. -/
def sampleNoDomainCloudController : CloudController :=
  { sampleCloudController with
    GetDomainByName := fun _ name =>
      ({ Name := [], GUID := [] }, [str "get-domains-warning"],
        some (GoError.DomainNotFoundError name []))
    GetRoutes := fun _ _ => ([], [str "get-routes-warning"], none) }

/-- Collaborators that know every domain but have no route. -/
def sampleNoRouteCloudController : CloudController :=
  { sampleCloudController with
    GetRoutes := fun _ _ => ([], [str "get-routes-warning"], none) }

/-- The exchange recorded for an applications request. -/
def appsExchange (appGUIDs : List GoString) (warnings : Warnings) (err : Option GoError) :
    Exchange :=
  { call := Call.GetApplicationsByGUIDs appGUIDs, warnings := warnings, err := err }

/-- The name that `GetRouteSummaries` reads in its map of names for an application GUID: the
name of the last application of the answer with that GUID, the empty string if there is
none. -/
def appNameOf (apps : List Application) (appGUID : GoString) : GoString :=
  match apps.reverse.find? (fun app => app.GUID == appGUID) with
  | some app => app.Name
  | none => []

/-- Two routes with distinct GUIDs. -/
def sampleRoutes : List Route :=
  [{ Route.zero with GUID := str "route-1", SpaceName := str "space-b" },
   { Route.zero with GUID := str "route-2", SpaceName := str "Space-A" }]

/-- A comparison of names that ignores the case of the ASCII letters. -/
def sampleLessIgnoreCase (a b : GoString) : Bool :=
  decide (a.map (fun c => if 65 ≤ c ∧ c ≤ 90 then c.toNat + 32 else c.toNat)
    < b.map (fun c => if 65 ≤ c ∧ c ≤ 90 then c.toNat + 32 else c.toNat))

/-- A sort of summaries by a strict order, by insertion. -/
def sampleSort (less : RouteSummary → RouteSummary → Bool) (l : List RouteSummary) :
    List RouteSummary :=
  l.insertionSort fun a b => less b a = false

/-- Whether the collaborator answers the destinations requests of `GetRouteSummaries` for
these routes, each request made at the history left by the requests before it, with the
destinations and warnings paired with the route and a nil error. -/
def answersDestinations (cc : CloudController) :
    List (Route × List ccv3_RouteDestination × Warnings) → List Exchange → Bool
  | [], _ => true
  | (route, destinations, warnings) :: rest, history =>
    decide (cc.GetRouteDestinations history route.GUID = (destinations, warnings, none))
      && answersDestinations cc rest (history ++ [destinationsExchange route.GUID warnings none])

/-- The exchanges recorded for the destinations requests of routes paired with their
answers. -/
def destinationsExchanges (asked : List (Route × List ccv3_RouteDestination × Warnings)) :
    List Exchange :=
  asked.map fun p => destinationsExchange p.1.GUID p.2.2 none

/-- The application GUIDs of the destinations of routes paired with their answers, route
after route, in the order of the destinations. -/
def askedAppGUIDs (asked : List (Route × List ccv3_RouteDestination × Warnings)) :
    List GoString :=
  asked.flatMap fun p => p.2.1.map fun d => d.App.GUID

/-- The elements of a list without repetition, in the order of their first occurrences. -/
def firstOccurrences (l : List GoString) : List GoString :=
  l.foldl (fun acc g => if g ∈ acc then acc else acc ++ [g]) []

/-- Collaborators whose answers depend on what was asked before: the first destinations
request finds three destinations, two of the application "app-1" and one of "app-2", every
later one finds a destination of "app-2" and one of "app-3"; the applications request
succeeds for the list "app-1", "app-2", "app-3" alone, and knows the first two. -/
def sampleStatefulCloudController : CloudController :=
  { sampleCloudController with
    GetRouteDestinations := fun history _ =>
      if history.isEmpty then
        ([sampleDestination "dst-1" "app-1" "worker", sampleDestination "dst-2" "app-1" "web",
          sampleDestination "dst-3" "app-2" "web"], [str "first-destinations-warning"], none)
      else
        ([sampleDestination "dst-4" "app-2" "web", sampleDestination "dst-5" "app-3" "web"],
          [str "later-destinations-warning"], none)
    GetApplicationsByGUIDs := fun _ appGUIDs =>
      if appGUIDs = [str "app-1", str "app-2", str "app-3"] then
        ([{ Name := str "first-app", GUID := str "app-1" },
          { Name := str "second-app", GUID := str "app-2" }], [str "get-apps-warning"], none)
      else ([], [], some (errors_New (str "unexpected request"))) }

/-- The two sample routes, each with the answer of the stateful collaborators to its
destinations request. -/
def sampleAsked : List (Route × List ccv3_RouteDestination × Warnings) :=
  [({ Route.zero with GUID := str "route-1", SpaceName := str "space-b" },
    [sampleDestination "dst-1" "app-1" "worker", sampleDestination "dst-2" "app-1" "web",
      sampleDestination "dst-3" "app-2" "web"], [str "first-destinations-warning"]),
   ({ Route.zero with GUID := str "route-2", SpaceName := str "Space-A" },
    [sampleDestination "dst-4" "app-2" "web", sampleDestination "dst-5" "app-3" "web"],
    [str "later-destinations-warning"])]

/-! ## The application name override (`actor/v7pushaction/handle_app_name_override.go`) -/

/-- The fields of a `pushmanifestparser.Application`: its name, and two fields standing for
all the others, none of which is read or written here. -/
structure pushmanifestparser_Application where
  Name : GoString
  Path : GoString
  RemainingManifestFields : List (GoString × GoString)
deriving DecidableEq, Repr

/-- The zero value `pushmanifestparser.Application{}`. -/
def pushmanifestparser_Application.zero : pushmanifestparser_Application :=
  { Name := [], Path := [], RemainingManifestFields := [] }

/-- A `pushmanifestparser.Manifest`: its applications, and a field standing for the others. -/
structure Manifest where
  Applications : List pushmanifestparser_Application
  PathToManifest : GoString
deriving DecidableEq, Repr

/-- Modelled from the spec: the method `ContainsMultipleApps` of the manifest belongs to
package `pushmanifestparser`, which is not among the sources; by its name and its use it tells
whether the manifest has more than one application. -/
def Manifest.ContainsMultipleApps (manifest : Manifest) : Bool :=
  decide (manifest.Applications.length > 1)

/-- Modelled from the spec: the method `HasAppWithNoName` of the manifest belongs to package
`pushmanifestparser`, which is not among the sources; by its name and its use it tells whether
some application of the manifest has the empty name. -/
def Manifest.HasAppWithNoName (manifest : Manifest) : Bool :=
  manifest.Applications.any fun app => app.Name == []

/-- The field of `FlagOverrides` read by `HandleAppNameOverride`. -/
structure FlagOverrides where
  AppName : GoString
deriving DecidableEq, Repr

/-- The errors returned by `HandleAppNameOverride`: the value of `errors.New(text)` of package
`cf/errors`, `pushmanifestparser.AppNotInManifestError{Name}` and
`translatableerror.AppNameOrManifestRequiredError{}`. -/
inductive PushError where
  | errorString (text : GoString)
  | AppNotInManifestError (Name : GoString)
  | AppNameOrManifestRequiredError
deriving DecidableEq, Repr

/-- The loop of `HandleAppNameOverride` over the applications of the manifest: at the first
application carrying the name it stores the application in `newApps[0]`, sets `foundApp` and
breaks. The result is `newApps` and `foundApp`. -/
def HandleAppNameOverride.search (appName : GoString) :
    List pushmanifestparser_Application → List pushmanifestparser_Application →
      List pushmanifestparser_Application × Bool
  | [], newApps => (newApps, false)
  | app :: rest, newApps =>
    if app.Name == appName then (newApps.set 0 app, true)
    else HandleAppNameOverride.search appName rest newApps

/-- The assignment `manifest.Applications[0].Name = name`, made when there is exactly one
application. -/
def Manifest.setFirstName (manifest : Manifest) (name : GoString) : Manifest :=
  match manifest.Applications with
  | app :: rest => { manifest with Applications := { app with Name := name } :: rest }
  | [] => manifest

/-- The function `HandleAppNameOverride`: the manifest and the error returned. -/
def HandleAppNameOverride (manifest : Manifest) (overrides : FlagOverrides) :
    Manifest × Option PushError :=
  if manifest.ContainsMultipleApps && manifest.HasAppWithNoName then
    (manifest, some (PushError.errorString (str "Found an application with no name specified.")))
  else if overrides.AppName != [] then
    let newApps := [pushmanifestparser_Application.zero]
    match HandleAppNameOverride.search overrides.AppName manifest.Applications newApps with
    | (newApps, foundApp) =>
      if !foundApp then
        if manifest.Applications.length = 1 then
          (manifest.setFirstName overrides.AppName, none)
        else
          (manifest, some (PushError.AppNotInManifestError overrides.AppName))
      else
        ({ manifest with Applications := newApps }, none)
  else if manifest.HasAppWithNoName then
    (manifest, some PushError.AppNameOrManifestRequiredError)
  else
    (manifest, none)

/-- An application of a manifest, with a path. -/
def sampleApplication (name : String) : pushmanifestparser_Application :=
  { Name := str name, Path := str "/apps/" ++ str name, RemainingManifestFields := [] }

/-- A manifest of two applications, "spark" and "flame". -/
def sampleManifest : Manifest :=
  { Applications := [sampleApplication "spark", sampleApplication "flame"]
    PathToManifest := str "manifest.yml" }

/-- The manifest of the application "flame" alone. -/
def sampleFlameManifest : Manifest :=
  { Applications := [sampleApplication "flame"], PathToManifest := str "manifest.yml" }

/-- A manifest whose only application has no name. -/
def sampleNamelessManifest : Manifest :=
  { Applications := [sampleApplication ""], PathToManifest := str "manifest.yml" }

/-! ## Lemmas on the conversion -/

theorem convert_body_acc (acc : List LogMessage) (envelope : Option Envelope) :
    convertEnvelopesToLogMessages.body acc envelope
      = acc ++ convertEnvelopesToLogMessages.body [] envelope := by
  unfold convertEnvelopesToLogMessages.body
  split <;> simp

theorem convert_foldl_acc (envelopes : List (Option Envelope)) (acc : List LogMessage) :
    envelopes.foldl convertEnvelopesToLogMessages.body acc
      = acc ++ convertEnvelopesToLogMessages envelopes := by
  unfold convertEnvelopesToLogMessages
  induction envelopes generalizing acc with
  | nil => simp
  | cons e es ih =>
    simp only [List.foldl_cons]
    rw [ih (convertEnvelopesToLogMessages.body acc e),
      ih (convertEnvelopesToLogMessages.body [] e), convert_body_acc acc e, List.append_assoc]

theorem convert_nil : convertEnvelopesToLogMessages [] = [] := rfl

theorem convert_cons (e : Option Envelope) (es : List (Option Envelope)) :
    convertEnvelopesToLogMessages (e :: es)
      = convertEnvelopesToLogMessages.body [] e ++ convertEnvelopesToLogMessages es := by
  conv_lhs => unfold convertEnvelopesToLogMessages
  rw [List.foldl_cons, convert_foldl_acc]

theorem convert_append (a b : List (Option Envelope)) :
    convertEnvelopesToLogMessages (a ++ b)
      = convertEnvelopesToLogMessages a ++ convertEnvelopesToLogMessages b := by
  conv_lhs => unfold convertEnvelopesToLogMessages
  rw [List.foldl_append, convert_foldl_acc]
  rfl

theorem convert_body_of_log (e : Envelope) (log : Log)
    (h : e.Message = some (Envelope_Message.Envelope_Log log)) :
    convertEnvelopesToLogMessages.body [] (some e)
      = [NewLogMessage log.Payload (mapIndex Log_Type_name log.Type_) (time_Unix 0 e.Timestamp)
          (mapIndex e.Tags (str "source_type")) e.InstanceId] := by
  simp [convertEnvelopesToLogMessages.body, Envelope.GetMessage, h, Envelope.GetTimestamp,
    Envelope.GetTags, Envelope.GetInstanceId]

theorem convert_body_of_not_log (envelope : Option Envelope) (h : isLogVariant envelope = false) :
    convertEnvelopesToLogMessages.body [] envelope = [] := by
  unfold convertEnvelopesToLogMessages.body
  split
  · rename_i log hm
    cases envelope with
    | none => simp [Envelope.GetMessage] at hm
    | some e =>
      simp only [Envelope.GetMessage] at hm
      simp [isLogVariant, logOf, hm] at h
  · rfl

theorem convert_body_length (envelope : Option Envelope) :
    (convertEnvelopesToLogMessages.body [] envelope).length
      = if isLogVariant envelope then 1 else 0 := by
  cases h : isLogVariant envelope with
  | false => simp [convert_body_of_not_log envelope h]
  | true =>
    cases envelope with
    | none => simp [isLogVariant, logOf] at h
    | some e =>
      cases hm : e.Message with
      | none => simp [isLogVariant, logOf, hm] at h
      | some m =>
        cases m with
        | Envelope_Log log => simp [convert_body_of_log e log hm]
        | Envelope_Counter => simp [isLogVariant, logOf, hm] at h
        | Envelope_Gauge => simp [isLogVariant, logOf, hm] at h
        | Envelope_Timer => simp [isLogVariant, logOf, hm] at h
        | Envelope_Event => simp [isLogVariant, logOf, hm] at h

theorem convert_length (envelopes : List (Option Envelope)) :
    (convertEnvelopesToLogMessages envelopes).length = envelopes.countP isLogVariant := by
  induction envelopes with
  | nil => rfl
  | cons e es ih =>
    rw [convert_cons, List.length_append, ih, convert_body_length, List.countP_cons]
    omega

/-! ## The conversion filter -/

/-- Claim C1: the number of messages returned by `convertEnvelopesToLogMessages` is the number
of input envelopes whose message variant is the log variant, and an envelope of any other
variant (or a nil envelope, or one without message) standing anywhere in the input
contributes nothing to the output. -/
theorem convertEnvelopesToLogMessages_length_eq_count (envelopes : List (Option Envelope)) :
    (convertEnvelopesToLogMessages envelopes).length = envelopes.countP isLogVariant
    ∧ ∀ (before after : List (Option Envelope)) (envelope : Option Envelope),
        isLogVariant envelope = false →
        convertEnvelopesToLogMessages (before ++ envelope :: after)
          = convertEnvelopesToLogMessages (before ++ after) := by
  constructor
  · exact convert_length envelopes
  · intro before after envelope h
    rw [convert_append, convert_append, convert_cons, convert_body_of_not_log envelope h]
    rfl

theorem convertEnvelopesToLogMessages_length_eq_count_witness :
    isLogVariant (some sampleCounterEnvelope) = false
    ∧ convertEnvelopesToLogMessages
        ([some (sampleLogEnvelope 1)] ++ some sampleCounterEnvelope :: [some (sampleLogEnvelope 2)])
      = convertEnvelopesToLogMessages ([some (sampleLogEnvelope 1)] ++ [some (sampleLogEnvelope 2)]) :=
  ⟨by decide,
   (convertEnvelopesToLogMessages_length_eq_count []).2
      [some (sampleLogEnvelope 1)] [some (sampleLogEnvelope 2)] (some sampleCounterEnvelope)
      (by decide)⟩

/-! ## Field mapping and order -/

theorem convert_eq_map (envelopes : List (Option Envelope)) :
    convertEnvelopesToLogMessages envelopes = (logVariantEnvelopes envelopes).map logMessageOf := by
  induction envelopes with
  | nil => rfl
  | cons e es ih =>
    rw [convert_cons, ih]
    cases e with
    | none => simp [logVariantEnvelopes, convertEnvelopesToLogMessages.body, Envelope.GetMessage]
    | some e =>
      cases hm : e.Message with
      | none =>
        simp [logVariantEnvelopes, convertEnvelopesToLogMessages.body, Envelope.GetMessage, hm]
      | some m =>
        cases m with
        | Envelope_Log log =>
          rw [convert_body_of_log e log hm]
          simp [logVariantEnvelopes, hm, logMessageOf, NewLogMessage]
        | Envelope_Counter =>
          simp [logVariantEnvelopes, convertEnvelopesToLogMessages.body, Envelope.GetMessage, hm]
        | Envelope_Gauge =>
          simp [logVariantEnvelopes, convertEnvelopesToLogMessages.body, Envelope.GetMessage, hm]
        | Envelope_Timer =>
          simp [logVariantEnvelopes, convertEnvelopesToLogMessages.body, Envelope.GetMessage, hm]
        | Envelope_Event =>
          simp [logVariantEnvelopes, convertEnvelopesToLogMessages.body, Envelope.GetMessage, hm]

/-- Claim C2: the k-th message returned by `convertEnvelopesToLogMessages` is built from the
k-th log-variant envelope of the input: its text is the payload, its type the symbolic name of
the log-type code, its timestamp the instant at the envelope's nanosecond timestamp, its
source type the value of the "source_type" tag and its source instance the instance id; there
are no other messages. A log envelope with payload "hello", type code 0 ("OUT"), timestamp t,
source_type "APP" and instance "0" gives exactly those five values. -/
theorem convertEnvelopesToLogMessages_kth (envelopes : List (Option Envelope)) :
    (convertEnvelopesToLogMessages envelopes).length = (logVariantEnvelopes envelopes).length
    ∧ (∀ (k : Nat) (e : Envelope) (log : Log),
        (logVariantEnvelopes envelopes)[k]? = some (e, log) →
        ∃ m, (convertEnvelopesToLogMessages envelopes)[k]? = some m
          ∧ LogMessage.Message m = log.Payload
          ∧ LogMessage.Type m = mapIndex Log_Type_name log.Type_
          ∧ LogMessage.Timestamp m = time_Unix 0 e.Timestamp
          ∧ LogMessage.SourceType m = mapIndex e.Tags (str "source_type")
          ∧ LogMessage.SourceInstance m = e.InstanceId)
    ∧ (∀ t : Int, ∃ m, convertEnvelopesToLogMessages [some (sampleLogEnvelope t)] = [m]
          ∧ LogMessage.Message m = str "hello"
          ∧ LogMessage.Type m = str "OUT"
          ∧ LogMessage.Timestamp m = time_Unix 0 t
          ∧ LogMessage.SourceType m = str "APP"
          ∧ LogMessage.SourceInstance m = str "0") := by
  refine ⟨?_, ?_, ?_⟩
  · rw [convert_eq_map, List.length_map]
  · intro k e log h
    refine ⟨logMessageOf (e, log), ?_, rfl, rfl, rfl, rfl, rfl⟩
    rw [convert_eq_map, List.getElem?_map, h]
    rfl
  · intro t
    refine ⟨logMessageOf (sampleLogEnvelope t, { Payload := str "hello", Type_ := 0 }),
      ?_, rfl, ?_, rfl, ?_, rfl⟩
    · rw [convert_eq_map]
      rfl
    · show mapIndex Log_Type_name 0 = str "OUT"
      decide
    · show mapIndex [(str "source_type", str "APP")] (str "source_type") = str "APP"
      decide

theorem convertEnvelopesToLogMessages_kth_witness :
    (logVariantEnvelopes
        [some sampleCounterEnvelope, some (sampleLogEnvelope 1), none, some (sampleLogEnvelope 2)])[1]?
      = some (sampleLogEnvelope 2, { Payload := str "hello", Type_ := 0 })
    ∧ ∃ m, (convertEnvelopesToLogMessages
        [some sampleCounterEnvelope, some (sampleLogEnvelope 1), none, some (sampleLogEnvelope 2)])[1]?
          = some m
        ∧ LogMessage.Message m = str "hello"
        ∧ LogMessage.Type m = mapIndex Log_Type_name 0
        ∧ LogMessage.Timestamp m = time_Unix 0 2
        ∧ LogMessage.SourceType m = mapIndex [(str "source_type", str "APP")] (str "source_type")
        ∧ LogMessage.SourceInstance m = str "0" :=
  ⟨by decide,
   (convertEnvelopesToLogMessages_kth
      [some sampleCounterEnvelope, some (sampleLogEnvelope 1), none, some (sampleLogEnvelope 2)]).2.1
      1 (sampleLogEnvelope 2) { Payload := str "hello", Type_ := 0 } (by decide)⟩

/-! ## The staging predicate -/

/-- Claim C3: `Staging()` of a message is true if its source type is "STG" and false for
every other source type, whatever the text, kind, timestamp and source instance are. -/
theorem LogMessage_Staging_by_sourceType (message messageType : GoString) (timestamp : Time)
    (sourceType sourceInstance : GoString) :
    LogMessage.Staging (NewLogMessage message messageType timestamp sourceType sourceInstance)
      = decide (sourceType = str "STG") := by
  rw [Bool.eq_iff_iff]
  simp [LogMessage.Staging, NewLogMessage, StagingLog]

/-- Claim C4 as stated fails: a message of kind "OUT" with source type "STG" is a staging
message although its `Type()` is not "STG", and a message of kind "STG" with source type
"APP" is not a staging message. -/
theorem LogMessage_Staging_not_by_Type :
    (LogMessage.Staging sampleStagingMessage = true
      ∧ LogMessage.Type sampleStagingMessage ≠ str "STG")
    ∧ (LogMessage.Staging sampleKindStgMessage = false
      ∧ LogMessage.Type sampleKindStgMessage = str "STG")
    ∧ ¬ (∀ log : LogMessage, LogMessage.Staging log = true ↔ LogMessage.Type log = str "STG") := by
  refine ⟨by decide, by decide, ?_⟩
  intro h
  have h1 := (h sampleKindStgMessage).2 (by decide)
  exact absurd h1 (by decide)

/-- Claim C4, amended: the staging predicate tests the source type of the message (the tag
returned by `SourceType()`) against the constant "STG": `Staging()` is true exactly when
`SourceType()` equals "STG", and changing the kind returned by `Type()` never changes it. -/
theorem LogMessage_Staging_iff_SourceType (log : LogMessage) :
    StagingLog = str "STG"
    ∧ (LogMessage.Staging log = true ↔ LogMessage.SourceType log = StagingLog)
    ∧ ∀ kind : GoString, LogMessage.Staging { log with messageType := kind }
        = LogMessage.Staging log := by
  refine ⟨rfl, ?_, fun _ => rfl⟩
  simp [LogMessage.Staging, LogMessage.SourceType]

/-! ## The visitor of `GetStreamingLogs` -/

theorem visitor_loop_no_cancel (ctxDone : Nat → Bool) (logMessages : List LogMessage) :
    ∀ s : StreamState, s.outgoingLogStream.closed = false →
      (∀ i, i < logMessages.length → ctxDone (s.polls + i) = false) →
      GetStreamingLogs.visitor.loop ctxDone logMessages s
        = some (true,
            { s with
              outgoingLogStream :=
                { sent := s.outgoingLogStream.sent ++ logMessages, closed := false }
              polls := s.polls + logMessages.length }) := by
  induction logMessages with
  | nil =>
    intro s hopen _
    obtain ⟨⟨sent, closed⟩, errs, polls⟩ := s
    simp only at hopen
    subst hopen
    simp [GetStreamingLogs.visitor.loop]
  | cons m rest ih =>
    intro s hopen hlive
    have h0 : ctxDone s.polls = false := by simpa using hlive 0 (by simp)
    unfold GetStreamingLogs.visitor.loop
    simp only [h0, Chan.send, hopen, Bool.false_eq_true, if_false]
    rw [ih _ rfl]
    · simp [Nat.add_assoc, Nat.add_comm 1]
    · intro i hi
      have := hlive (i + 1) (by simp; omega)
      simpa [Nat.add_assoc, Nat.add_comm 1] using this

theorem visitor_loop_cancel (ctxDone : Nat → Bool) (logMessages : List LogMessage) :
    ∀ (j : Nat) (s : StreamState), s.outgoingLogStream.closed = false →
      j < logMessages.length →
      (∀ i, i < j → ctxDone (s.polls + i) = false) →
      ctxDone (s.polls + j) = true →
      GetStreamingLogs.visitor.loop ctxDone logMessages s
        = some (false,
            { s with
              outgoingLogStream :=
                { sent := s.outgoingLogStream.sent ++ logMessages.take j, closed := false }
              polls := s.polls + j + 1 }) := by
  induction logMessages with
  | nil => intro j s _ hj; simp at hj
  | cons m rest ih =>
    intro j s hopen hj hbefore hsaw
    cases j with
    | zero =>
      obtain ⟨⟨sent, closed⟩, errs, polls⟩ := s
      simp only at hopen
      subst hopen
      simp only [Nat.add_zero] at hsaw
      unfold GetStreamingLogs.visitor.loop
      simp [hsaw]
    | succ j =>
      have h0 : ctxDone s.polls = false := by simpa using hbefore 0 (by simp)
      unfold GetStreamingLogs.visitor.loop
      simp only [h0, Chan.send, hopen, Bool.false_eq_true, if_false]
      rw [ih j _ rfl (by simpa using hj)]
      · simp [Nat.add_assoc, Nat.add_comm 1]
      · intro i hi
        have := hbefore (i + 1) (by omega)
        simpa [Nat.add_assoc, Nat.add_comm 1] using this
      · simpa [Nat.add_assoc, Nat.add_comm 1] using hsaw

theorem visitor_loop_total (ctxDone : Nat → Bool) (logMessages : List LogMessage) :
    ∀ s : StreamState, s.outgoingLogStream.closed = false →
      ∃ b s1, GetStreamingLogs.visitor.loop ctxDone logMessages s = some (b, s1)
        ∧ s1.outgoingLogStream.closed = false
        ∧ s1.outgoingErrStream = s.outgoingErrStream := by
  induction logMessages with
  | nil => intro s hopen; exact ⟨true, s, rfl, hopen, rfl⟩
  | cons m rest ih =>
    intro s hopen
    unfold GetStreamingLogs.visitor.loop
    cases hc : ctxDone s.polls with
    | true => exact ⟨false, { s with polls := s.polls + 1 }, by simp [hc], hopen, rfl⟩
    | false =>
      simp only [Chan.send, hopen, Bool.false_eq_true, if_false]
      obtain ⟨b, s1, h1, h2, h3⟩ := ih
        { s with outgoingLogStream := { sent := s.outgoingLogStream.sent ++ [m], closed := false },
                 polls := s.polls + 1 } rfl
      exact ⟨b, s1, h1, h2, h3⟩

theorem logger_total (text : GoString) (s : StreamState)
    (hopen : s.outgoingErrStream.closed = false) :
    ∃ s1, GetStreamingLogs.logger text s = some s1
      ∧ s1.outgoingErrStream.closed = false
      ∧ s1.outgoingLogStream = s.outgoingLogStream := by
  simp [GetStreamingLogs.logger, log_Logger.Output, channelWriter.Write, Chan.send, hopen]

theorem walk_keeps_open (ctxDone : Nat → Bool) (events : List WalkEvent) :
    ∀ s : StreamState, s.outgoingLogStream.closed = false →
      s.outgoingErrStream.closed = false →
      ∃ s1, logcache_Walk (GetStreamingLogs.visitor ctxDone) GetStreamingLogs.logger events s
          = some s1
        ∧ s1.outgoingLogStream.closed = false ∧ s1.outgoingErrStream.closed = false := by
  induction events with
  | nil => intro s h1 h2; exact ⟨s, rfl, h1, h2⟩
  | cons ev rest ih =>
    intro s h1 h2
    cases ev with
    | batch envelopes =>
      obtain ⟨b, s1, hv, ho, he⟩ :=
        visitor_loop_total ctxDone (convertEnvelopesToLogMessages envelopes) s h1
      have hv1 : GetStreamingLogs.visitor ctxDone envelopes s = some (b, s1) := hv
      cases b with
      | true =>
        obtain ⟨s2, hw, h3, h4⟩ := ih s1 ho (by rw [he]; exact h2)
        exact ⟨s2, by simp [logcache_Walk, hv1, hw], h3, h4⟩
      | false => exact ⟨s1, by simp [logcache_Walk, hv1], ho, by rw [he]; exact h2⟩
    | diagnostic text =>
      obtain ⟨s1, hl, he, ho⟩ := logger_total text s h2
      obtain ⟨s2, hw, h3, h4⟩ := ih s1 (by rw [ho]; exact h1) he
      exact ⟨s2, by simp [logcache_Walk, hl, hw], h3, h4⟩

/-- Claim C5: while no poll of the context finds it cancelled, the visitor of
`GetStreamingLogs` sends every message of `convertEnvelopesToLogMessages batch` on the message
channel, in input order and one message per iteration (after `n` iterations exactly the
first `n` messages have been sent), sends nothing on the error channel and returns true.
A walk of one batch of three log envelopes followed by the end of the walk delivers exactly
those three messages, in input order, then both channels are closed and the error channel
is empty. -/
theorem GetStreamingLogs_visitor_delivers_batch (ctxDone : Nat → Bool)
    (envelopes : List (Option Envelope)) (s : StreamState) :
    (s.outgoingLogStream.closed = false →
      (∀ i, i < (convertEnvelopesToLogMessages envelopes).length →
        ctxDone (s.polls + i) = false) →
      (∃ s1, GetStreamingLogs.visitor ctxDone envelopes s = some (true, s1)
        ∧ s1.outgoingLogStream.sent
            = s.outgoingLogStream.sent ++ convertEnvelopesToLogMessages envelopes
        ∧ s1.outgoingLogStream.closed = false
        ∧ s1.outgoingErrStream = s.outgoingErrStream)
      ∧ ∀ n, n ≤ (convertEnvelopesToLogMessages envelopes).length →
          ∃ sn, GetStreamingLogs.visitor.loop ctxDone
                  ((convertEnvelopesToLogMessages envelopes).take n) s = some (true, sn)
            ∧ sn.outgoingLogStream.sent
                = s.outgoingLogStream.sent ++ (convertEnvelopesToLogMessages envelopes).take n
            ∧ sn.outgoingErrStream = s.outgoingErrStream
            ∧ sn.polls = s.polls + n)
    ∧ (∀ e1 e2 e3 : Option Envelope,
        isLogVariant e1 = true → isLogVariant e2 = true → isLogVariant e3 = true →
        (∀ i, i < 3 → ctxDone i = false) →
        ∃ m1 m2 m3, convertEnvelopesToLogMessages [e1] = [m1]
          ∧ convertEnvelopesToLogMessages [e2] = [m2]
          ∧ convertEnvelopesToLogMessages [e3] = [m3]
          ∧ GetStreamingLogs.goroutine ctxDone [WalkEvent.batch [e1, e2, e3]] StreamState.start
              = some { outgoingLogStream := { sent := [m1, m2, m3], closed := true }
                       outgoingErrStream := { sent := [], closed := true }
                       polls := 3 }) := by
  constructor
  · intro hopen hlive
    constructor
    · refine ⟨_, visitor_loop_no_cancel ctxDone _ s hopen hlive, rfl, rfl, rfl⟩
    · intro n hn
      have hlen : ((convertEnvelopesToLogMessages envelopes).take n).length = n := by
        simp [List.length_take, hn]
      refine ⟨_, visitor_loop_no_cancel ctxDone _ s hopen ?_, rfl, rfl, ?_⟩
      · intro i hi
        exact hlive i (by omega)
      · simp [hlen]
  · intro e1 e2 e3 h1 h2 h3 hlive
    have one : ∀ e : Option Envelope, isLogVariant e = true →
        ∃ m, convertEnvelopesToLogMessages [e] = [m] := by
      intro e he
      have hl := convert_length [e]
      simp only [List.countP_cons, List.countP_nil, he, if_true] at hl
      exact List.length_eq_one.mp hl
    obtain ⟨m1, hm1⟩ := one e1 h1
    obtain ⟨m2, hm2⟩ := one e2 h2
    obtain ⟨m3, hm3⟩ := one e3 h3
    refine ⟨m1, m2, m3, hm1, hm2, hm3, ?_⟩
    have hall : convertEnvelopesToLogMessages [e1, e2, e3] = [m1, m2, m3] := by
      have := convert_append [e1] [e2, e3]
      have h23 := convert_append [e2] [e3]
      simp only [List.singleton_append] at this h23
      rw [this, h23, hm1, hm2, hm3]
      rfl
    have hv := visitor_loop_no_cancel ctxDone [m1, m2, m3] StreamState.start rfl
      (by intro i hi
          have := hlive i (by simpa using hi)
          simpa [StreamState.start] using this)
    simp only [GetStreamingLogs.goroutine, logcache_Walk, GetStreamingLogs.visitor, hall, hv]
    rfl

theorem GetStreamingLogs_visitor_delivers_batch_witness :
    (∃ s1, GetStreamingLogs.visitor neverCancelled sampleBatch StreamState.start = some (true, s1)
      ∧ s1.outgoingLogStream.sent
          = StreamState.start.outgoingLogStream.sent ++ convertEnvelopesToLogMessages sampleBatch
      ∧ s1.outgoingLogStream.closed = false
      ∧ s1.outgoingErrStream = StreamState.start.outgoingErrStream)
    ∧ ∃ m1 m2 m3, convertEnvelopesToLogMessages [some (sampleLogEnvelope 1)] = [m1]
        ∧ convertEnvelopesToLogMessages [some (sampleLogEnvelope 2)] = [m2]
        ∧ convertEnvelopesToLogMessages [some (sampleLogEnvelope 3)] = [m3]
        ∧ GetStreamingLogs.goroutine neverCancelled
            [WalkEvent.batch [some (sampleLogEnvelope 1), some (sampleLogEnvelope 2),
              some (sampleLogEnvelope 3)]] StreamState.start
            = some { outgoingLogStream := { sent := [m1, m2, m3], closed := true }
                     outgoingErrStream := { sent := [], closed := true }
                     polls := 3 } :=
  ⟨((GetStreamingLogs_visitor_delivers_batch neverCancelled sampleBatch StreamState.start).1
      rfl (fun _ _ => rfl)).1,
   (GetStreamingLogs_visitor_delivers_batch neverCancelled sampleBatch StreamState.start).2
      (some (sampleLogEnvelope 1)) (some (sampleLogEnvelope 2)) (some (sampleLogEnvelope 3))
      (by decide) (by decide) (by decide) (fun _ _ => rfl)⟩

/-- Claim C6: if the poll made before pushing the k-th converted message of a batch is the
first of this batch to find the context cancelled, the visitor returns false and what it has
sent on the message channel for this batch is exactly the first k-1 converted messages, the
error channel being untouched: nothing is pushed at or after that poll. -/
theorem GetStreamingLogs_visitor_stops_on_cancel (ctxDone : Nat → Bool)
    (envelopes : List (Option Envelope)) (s : StreamState) (k : Nat)
    (hopen : s.outgoingLogStream.closed = false)
    (hk1 : 1 ≤ k) (hk : k ≤ (convertEnvelopesToLogMessages envelopes).length)
    (hbefore : ∀ i, i < k - 1 → ctxDone (s.polls + i) = false)
    (hsaw : ctxDone (s.polls + (k - 1)) = true) :
    ∃ s1, GetStreamingLogs.visitor ctxDone envelopes s = some (false, s1)
      ∧ s1.outgoingLogStream.sent
          = s.outgoingLogStream.sent ++ (convertEnvelopesToLogMessages envelopes).take (k - 1)
      ∧ s1.outgoingLogStream.closed = false
      ∧ s1.outgoingErrStream = s.outgoingErrStream
      ∧ s1.polls = s.polls + k := by
  refine ⟨_, visitor_loop_cancel ctxDone _ (k - 1) s hopen (by omega) hbefore hsaw,
    rfl, rfl, rfl, ?_⟩
  simp only
  omega

theorem GetStreamingLogs_visitor_stops_on_cancel_witness :
    ∃ s1, GetStreamingLogs.visitor (cancelledFrom 2) sampleBatch StreamState.start
        = some (false, s1)
      ∧ s1.outgoingLogStream.sent
          = StreamState.start.outgoingLogStream.sent
              ++ (convertEnvelopesToLogMessages sampleBatch).take (3 - 1)
      ∧ s1.outgoingLogStream.closed = false
      ∧ s1.outgoingErrStream = StreamState.start.outgoingErrStream
      ∧ s1.polls = StreamState.start.polls + 3 :=
  GetStreamingLogs_visitor_stops_on_cancel (cancelledFrom 2) sampleBatch StreamState.start 3
    rfl (by decide) (by decide)
    (by intro i hi; simp [cancelledFrom, StreamState.start]; omega)
    (by decide)

/-! ## Closing of the channels -/

/-- Claim C7: whatever the walk did before it returned (the visitor answered false after a
cancellation, or the walk primitive ended), the walk returns with both channels still open,
the goroutine then closes the message channel and the error channel, and the values sent on
either channel are those sent when the walk returned: nothing is written afterwards. -/
theorem GetStreamingLogs_goroutine_closes_both (ctxDone : Nat → Bool) (events : List WalkEvent) :
    ∃ afterWalk final,
      logcache_Walk (GetStreamingLogs.visitor ctxDone) GetStreamingLogs.logger events
          StreamState.start = some afterWalk
      ∧ afterWalk.outgoingLogStream.closed = false
      ∧ afterWalk.outgoingErrStream.closed = false
      ∧ GetStreamingLogs.goroutine ctxDone events StreamState.start = some final
      ∧ final.outgoingLogStream.closed = true
      ∧ final.outgoingErrStream.closed = true
      ∧ final.outgoingLogStream.sent = afterWalk.outgoingLogStream.sent
      ∧ final.outgoingErrStream.sent = afterWalk.outgoingErrStream.sent := by
  obtain ⟨s1, hw, h1, h2⟩ := walk_keeps_open ctxDone events StreamState.start rfl rfl
  refine ⟨s1, { s1 with outgoingErrStream := { s1.outgoingErrStream with closed := true },
                        outgoingLogStream := { s1.outgoingLogStream with closed := true } },
    hw, h1, h2, ?_, rfl, rfl, rfl, rfl⟩
  simp [GetStreamingLogs.goroutine, hw, GetStreamingLogs.deferred, Chan.close, h1, h2]

/-! ## The diagnostic writer -/

theorem dropWhile_newline (l : List Byte) :
    ∃ n, l = List.replicate n 10 ++ l.dropWhile (fun b => (str "\n").contains b)
      ∧ (l.dropWhile fun b => (str "\n").contains b).head? ≠ some 10 := by
  have hstr : str "\n" = [10] := by decide
  rw [hstr]
  induction l with
  | nil => exact ⟨0, rfl, by simp⟩
  | cons b rest ih =>
    by_cases hb : b = 10
    · obtain ⟨n, h1, h2⟩ := ih
      refine ⟨n + 1, ?_, ?_⟩
      · subst hb
        simp only [List.replicate_succ, List.cons_append]
        rw [List.dropWhile_cons_of_pos (by simp)]
        exact congrArg _ h1
      · subst hb
        rw [List.dropWhile_cons_of_pos (by simp)]
        exact h2
    · refine ⟨0, ?_, ?_⟩
      · rw [List.dropWhile_cons_of_neg (by simpa using hb)]
        rfl
      · rw [List.dropWhile_cons_of_neg (by simpa using hb)]
        simpa using hb

theorem getLast?_dropWhile {α : Type} (p : α → Bool) (l : List α) (x : α)
    (h : (l.dropWhile p).getLast? = some x) : l.getLast? = some x := by
  induction l with
  | nil => exact h
  | cons a rest ih =>
    by_cases ha : p a = true
    · rw [List.dropWhile_cons_of_pos ha] at h
      have hr := ih h
      cases rest with
      | nil => simp at hr
      | cons b rest2 => rw [List.getLast?_cons_cons]; exact hr
    · rw [List.dropWhile_cons_of_neg ha] at h
      exact h

theorem strings_Trim_newline (b : GoString) :
    (∃ p q, b = List.replicate p 10 ++ strings_Trim b (str "\n") ++ List.replicate q 10)
    ∧ (strings_Trim b (str "\n")).head? ≠ some 10
    ∧ (strings_Trim b (str "\n")).getLast? ≠ some 10 := by
  obtain ⟨q, hq1, hq2⟩ := dropWhile_newline b.reverse
  obtain ⟨p, hp1, hp2⟩ :=
    dropWhile_newline (b.reverse.dropWhile fun c => (str "\n").contains c).reverse
  refine ⟨⟨p, q, ?_⟩, hp2, ?_⟩
  · have hb : b = (b.reverse.dropWhile fun c => (str "\n").contains c).reverse
        ++ List.replicate q 10 := by
      have := congrArg List.reverse hq1
      simpa using this
    unfold strings_Trim
    rw [← hp1]
    exact hb
  · intro hlast
    have := getLast?_dropWhile _ _ _ hlast
    rw [List.getLast?_reverse] at this
    exact hq2 this

/-- Claim C9: for every byte string b, `channelWriter.Write b` on the open error channel sends
exactly one error, whose text is b without its leading and trailing newline bytes (b is that
text between a run of newlines and a run of newlines, and the text neither starts nor ends
with a newline), and returns `(len b, nil)`: the write never fails, so the logger of the walk
that prints b through this writer gets no error. -/
theorem channelWriter_Write_one_trimmed_error (c : channelWriter) (b : List Byte)
    (hopen : c.errChannel.closed = false) :
    ∃ text : GoString,
      c.Write b = some ((b.length, none),
        { errChannel := { sent := c.errChannel.sent ++ [errors_New text], closed := false } })
      ∧ GoError.Error (errors_New text) = text
      ∧ (∃ p q, b = List.replicate p 10 ++ text ++ List.replicate q 10)
      ∧ text.head? ≠ some 10
      ∧ text.getLast? ≠ some 10
      ∧ ∃ w, log_Logger.Output c b = some (none, w) := by
  obtain ⟨h1, h2, h3⟩ := strings_Trim_newline b
  refine ⟨strings_Trim b (str "\n"), ?_, rfl, h1, h2, h3, ?_⟩
  · simp [channelWriter.Write, Chan.send, hopen]
  · simp [log_Logger.Output, channelWriter.Write, Chan.send, hopen]

theorem channelWriter_Write_one_trimmed_error_witness :
    ∃ text : GoString,
      channelWriter.Write { errChannel := Chan.make } (str "\n\nfailed to read\n")
        = some (((str "\n\nfailed to read\n").length, none),
            { errChannel := { sent := (Chan.make : Chan GoError).sent ++ [errors_New text],
                              closed := false } })
      ∧ GoError.Error (errors_New text) = text
      ∧ (∃ p q, str "\n\nfailed to read\n" = List.replicate p 10 ++ text ++ List.replicate q 10)
      ∧ text.head? ≠ some 10
      ∧ text.getLast? ≠ some 10
      ∧ ∃ w, log_Logger.Output { errChannel := Chan.make } (str "\n\nfailed to read\n")
          = some (none, w) :=
  channelWriter_Write_one_trimmed_error { errChannel := Chan.make } (str "\n\nfailed to read\n") rfl

/-! ## Resolution failure -/

/-- Claim C10: if the application resolver returns an error, then
`GetStreamingLogsForApplicationByNameAndSpace` returns nil channels and a nil cancel function,
`GetRecentLogsForApplicationByNameAndSpace` returns a nil slice, each returns the warnings and
the error of the resolver unchanged, and the log cache client is left as it was: no tail is
started and no recent query is made. -/
theorem resolution_failure_short_circuits (actor : Actor) (appName spaceGUID : GoString)
    (client : LogCacheClient) (app : Application) (warnings : Warnings) (err : GoError)
    (h : actor.GetApplicationByNameAndSpace appName spaceGUID = (app, warnings, some err)) :
    actor.GetStreamingLogsForApplicationByNameAndSpace appName spaceGUID client
        = ((none, none, none, warnings, some err), client)
    ∧ actor.GetRecentLogsForApplicationByNameAndSpace appName spaceGUID client
        = (([], warnings, some err), client) := by
  constructor
  · simp only [Actor.GetStreamingLogsForApplicationByNameAndSpace, h]
  · simp only [Actor.GetRecentLogsForApplicationByNameAndSpace, h]

theorem resolution_failure_short_circuits_witness :
    sampleFailingActor.GetStreamingLogsForApplicationByNameAndSpace (str "some-app")
        (str "some-space-guid") sampleClient
        = ((none, none, none, [str "some-app-warnings"], some sampleResolverError), sampleClient)
    ∧ sampleFailingActor.GetRecentLogsForApplicationByNameAndSpace (str "some-app")
        (str "some-space-guid") sampleClient
        = (([], [str "some-app-warnings"], some sampleResolverError), sampleClient) :=
  resolution_failure_short_circuits sampleFailingActor (str "some-app") (str "some-space-guid")
    sampleClient { Name := [], GUID := [] } [str "some-app-warnings"] sampleResolverError rfl

/-! ## Recent logs -/

theorem foldl_append_singleton {α β : Type} (f : α → β) (l : List α) (init : List β) :
    l.foldl (fun acc x => acc ++ [f x]) init = init ++ l.map f := by
  induction l generalizing init with
  | nil => simp
  | cons x xs ih => simp [ih]

theorem recent_copy_eq_map (logCacheMessages : List loggingaction_LogMessage) :
    Actor.GetRecentLogsForApplicationByNameAndSpace.copy logCacheMessages
      = logCacheMessages.map fun message =>
          ({ message := message.Message
             messageType := message.MessageType
             timestamp := message.Timestamp
             sourceType := message.SourceType
             sourceInstance := message.SourceInstance } : LogMessage) := by
  unfold Actor.GetRecentLogsForApplicationByNameAndSpace.copy
  rw [foldl_append_singleton]
  rfl

/-- Claim C11: when the resolution and the recent query both succeed,
`GetRecentLogsForApplicationByNameAndSpace` returns one message per record of the collaborator,
in the collaborator's order (the timestamps of the messages are the timestamps of the
records, in the same order, nothing is sorted), the k-th message carrying the text, type,
timestamp, source type and source instance of the k-th record unchanged; it returns the
warnings of the resolution and a nil error, after one query for the GUID of the application. -/
theorem GetRecentLogs_copies_in_order (actor : Actor) (appName spaceGUID : GoString)
    (client : LogCacheClient) (app : Application) (warnings : Warnings)
    (records : List loggingaction_LogMessage)
    (hres : actor.GetApplicationByNameAndSpace appName spaceGUID = (app, warnings, none))
    (hrecent : client.recentLogs app.GUID = (records, none)) :
    ∃ logMessages client1,
      actor.GetRecentLogsForApplicationByNameAndSpace appName spaceGUID client
        = ((logMessages, warnings, none), client1)
      ∧ logMessages.length = records.length
      ∧ logMessages.map LogMessage.Timestamp = records.map (fun r => r.Timestamp)
      ∧ (∀ (k : Nat) (r : loggingaction_LogMessage), records[k]? = some r →
          ∃ m, logMessages[k]? = some m
            ∧ LogMessage.Message m = r.Message
            ∧ LogMessage.Type m = r.MessageType
            ∧ LogMessage.Timestamp m = r.Timestamp
            ∧ LogMessage.SourceType m = r.SourceType
            ∧ LogMessage.SourceInstance m = r.SourceInstance)
      ∧ client1.recentQueries = client.recentQueries ++ [app.GUID]
      ∧ client1.tails = client.tails := by
  refine ⟨Actor.GetRecentLogsForApplicationByNameAndSpace.copy records,
    { client with recentQueries := client.recentQueries ++ [app.GUID] }, ?_, ?_, ?_, ?_, rfl, rfl⟩
  · simp only [Actor.GetRecentLogsForApplicationByNameAndSpace, hres,
      loggingaction_GetRecentLogs, hrecent]
  · rw [recent_copy_eq_map, List.length_map]
  · rw [recent_copy_eq_map, List.map_map]
    rfl
  · intro k r hk
    rw [recent_copy_eq_map, List.getElem?_map, hk]
    exact ⟨_, rfl, rfl, rfl, rfl, rfl, rfl⟩

theorem GetRecentLogs_copies_in_order_witness :
    ∃ logMessages client1,
      sampleActor.GetRecentLogsForApplicationByNameAndSpace (str "some-app")
          (str "some-space-guid") sampleRecentClient
        = ((logMessages, [str "some-app-warnings"], none), client1)
      ∧ logMessages.length = [sampleRecord 3, sampleRecord 1, sampleRecord 2].length
      ∧ logMessages.map LogMessage.Timestamp
          = [sampleRecord 3, sampleRecord 1, sampleRecord 2].map (fun r => r.Timestamp)
      ∧ (∀ (k : Nat) (r : loggingaction_LogMessage),
          [sampleRecord 3, sampleRecord 1, sampleRecord 2][k]? = some r →
          ∃ m, logMessages[k]? = some m
            ∧ LogMessage.Message m = r.Message
            ∧ LogMessage.Type m = r.MessageType
            ∧ LogMessage.Timestamp m = r.Timestamp
            ∧ LogMessage.SourceType m = r.SourceType
            ∧ LogMessage.SourceInstance m = r.SourceInstance)
      ∧ client1.recentQueries = sampleRecentClient.recentQueries ++ [str "some-app-guid"]
      ∧ client1.tails = sampleRecentClient.tails :=
  GetRecentLogs_copies_in_order sampleActor (str "some-app") (str "some-space-guid")
    sampleRecentClient { Name := str "some-app", GUID := str "some-app-guid" }
    [str "some-app-warnings"] [sampleRecord 3, sampleRecord 1, sampleRecord 2] rfl rfl

/-- Claim C12: if the recent query fails after a successful resolution,
`GetRecentLogsForApplicationByNameAndSpace` returns a nil slice (whatever records came with
the error), the warnings gathered during the resolution, and exactly the error of the recent
query. -/
theorem GetRecentLogs_query_failure (actor : Actor) (appName spaceGUID : GoString)
    (client : LogCacheClient) (app : Application) (warnings : Warnings)
    (records : List loggingaction_LogMessage) (err : GoError)
    (hres : actor.GetApplicationByNameAndSpace appName spaceGUID = (app, warnings, none))
    (hrecent : client.recentLogs app.GUID = (records, some err)) :
    actor.GetRecentLogsForApplicationByNameAndSpace appName spaceGUID client
      = (([], warnings, some err),
          { client with recentQueries := client.recentQueries ++ [app.GUID] }) := by
  simp only [Actor.GetRecentLogsForApplicationByNameAndSpace, hres,
    loggingaction_GetRecentLogs, hrecent]

theorem GetRecentLogs_query_failure_witness :
    sampleActor.GetRecentLogsForApplicationByNameAndSpace (str "some-app")
        (str "some-space-guid") sampleBrokenRecentClient
      = (([], [str "some-app-warnings"], some sampleRecentError),
          { sampleBrokenRecentClient with
            recentQueries := sampleBrokenRecentClient.recentQueries ++ [str "some-app-guid"] }) :=
  GetRecentLogs_query_failure sampleActor (str "some-app") (str "some-space-guid")
    sampleBrokenRecentClient { Name := str "some-app", GUID := str "some-app-guid" }
    [str "some-app-warnings"] [sampleRecord 3] sampleRecentError rfl rfl

/-! ## The consumer of the stream -/

theorem streamLogs_loop_error (schedule : List SelectCase) :
    ∀ (messages : RecvChan LogMessage) (logErrs : RecvChan GoError)
      (messagesClosed errLogsClosed : Bool) (effects : List Effect)
      (err : GoError) (effects1 : List Effect),
      LogsCommand.streamLogs.loop schedule messages logErrs messagesClosed errLogsClosed effects
        = some (some err, effects1) →
      ∃ k rest, logErrs.pending = err :: rest
        ∧ effects1 = effects ++ (messages.pending.take k).map Effect.DisplayLogMessage
            ++ [Effect.cancelFunc] := by
  induction schedule with
  | nil => intro _ _ _ _ _ _ _ h; simp [LogsCommand.streamLogs.loop] at h
  | cons c schedule ih =>
    intro messages logErrs mc ec effects err effects1 h
    cases c with
    | messages =>
      unfold LogsCommand.streamLogs.loop at h
      cases hp : messages.pending with
      | nil =>
        simp only [hp] at h
        by_cases hc : messages.closes = true
        · simp only [hc, if_true, Bool.true_and] at h
          cases ec with
          | true => simp at h
          | false =>
            simp only [Bool.false_eq_true, if_false] at h
            obtain ⟨k, rest, h1, h2⟩ := ih _ _ _ _ _ _ _ h
            exact ⟨0, rest, h1, by simpa [hp] using h2⟩
        · simp [hc] at h
      | cons m rest =>
        simp only [hp] at h
        by_cases hb : (mc && ec) = true
        · simp [hb] at h
        · simp only [hb, if_false] at h
          obtain ⟨k, rest1, h1, h2⟩ := ih _ _ _ _ _ _ _ h
          exact ⟨k + 1, rest1, h1, by simpa using h2⟩
    | logErrs =>
      unfold LogsCommand.streamLogs.loop at h
      cases hp : logErrs.pending with
      | nil =>
        simp only [hp] at h
        by_cases hc : logErrs.closes = true
        · simp only [hc, if_true, Bool.and_true] at h
          cases mc with
          | true => simp at h
          | false =>
            simp only [Bool.false_eq_true, if_false] at h
            obtain ⟨k, rest, h1, _⟩ := ih _ _ _ _ _ _ _ h
            rw [hp] at h1
            exact absurd h1 (by simp)
        · simp [hc] at h
      | cons e rest =>
        simp only [hp, Option.some.injEq, Prod.mk.injEq] at h
        obtain ⟨h1, h2⟩ := h
        subst h1
        exact ⟨0, rest, rfl, by simp [← h2]⟩

theorem streamLogs_loop_first_error (logErrs : RecvChan GoError) (e : GoError)
    (rest : List GoError) (post : List SelectCase) (hp : logErrs.pending = e :: rest) (n : Nat) :
    ∀ (messages : RecvChan LogMessage) (messagesClosed : Bool) (effects : List Effect),
      (n ≤ messages.pending.length ∨ messages.closes = true) →
      LogsCommand.streamLogs.loop (List.replicate n SelectCase.messages ++ SelectCase.logErrs :: post)
          messages logErrs messagesClosed false effects
        = some (some e, effects ++ (messages.pending.take n).map Effect.DisplayLogMessage
            ++ [Effect.cancelFunc]) := by
  induction n with
  | zero =>
    intro messages mc effects _
    simp [LogsCommand.streamLogs.loop, hp]
  | succ n ih =>
    intro messages mc effects hn
    simp only [List.replicate_succ, List.cons_append]
    unfold LogsCommand.streamLogs.loop
    cases hm : messages.pending with
    | nil =>
      have hc : messages.closes = true := by
        rcases hn with hn | hn
        · simp [hm] at hn
        · exact hn
      simp only [hc, if_true, Bool.and_false, Bool.false_eq_true, if_false]
      rw [ih messages true effects (Or.inr hc)]
      simp [hm]
    | cons m rest1 =>
      simp only [Bool.and_false, Bool.false_eq_true, if_false]
      rw [ih { messages with pending := rest1 } mc _ (by
        rcases hn with hn | hn
        · left; simp [hm] at hn; simpa using hn
        · right; exact hn)]
      simp

theorem streamLogs_loop_effects (schedule : List SelectCase) :
    ∀ (messages : RecvChan LogMessage) (logErrs : RecvChan GoError)
      (messagesClosed errLogsClosed : Bool) (effects : List Effect)
      (result : Option GoError) (effects1 : List Effect),
      LogsCommand.streamLogs.loop schedule messages logErrs messagesClosed errLogsClosed effects
        = some (result, effects1) →
      ∃ more, effects1 = effects ++ more := by
  induction schedule with
  | nil => intro _ _ _ _ _ _ _ h; simp [LogsCommand.streamLogs.loop] at h
  | cons c schedule ih =>
    intro messages logErrs mc ec effects result effects1 h
    cases c with
    | messages =>
      unfold LogsCommand.streamLogs.loop at h
      cases hp : messages.pending with
      | nil =>
        simp only [hp] at h
        by_cases hc : messages.closes = true
        · simp only [hc, if_true, Bool.true_and] at h
          cases ec with
          | true =>
            simp only [if_true, Option.some.injEq, Prod.mk.injEq] at h
            exact ⟨[], by simp [h.2]⟩
          | false =>
            simp only [Bool.false_eq_true, if_false] at h
            exact ih _ _ _ _ _ _ _ h
        · simp [hc] at h
      | cons m rest =>
        simp only [hp] at h
        by_cases hb : (mc && ec) = true
        · simp only [hb, if_true, Option.some.injEq, Prod.mk.injEq] at h
          exact ⟨[Effect.DisplayLogMessage m], h.2.symm⟩
        · simp only [hb, if_false] at h
          obtain ⟨more, hmore⟩ := ih _ _ _ _ _ _ _ h
          exact ⟨Effect.DisplayLogMessage m :: more, by simp [hmore]⟩
    | logErrs =>
      unfold LogsCommand.streamLogs.loop at h
      cases hp : logErrs.pending with
      | nil =>
        simp only [hp] at h
        by_cases hc : logErrs.closes = true
        · simp only [hc, if_true, Bool.and_true] at h
          cases mc with
          | true =>
            simp only [if_true, Option.some.injEq, Prod.mk.injEq] at h
            exact ⟨[], by simp [h.2]⟩
          | false =>
            simp only [Bool.false_eq_true, if_false] at h
            exact ih _ _ _ _ _ _ _ h
        · simp [hc] at h
      | cons e rest =>
        simp only [hp, Option.some.injEq, Prod.mk.injEq] at h
        exact ⟨[Effect.cancelFunc], h.2.symm⟩

/-- Claim C13: in `streamLogs`, after the actor has returned its channels without error, a run
in which a `select` receives a value from the error channel (whatever number of times the
message case fired before) ends right there: the cancel function is invoked, nothing is
displayed afterwards, and `streamLogs` returns exactly that value, the first one of the error
channel. Conversely every run that returns an error returns the first value of the error
channel, and what it did is: display the warnings, display the messages received so far in
channel order, and last invoke the cancel function. -/
theorem streamLogs_first_error_cancels (cmd : LogsCommand) (messages : RecvChan LogMessage)
    (logErrs : RecvChan GoError) (warnings : Warnings)
    (hactor : cmd.Actor.GetStreamingLogsForApplicationByNameAndSpace cmd.AppName cmd.SpaceGUID
        cmd.LogCacheClient = (messages, logErrs, warnings, none)) :
    (∀ (n : Nat) (e : GoError) (rest : List GoError) (post : List SelectCase),
        logErrs.pending = e :: rest →
        (n ≤ messages.pending.length ∨ messages.closes = true) →
        cmd.streamLogs (List.replicate n SelectCase.messages ++ SelectCase.logErrs :: post)
          = some (some e,
              [Effect.DisplayWarnings warnings]
                ++ (messages.pending.take n).map Effect.DisplayLogMessage
                ++ [Effect.cancelFunc]))
    ∧ (∀ (schedule : List SelectCase) (err : GoError) (effects : List Effect),
        cmd.streamLogs schedule = some (some err, effects) →
        ∃ k rest, logErrs.pending = err :: rest
          ∧ effects = [Effect.DisplayWarnings warnings]
              ++ (messages.pending.take k).map Effect.DisplayLogMessage
              ++ [Effect.cancelFunc]) := by
  constructor
  · intro n e rest post hp hn
    simp only [LogsCommand.streamLogs, hactor]
    exact streamLogs_loop_first_error logErrs e rest post hp n messages false _ hn
  · intro schedule err effects h
    simp only [LogsCommand.streamLogs, hactor] at h
    exact streamLogs_loop_error schedule _ _ _ _ _ _ _ h

theorem streamLogs_first_error_cancels_witness :
    sampleLogsCommand.streamLogs
        (List.replicate 2 SelectCase.messages ++ SelectCase.logErrs :: [SelectCase.messages])
      = some (some sampleStreamError,
          [Effect.DisplayWarnings [str "some-warning"]]
            ++ (sampleLogMessages.take 2).map Effect.DisplayLogMessage
            ++ [Effect.cancelFunc]) :=
  (streamLogs_first_error_cancels sampleLogsCommand
      { pending := sampleLogMessages, closes := true }
      { pending := [sampleStreamError], closes := true } [str "some-warning"] rfl).1
    2 sampleStreamError [] [SelectCase.messages] rfl (Or.inl (by decide))

theorem streamLogs_loopSoFar_effects (schedule : List SelectCase) :
    ∀ (messages : RecvChan LogMessage) (logErrs : RecvChan GoError)
      (messagesClosed errLogsClosed : Bool) (effects : List Effect),
      ∃ more,
        (LogsCommand.streamLogs.loopSoFar schedule messages logErrs messagesClosed errLogsClosed
          effects).2 = effects ++ more := by
  induction schedule with
  | nil => intro _ _ _ _ effects; exact ⟨[], by simp [LogsCommand.streamLogs.loopSoFar]⟩
  | cons c schedule ih =>
    intro messages logErrs mc ec effects
    cases c with
    | messages =>
      unfold LogsCommand.streamLogs.loopSoFar
      cases hp : messages.pending with
      | nil =>
        simp only
        by_cases hc : messages.closes = true
        · simp only [hc, if_true, Bool.true_and]
          cases ec with
          | true => exact ⟨[], by simp⟩
          | false =>
            simp only [Bool.false_eq_true, if_false]
            exact ih _ _ _ _ _
        · exact ⟨[], by simp [hc]⟩
      | cons m rest =>
        simp only
        by_cases hb : (mc && ec) = true
        · exact ⟨[Effect.DisplayLogMessage m], by simp only [hb, if_true]⟩
        · simp only [hb, if_false]
          obtain ⟨more, hmore⟩ := ih { messages with pending := rest } logErrs mc ec
            (effects ++ [Effect.DisplayLogMessage m])
          exact ⟨Effect.DisplayLogMessage m :: more, by simp [hmore]⟩
    | logErrs =>
      unfold LogsCommand.streamLogs.loopSoFar
      cases hp : logErrs.pending with
      | nil =>
        simp only
        by_cases hc : logErrs.closes = true
        · simp only [hc, if_true, Bool.and_true]
          cases mc with
          | true => exact ⟨[], by simp⟩
          | false =>
            simp only [Bool.false_eq_true, if_false]
            exact ih _ _ _ _ _
        · exact ⟨[], by simp [hc]⟩
      | cons e rest => exact ⟨[Effect.cancelFunc], rfl⟩

theorem streamLogs_loop_iff_loopSoFar (schedule : List SelectCase) :
    ∀ (messages : RecvChan LogMessage) (logErrs : RecvChan GoError)
      (messagesClosed errLogsClosed : Bool) (effects : List Effect)
      (result : Option GoError) (effects1 : List Effect),
      LogsCommand.streamLogs.loop schedule messages logErrs messagesClosed errLogsClosed effects
        = some (result, effects1)
      ↔ LogsCommand.streamLogs.loopSoFar schedule messages logErrs messagesClosed errLogsClosed
        effects = (some result, effects1) := by
  induction schedule with
  | nil =>
    intro _ _ _ _ _ _ _
    simp [LogsCommand.streamLogs.loop, LogsCommand.streamLogs.loopSoFar]
  | cons c schedule ih =>
    intro messages logErrs mc ec effects result effects1
    cases c with
    | messages =>
      unfold LogsCommand.streamLogs.loop LogsCommand.streamLogs.loopSoFar
      cases hp : messages.pending with
      | nil =>
        simp only
        by_cases hc : messages.closes = true
        · simp only [hc, if_true, Bool.true_and]
          cases ec with
          | true => simp
          | false =>
            simp only [Bool.false_eq_true, if_false]
            exact ih _ _ _ _ _ _ _
        · simp [hc]
      | cons m rest =>
        simp only
        by_cases hb : (mc && ec) = true
        · simp [hb]
        · simp only [hb, if_false]
          exact ih _ _ _ _ _ _ _
    | logErrs =>
      unfold LogsCommand.streamLogs.loop LogsCommand.streamLogs.loopSoFar
      cases hp : logErrs.pending with
      | nil =>
        simp only
        by_cases hc : logErrs.closes = true
        · simp only [hc, if_true, Bool.and_true]
          cases mc with
          | true => simp
          | false =>
            simp only [Bool.false_eq_true, if_false]
            exact ih _ _ _ _ _ _ _
        · simp [hc]
      | cons e rest => simp

/-- Claim C14: `displayRecentLogs` displays the messages returned by the actor, then passes
the warnings returned by the actor to the UI, and returns the actor's error, whether it is
nil or not. `streamLogs` passes the warnings returned by the actor to the UI before anything
else, whether the actor's error is nil or not and whether the method returns or not: at every
point of every run, finished or not, what it has done starts with the display of the
warnings. The runs that return are those of the method followed case by case, and when the
actor's error is not nil the method does nothing but display the warnings and returns that
error. -/
theorem logs_command_always_displays_warnings (cmd : LogsCommand) :
    cmd.displayRecentLogs
        = ((cmd.Actor.GetRecentLogsForApplicationByNameAndSpace cmd.AppName cmd.SpaceGUID
              cmd.LogCacheClient).2.2,
           (cmd.Actor.GetRecentLogsForApplicationByNameAndSpace cmd.AppName cmd.SpaceGUID
              cmd.LogCacheClient).1.map Effect.DisplayLogMessage
            ++ [Effect.DisplayWarnings
                (cmd.Actor.GetRecentLogsForApplicationByNameAndSpace cmd.AppName cmd.SpaceGUID
                  cmd.LogCacheClient).2.1])
    ∧ (∀ schedule : List SelectCase, ∃ more : List Effect,
        (cmd.streamLogsSoFar schedule).2
          = Effect.DisplayWarnings
              (cmd.Actor.GetStreamingLogsForApplicationByNameAndSpace cmd.AppName cmd.SpaceGUID
                cmd.LogCacheClient).2.2.1 :: more)
    ∧ (∀ (schedule : List SelectCase) (result : Option GoError) (effects : List Effect),
        cmd.streamLogs schedule = some (result, effects)
          ↔ cmd.streamLogsSoFar schedule = (some result, effects))
    ∧ (∀ (schedule : List SelectCase) (result : Option GoError) (effects : List Effect),
        cmd.streamLogs schedule = some (result, effects) →
        effects.head? = some (Effect.DisplayWarnings
          (cmd.Actor.GetStreamingLogsForApplicationByNameAndSpace cmd.AppName cmd.SpaceGUID
            cmd.LogCacheClient).2.2.1))
    ∧ (∀ (e : GoError) (schedule : List SelectCase),
        (cmd.Actor.GetStreamingLogsForApplicationByNameAndSpace cmd.AppName cmd.SpaceGUID
            cmd.LogCacheClient).2.2.2 = some e →
        cmd.streamLogs schedule = some (some e, [Effect.DisplayWarnings
          (cmd.Actor.GetStreamingLogsForApplicationByNameAndSpace cmd.AppName cmd.SpaceGUID
            cmd.LogCacheClient).2.2.1])
        ∧ cmd.streamLogsSoFar schedule = (some (some e), [Effect.DisplayWarnings
          (cmd.Actor.GetStreamingLogsForApplicationByNameAndSpace cmd.AppName cmd.SpaceGUID
            cmd.LogCacheClient).2.2.1])) := by
  refine ⟨?_, ?_, ?_, ?_, ?_⟩
  · unfold LogsCommand.displayRecentLogs
    simp only [foldl_append_singleton, List.nil_append]
  · intro schedule
    unfold LogsCommand.streamLogsSoFar
    cases he : (cmd.Actor.GetStreamingLogsForApplicationByNameAndSpace cmd.AppName cmd.SpaceGUID
        cmd.LogCacheClient).2.2.2 with
    | none =>
      simp only [he]
      obtain ⟨more, hmore⟩ := streamLogs_loopSoFar_effects schedule
        (cmd.Actor.GetStreamingLogsForApplicationByNameAndSpace cmd.AppName cmd.SpaceGUID
          cmd.LogCacheClient).1
        (cmd.Actor.GetStreamingLogsForApplicationByNameAndSpace cmd.AppName cmd.SpaceGUID
          cmd.LogCacheClient).2.1 false false
        [Effect.DisplayWarnings
          (cmd.Actor.GetStreamingLogsForApplicationByNameAndSpace cmd.AppName cmd.SpaceGUID
            cmd.LogCacheClient).2.2.1]
      exact ⟨more, by rw [hmore]; rfl⟩
    | some e =>
      simp only [he]
      exact ⟨[], rfl⟩
  · intro schedule result effects
    unfold LogsCommand.streamLogs LogsCommand.streamLogsSoFar
    cases he : (cmd.Actor.GetStreamingLogsForApplicationByNameAndSpace cmd.AppName cmd.SpaceGUID
        cmd.LogCacheClient).2.2.2 with
    | none =>
      simp only [he]
      exact streamLogs_loop_iff_loopSoFar schedule _ _ _ _ _ _ _
    | some e =>
      simp only [he, Option.some.injEq, Prod.mk.injEq]
  · intro schedule result effects h
    unfold LogsCommand.streamLogs at h
    cases he : (cmd.Actor.GetStreamingLogsForApplicationByNameAndSpace cmd.AppName cmd.SpaceGUID
        cmd.LogCacheClient).2.2.2 with
    | none =>
      simp only [he] at h
      obtain ⟨more, hmore⟩ := streamLogs_loop_effects schedule _ _ _ _ _ _ _ h
      simp [hmore]
    | some e =>
      simp only [he, Option.some.injEq, Prod.mk.injEq] at h
      simp [← h.2]
  · intro e schedule he
    unfold LogsCommand.streamLogs LogsCommand.streamLogsSoFar
    simp only [he, and_self]

theorem logs_command_always_displays_warnings_witness :
    sampleFailingLogsCommand.streamLogs [SelectCase.messages, SelectCase.logErrs]
      = some (some sampleResolverError, [Effect.DisplayWarnings
          (sampleFailingLogsCommand.Actor.GetStreamingLogsForApplicationByNameAndSpace
            sampleFailingLogsCommand.AppName sampleFailingLogsCommand.SpaceGUID
            sampleFailingLogsCommand.LogCacheClient).2.2.1])
    ∧ [Effect.DisplayWarnings [str "some-warning"], Effect.cancelFunc].head?
        = some (Effect.DisplayWarnings
          (sampleLogsCommand.Actor.GetStreamingLogsForApplicationByNameAndSpace
            sampleLogsCommand.AppName sampleLogsCommand.SpaceGUID
            sampleLogsCommand.LogCacheClient).2.2.1)
    ∧ sampleLogsCommand.streamLogsSoFar [SelectCase.logErrs]
        = (some (some sampleStreamError),
            [Effect.DisplayWarnings [str "some-warning"], Effect.cancelFunc])
    ∧ ∃ more : List Effect,
        (sampleOpenLogsCommand.streamLogsSoFar
            [SelectCase.messages, SelectCase.messages, SelectCase.logErrs]).2
          = Effect.DisplayWarnings
              (sampleOpenLogsCommand.Actor.GetStreamingLogsForApplicationByNameAndSpace
                sampleOpenLogsCommand.AppName sampleOpenLogsCommand.SpaceGUID
                sampleOpenLogsCommand.LogCacheClient).2.2.1 :: more :=
  ⟨((logs_command_always_displays_warnings sampleFailingLogsCommand).2.2.2.2
      sampleResolverError [SelectCase.messages, SelectCase.logErrs] rfl).1,
   (logs_command_always_displays_warnings sampleLogsCommand).2.2.2.1
      [SelectCase.logErrs] (some sampleStreamError)
      [Effect.DisplayWarnings [str "some-warning"], Effect.cancelFunc] rfl,
   ((logs_command_always_displays_warnings sampleLogsCommand).2.2.1
      [SelectCase.logErrs] (some sampleStreamError)
      [Effect.DisplayWarnings [str "some-warning"], Effect.cancelFunc]).mp rfl,
   (logs_command_always_displays_warnings sampleOpenLogsCommand).2.1
      [SelectCase.messages, SelectCase.messages, SelectCase.logErrs]⟩

/-! ## Ordering of `LogMessages` -/

/-- Claim C15: for valid indices i and j, `Less(i, j)` holds exactly when the timestamp of
element i is strictly before the timestamp of element j. Hence `Less` is irreflexive, it is
transitive, and two elements of equal timestamps are less than each other in neither
direction. -/
theorem LogMessages_Less_is_timestamp_order (lm : LogMessages) (i j : Nat)
    (hi : i < lm.Len) (hj : j < lm.Len) :
    ∃ a b, lm[i]? = some a ∧ lm[j]? = some b
      ∧ lm.Less i j = some (decide (a.Timestamp.unixNano < b.Timestamp.unixNano))
      ∧ lm.Less i i = some false
      ∧ (∀ k, lm.Less i j = some true → lm.Less j k = some true → lm.Less i k = some true)
      ∧ (a.Timestamp = b.Timestamp → lm.Less i j = some false ∧ lm.Less j i = some false) := by
  have hi1 : i < lm.length := hi
  have hj1 : j < lm.length := hj
  refine ⟨lm[i], lm[j], List.getElem?_eq_getElem hi1, List.getElem?_eq_getElem hj1, ?_, ?_, ?_, ?_⟩
  · simp [LogMessages.Less, List.getElem?_eq_getElem hi1, List.getElem?_eq_getElem hj1,
      Time.Before, LogMessage.Timestamp]
  · simp [LogMessages.Less, List.getElem?_eq_getElem hi1, Time.Before]
  · intro k hij hjk
    cases hk : lm[k]? with
    | none => simp [LogMessages.Less, hk, List.getElem?_eq_getElem hj1] at hjk
    | some c =>
      simp only [LogMessages.Less, List.getElem?_eq_getElem hi1, List.getElem?_eq_getElem hj1,
        hk, Time.Before, Option.some.injEq, decide_eq_true_eq] at hij hjk ⊢
      omega
  · intro hab
    have hab1 : lm[i].timestamp = lm[j].timestamp := hab
    simp [LogMessages.Less, List.getElem?_eq_getElem hi1, List.getElem?_eq_getElem hj1,
      Time.Before, hab1]

theorem LogMessages_Less_is_timestamp_order_witness :
    ∃ a b, sampleLogMessages[1]? = some a ∧ sampleLogMessages[2]? = some b
      ∧ LogMessages.Less sampleLogMessages 1 2
          = some (decide (a.Timestamp.unixNano < b.Timestamp.unixNano))
      ∧ LogMessages.Less sampleLogMessages 1 1 = some false
      ∧ (∀ k, LogMessages.Less sampleLogMessages 1 2 = some true →
          LogMessages.Less sampleLogMessages 2 k = some true →
          LogMessages.Less sampleLogMessages 1 k = some true)
      ∧ (a.Timestamp = b.Timestamp →
          LogMessages.Less sampleLogMessages 1 2 = some false
            ∧ LogMessages.Less sampleLogMessages 2 1 = some false) :=
  LogMessages_Less_is_timestamp_order sampleLogMessages 1 2 (by decide) (by decide)

/-! ## More on the conversion -/

theorem mapIndex_Log_Type_name (code : Int) :
    mapIndex Log_Type_name code
      = if code = 0 then str "OUT" else if code = 1 then str "ERR" else [] := by
  unfold mapIndex Log_Type_name
  by_cases h0 : code = 0
  · subst h0; rfl
  · by_cases h1 : code = 1
    · subst h1; rfl
    · have e0 : (code == 0) = false := by simpa using h0
      have e1 : (code == 1) = false := by simpa using h1
      simp only [List.lookup, e0, e1, if_neg h0, if_neg h1]
      rfl

/-- Claim C18: a log envelope is converted into exactly one message wherever it stands in the
input, whatever its numeric log-type code is, and the kind of that message is the symbolic
name of the code in the table of the transport: "OUT" for code 0, "ERR" for code 1, and the
empty string for a code without symbolic name. -/
theorem convertEnvelopesToLogMessages_kind (before after : List (Option Envelope))
    (e : Envelope) (log : Log) (h : e.Message = some (Envelope_Message.Envelope_Log log)) :
    ∃ m, convertEnvelopesToLogMessages (before ++ some e :: after)
        = convertEnvelopesToLogMessages before ++ m :: convertEnvelopesToLogMessages after
      ∧ LogMessage.Type m = mapIndex Log_Type_name log.Type_
      ∧ (log.Type_ = 0 → LogMessage.Type m = str "OUT")
      ∧ (log.Type_ = 1 → LogMessage.Type m = str "ERR")
      ∧ (log.Type_ ≠ 0 → log.Type_ ≠ 1 → LogMessage.Type m = []) := by
  refine ⟨NewLogMessage log.Payload (mapIndex Log_Type_name log.Type_) (time_Unix 0 e.Timestamp)
      (mapIndex e.Tags (str "source_type")) e.InstanceId, ?_, rfl, ?_, ?_, ?_⟩
  · rw [convert_append, convert_cons, convert_body_of_log e log h]
    rfl
  · intro h0
    simp [LogMessage.Type, NewLogMessage, mapIndex_Log_Type_name, h0]
  · intro h1
    simp [LogMessage.Type, NewLogMessage, mapIndex_Log_Type_name, h1]
  · intro h0 h1
    simp [LogMessage.Type, NewLogMessage, mapIndex_Log_Type_name, h0, h1]

theorem convertEnvelopesToLogMessages_kind_witness :
    ∃ m, convertEnvelopesToLogMessages
          ([some (sampleLogEnvelope 1)] ++ some sampleUntaggedEnvelope :: [none])
        = convertEnvelopesToLogMessages [some (sampleLogEnvelope 1)]
            ++ m :: convertEnvelopesToLogMessages [none]
      ∧ LogMessage.Type m = mapIndex Log_Type_name 7
      ∧ ((7 : Int) = 0 → LogMessage.Type m = str "OUT")
      ∧ ((7 : Int) = 1 → LogMessage.Type m = str "ERR")
      ∧ ((7 : Int) ≠ 0 → (7 : Int) ≠ 1 → LogMessage.Type m = []) :=
  convertEnvelopesToLogMessages_kind [some (sampleLogEnvelope 1)] [none] sampleUntaggedEnvelope
    { Payload := str "bye", Type_ := 7 } rfl

theorem mapIndex_absent (tags : List (GoString × GoString)) (key : GoString)
    (h : ∀ p ∈ tags, p.1 ≠ key) : mapIndex tags key = [] := by
  unfold mapIndex
  induction tags with
  | nil => rfl
  | cons p rest ih =>
    obtain ⟨k, v⟩ := p
    have hk : k ≠ key := h (k, v) (by simp)
    have hne : (key == k) = false := by
      simp only [beq_eq_false_iff_ne, ne_eq]
      exact fun hkk => hk hkk.symm
    simp only [List.lookup, hne]
    exact ih (fun q hq => h q (by simp [hq]))

/-- Claim C19: a log envelope that has no "source_type" tag, in particular one without any
tag, is still converted into exactly one message, wherever it stands in the input; the source
type of that message is the empty string and the message is not a staging message. -/
theorem convertEnvelopesToLogMessages_without_source_type (before after : List (Option Envelope))
    (e : Envelope) (log : Log) (h : e.Message = some (Envelope_Message.Envelope_Log log))
    (hno : ∀ p ∈ e.Tags, p.1 ≠ str "source_type") :
    ∃ m, convertEnvelopesToLogMessages (before ++ some e :: after)
        = convertEnvelopesToLogMessages before ++ m :: convertEnvelopesToLogMessages after
      ∧ LogMessage.SourceType m = []
      ∧ LogMessage.Staging m = false := by
  refine ⟨NewLogMessage log.Payload (mapIndex Log_Type_name log.Type_) (time_Unix 0 e.Timestamp)
      (mapIndex e.Tags (str "source_type")) e.InstanceId, ?_, ?_, ?_⟩
  · rw [convert_append, convert_cons, convert_body_of_log e log h]
    rfl
  · simp [LogMessage.SourceType, NewLogMessage, mapIndex_absent e.Tags _ hno]
  · simp only [LogMessage.Staging, NewLogMessage, mapIndex_absent e.Tags _ hno]
    decide

theorem convertEnvelopesToLogMessages_without_source_type_witness :
    ∃ m, convertEnvelopesToLogMessages ([] ++ some sampleUntaggedEnvelope :: [])
        = convertEnvelopesToLogMessages [] ++ m :: convertEnvelopesToLogMessages []
      ∧ LogMessage.SourceType m = []
      ∧ LogMessage.Staging m = false :=
  convertEnvelopesToLogMessages_without_source_type [] [] sampleUntaggedEnvelope
    { Payload := str "bye", Type_ := 7 } rfl (by intro p hp; simp [sampleUntaggedEnvelope] at hp)

/-- Claim C20: `convertEnvelopesToLogMessages` preserves order across concatenation: the
conversion of a followed by b is the conversion of a followed by the conversion of b, and the
conversion of the empty sequence has no message. -/
theorem convertEnvelopesToLogMessages_concat (a b : List (Option Envelope)) :
    convertEnvelopesToLogMessages (a ++ b)
        = convertEnvelopesToLogMessages a ++ convertEnvelopesToLogMessages b
    ∧ convertEnvelopesToLogMessages [] = [] :=
  ⟨convert_append a b, convert_nil⟩

/-! ## Routes by name and space -/

theorem parseRoutePath_found (cc : CloudController) (routePath : GoString)
    (history : List Exchange) (domain : Domain) (w : Warnings)
    (hq : cc.GetDomainByName history (routeDomainName routePath) = (domain, w, none)) :
    Actor.parseRoutePath cc routePath history
      = (([], routePathPart routePath, routeDomainName routePath, domain.GUID, w, none),
          history ++ [lookupExchange (routeDomainName routePath) w none]) := by
  unfold routeDomainName at hq
  simp only [Actor.parseRoutePath, CloudController.callGetDomainByName, hq]
  simp [isDomainNotFoundError, routePathPart, routeDomainName, lookupExchange]

theorem parseRoutePath_failed (cc : CloudController) (routePath : GoString)
    (history : List Exchange) (domain : Domain) (w : Warnings) (e : GoError)
    (hq : cc.GetDomainByName history (routeDomainName routePath) = (domain, w, some e))
    (hno : (isDomainNotFoundError (some e) && routeNameHasDot routePath) = false) :
    Actor.parseRoutePath cc routePath history
      = (([], [], [], [], w, some e),
          history ++ [lookupExchange (routeDomainName routePath) w (some e)]) := by
  unfold routeDomainName at hq
  unfold routeNameHasDot routeDomainName at hno
  simp only [Actor.parseRoutePath, CloudController.callGetDomainByName, hq, hno]
  simp [lookupExchange, routeDomainName]

theorem parseRoutePath_host (cc : CloudController) (routePath : GoString)
    (history : List Exchange) (domain domain2 : Domain) (w w2 : Warnings) (e : GoError)
    (err2 : Option GoError)
    (hq : cc.GetDomainByName history (routeDomainName routePath) = (domain, w, some e))
    (hyes : (isDomainNotFoundError (some e) && routeNameHasDot routePath) = true)
    (hq2 : cc.GetDomainByName
        (history ++ [lookupExchange (routeDomainName routePath) w (some e)])
        (routeDomainAfterHost routePath) = (domain2, w2, err2)) :
    Actor.parseRoutePath cc routePath history
      = (match err2 with
          | some e2 => ([], [], [], [], w ++ w2, some e2)
          | none => (routeHostPart routePath, routePathPart routePath,
              routeDomainAfterHost routePath, domain2.GUID, w ++ w2, none),
          history ++ [lookupExchange (routeDomainName routePath) w (some e),
            lookupExchange (routeDomainAfterHost routePath) w2 err2]) := by
  unfold routeDomainName at hq
  unfold routeNameHasDot routeDomainName at hyes
  unfold lookupExchange routeDomainAfterHost routeDomainName at hq2
  simp only [Actor.parseRoutePath, CloudController.callGetDomainByName, hq, hyes, hq2]
  cases err2 with
  | none =>
    simp [lookupExchange, routeDomainName, routeHostPart, routePathPart, routeDomainAfterHost]
  | some e2 =>
    simp [lookupExchange, routeDomainName, routeHostPart, routePathPart, routeDomainAfterHost]

theorem createActionRoutes_found (cc : CloudController) (routes : List ccv3_Route)
    (allWarnings : Warnings) (history : List Exchange) (spaces : List ccv3_Space)
    (ws : Warnings)
    (hs : cc.GetSpaces history (Actor.createActionRoutes.spacesQuery routes).2
      = (spaces, ws, none)) :
    Actor.createActionRoutes cc routes allWarnings history
      = ((routes.map (actionRouteOf spaces), allWarnings ++ ws, none),
          history ++ [spacesExchange (Actor.createActionRoutes.spacesQuery routes).2 ws none]) := by
  simp only [Actor.createActionRoutes, CloudController.callGetSpaces, hs,
    foldl_append_singleton, List.nil_append]
  rfl

theorem createActionRoutes_failed (cc : CloudController) (routes : List ccv3_Route)
    (allWarnings : Warnings) (history : List Exchange) (spaces : List ccv3_Space)
    (ws : Warnings) (e : GoError)
    (hs : cc.GetSpaces history (Actor.createActionRoutes.spacesQuery routes).2
      = (spaces, ws, some e)) :
    Actor.createActionRoutes cc routes allWarnings history
      = (([], allWarnings ++ ws, some e),
          history ++ [spacesExchange (Actor.createActionRoutes.spacesQuery routes).2 ws (some e)]) := by
  simp only [Actor.createActionRoutes, CloudController.callGetSpaces, hs]
  rfl

theorem GetRouteByNameAndSpace_after_parse (cc : CloudController)
    (routePath spaceGUID : GoString) (history history1 : List Exchange)
    (hostPart pathPart domainName domainGUID : GoString) (wp wr ws : Warnings)
    (r : ccv3_Route) (rs : List ccv3_Route) (spaces : List ccv3_Space)
    (hp : Actor.parseRoutePath cc routePath history
      = ((hostPart, pathPart, domainName, domainGUID, wp, none), history1))
    (hr : cc.GetRoutes history1 (routeFilters spaceGUID domainGUID hostPart pathPart)
      = (r :: rs, wr, none))
    (hs : cc.GetSpaces
        (history1 ++ [routesExchange (routeFilters spaceGUID domainGUID hostPart pathPart) wr none])
        (Actor.createActionRoutes.spacesQuery (r :: rs)).2 = (spaces, ws, none)) :
    Actor.GetRouteByNameAndSpace cc routePath spaceGUID history
      = ((actionRouteOf spaces r, wp ++ wr ++ ws, none),
          history1 ++ [routesExchange (routeFilters spaceGUID domainGUID hostPart pathPart) wr none,
            spacesExchange (Actor.createActionRoutes.spacesQuery (r :: rs)).2 ws none]) := by
  unfold routeFilters at hr hs
  unfold routesExchange at hs
  have hc := createActionRoutes_found cc (r :: rs) (wp ++ wr) _ spaces ws hs
  simp only [Actor.GetRouteByNameAndSpace, hp, CloudController.callGetRoutes,
    List.cons_append, List.nil_append, hr, List.length_cons, hc]
  simp [routesExchange, routeFilters]

theorem GetRouteByNameAndSpace_parse_failed (cc : CloudController)
    (routePath spaceGUID : GoString) (history history1 : List Exchange)
    (hostPart pathPart domainName domainGUID : GoString) (wp : Warnings) (e : GoError)
    (hp : Actor.parseRoutePath cc routePath history
      = ((hostPart, pathPart, domainName, domainGUID, wp, some e), history1)) :
    Actor.GetRouteByNameAndSpace cc routePath spaceGUID history
      = ((Route.zero, wp, some e), history1) := by
  simp only [Actor.GetRouteByNameAndSpace, hp]

/-- Claim C16: when every collaborator call of `GetRouteByNameAndSpace` succeeds and the
routes query finds at least one route, the warnings returned are the warnings of the calls
made, call after call in call order: the domain lookup (or, when the full name is reported
not found and has a ".", the two domain lookups), then the routes query, then the spaces
query; the error is nil and the route returned is built from the first route of the routes
query, with its GUID, host, path, space GUID, domain GUID and URL. -/
theorem GetRouteByNameAndSpace_aggregates_warnings (cc : CloudController)
    (routePath spaceGUID : GoString) (history : List Exchange) :
    (∀ (domain : Domain) (wd wr ws : Warnings) (r : ccv3_Route) (rs : List ccv3_Route)
        (spaces : List ccv3_Space),
        cc.GetDomainByName history (routeDomainName routePath) = (domain, wd, none) →
        cc.GetRoutes (history ++ [lookupExchange (routeDomainName routePath) wd none])
            (routeFilters spaceGUID domain.GUID [] (routePathPart routePath))
          = (r :: rs, wr, none) →
        cc.GetSpaces
            (history ++ [lookupExchange (routeDomainName routePath) wd none,
              routesExchange (routeFilters spaceGUID domain.GUID [] (routePathPart routePath))
                wr none])
            (Actor.createActionRoutes.spacesQuery (r :: rs)).2 = (spaces, ws, none) →
        ∃ route made,
          Actor.GetRouteByNameAndSpace cc routePath spaceGUID history
            = ((route, warningsOf made, none), history ++ made)
          ∧ made = [lookupExchange (routeDomainName routePath) wd none,
              routesExchange (routeFilters spaceGUID domain.GUID [] (routePathPart routePath))
                wr none,
              spacesExchange (Actor.createActionRoutes.spacesQuery (r :: rs)).2 ws none]
          ∧ warningsOf made = wd ++ wr ++ ws
          ∧ route.GUID = r.GUID ∧ route.Host = r.Host ∧ route.Path = r.Path
          ∧ route.SpaceGUID = r.SpaceGUID ∧ route.DomainGUID = r.DomainGUID
          ∧ route.URL = r.URL)
    ∧ (∀ (domain1 domain : Domain) (e : GoError) (w1 wd wr ws : Warnings) (r : ccv3_Route)
        (rs : List ccv3_Route) (spaces : List ccv3_Space),
        cc.GetDomainByName history (routeDomainName routePath) = (domain1, w1, some e) →
        (isDomainNotFoundError (some e) && routeNameHasDot routePath) = true →
        cc.GetDomainByName
            (history ++ [lookupExchange (routeDomainName routePath) w1 (some e)])
            (routeDomainAfterHost routePath) = (domain, wd, none) →
        cc.GetRoutes
            (history ++ [lookupExchange (routeDomainName routePath) w1 (some e),
              lookupExchange (routeDomainAfterHost routePath) wd none])
            (routeFilters spaceGUID domain.GUID (routeHostPart routePath)
              (routePathPart routePath))
          = (r :: rs, wr, none) →
        cc.GetSpaces
            (history ++ [lookupExchange (routeDomainName routePath) w1 (some e),
              lookupExchange (routeDomainAfterHost routePath) wd none,
              routesExchange (routeFilters spaceGUID domain.GUID (routeHostPart routePath)
                (routePathPart routePath)) wr none])
            (Actor.createActionRoutes.spacesQuery (r :: rs)).2 = (spaces, ws, none) →
        ∃ route made,
          Actor.GetRouteByNameAndSpace cc routePath spaceGUID history
            = ((route, warningsOf made, none), history ++ made)
          ∧ made = [lookupExchange (routeDomainName routePath) w1 (some e),
              lookupExchange (routeDomainAfterHost routePath) wd none,
              routesExchange (routeFilters spaceGUID domain.GUID (routeHostPart routePath)
                (routePathPart routePath)) wr none,
              spacesExchange (Actor.createActionRoutes.spacesQuery (r :: rs)).2 ws none]
          ∧ warningsOf made = w1 ++ wd ++ wr ++ ws
          ∧ route.GUID = r.GUID ∧ route.Host = r.Host ∧ route.Path = r.Path
          ∧ route.SpaceGUID = r.SpaceGUID ∧ route.DomainGUID = r.DomainGUID
          ∧ route.URL = r.URL) := by
  constructor
  · intro domain wd wr ws r rs spaces hd hr hs
    have hp := parseRoutePath_found cc routePath history domain wd hd
    have h := GetRouteByNameAndSpace_after_parse cc routePath spaceGUID history _ _ _ _ _
      wd wr ws r rs spaces hp hr (by simpa using hs)
    refine ⟨actionRouteOf spaces r, _, ?_, rfl, ?_, rfl, rfl, rfl, rfl, rfl, rfl⟩
    · rw [h]
      simp [warningsOf, lookupExchange, routesExchange, spacesExchange]
    · simp [warningsOf, lookupExchange, routesExchange, spacesExchange]
  · intro domain1 domain e w1 wd wr ws r rs spaces h1 hyes hd hr hs
    have hp := parseRoutePath_host cc routePath history domain1 domain w1 wd e none h1 hyes hd
    simp only at hp
    have h := GetRouteByNameAndSpace_after_parse cc routePath spaceGUID history _ _ _ _ _
      (w1 ++ wd) wr ws r rs spaces hp hr (by simpa using hs)
    refine ⟨actionRouteOf spaces r, _, ?_, rfl, ?_, rfl, rfl, rfl, rfl, rfl, rfl⟩
    · rw [h]
      simp [warningsOf, lookupExchange, routesExchange, spacesExchange]
    · simp [warningsOf, lookupExchange, routesExchange, spacesExchange]

theorem GetRouteByNameAndSpace_aggregates_warnings_witness :
    (∃ route,
      Actor.GetRouteByNameAndSpace sampleCloudController (str "sub.example.com/my-route/path")
          (str "space-guid") []
        = ((route, [str "get-domains-warning", str "get-route-warning-1",
              str "get-route-warning-2", str "get-spaces-warning"], none),
            [lookupExchange (str "sub.example.com") [str "get-domains-warning"] none,
             routesExchange (routeFilters (str "space-guid") (str "domain-guid") []
                (str "/my-route/path"))
                [str "get-route-warning-1", str "get-route-warning-2"] none,
             spacesExchange { Key := QueryKey.GUIDFilter, Values := [str "space-guid"] }
                [str "get-spaces-warning"] none])
      ∧ route.GUID = str "route-guid")
    ∧ (∃ route,
      Actor.GetRouteByNameAndSpace sampleHostCloudController
          (str "sub.example.com/my-route/path") (str "space-guid") []
        = ((route, [str "not-found-warning", str "found-warning", str "get-route-warning-1",
              str "get-route-warning-2", str "get-spaces-warning"], none),
            [lookupExchange (str "sub.example.com") [str "not-found-warning"]
                (some (GoError.DomainNotFoundError (str "sub.example.com") [])),
             lookupExchange (str "example.com") [str "found-warning"] none,
             routesExchange (routeFilters (str "space-guid") (str "domain-guid") (str "sub")
                (str "/my-route/path"))
                [str "get-route-warning-1", str "get-route-warning-2"] none,
             spacesExchange { Key := QueryKey.GUIDFilter, Values := [str "space-guid"] }
                [str "get-spaces-warning"] none])
      ∧ route.GUID = str "route-guid") := by
  constructor
  · obtain ⟨route, made, h, hm, hw, hg, _⟩ :=
      (GetRouteByNameAndSpace_aggregates_warnings sampleCloudController
        (str "sub.example.com/my-route/path") (str "space-guid") []).1
        { Name := str "domain-name", GUID := str "domain-guid" }
        [str "get-domains-warning"] [str "get-route-warning-1", str "get-route-warning-2"]
        [str "get-spaces-warning"]
        { GUID := str "route-guid", SpaceGUID := str "space-guid",
          DomainGUID := str "domain-guid", Host := str "hostname",
          URL := str "hostname.domain-name", Path := str "/the-path" } []
        [{ Name := str "space-name", GUID := str "space-guid" }] rfl rfl rfl
    refine ⟨route, ?_, hg⟩
    rw [h, hw, hm]
    simp only [Prod.mk.injEq, true_and, and_true]
    exact ⟨by decide, by decide⟩
  · obtain ⟨route, made, h, hm, hw, hg, _⟩ :=
      (GetRouteByNameAndSpace_aggregates_warnings sampleHostCloudController
        (str "sub.example.com/my-route/path") (str "space-guid") []).2
        { Name := [], GUID := [] }
        { Name := str "example.com", GUID := str "domain-guid" }
        (GoError.DomainNotFoundError (str "sub.example.com") [])
        [str "not-found-warning"] [str "found-warning"]
        [str "get-route-warning-1", str "get-route-warning-2"]
        [str "get-spaces-warning"]
        { GUID := str "route-guid", SpaceGUID := str "space-guid",
          DomainGUID := str "domain-guid", Host := str "hostname",
          URL := str "hostname.domain-name", Path := str "/the-path" } []
        [{ Name := str "space-name", GUID := str "space-guid" }]
        (by decide) (by decide) (by decide) rfl rfl
    refine ⟨route, ?_, hg⟩
    rw [h, hw, hm]
    simp only [Prod.mk.injEq, true_and, and_true]
    exact ⟨by decide, by decide⟩

/-- Claim C17: if the lookup of the domain named by a route path (the text before its first
"/") fails with an error that is not a domain-not-found error, `GetRouteByNameAndSpace`
returns the zero Route, the warnings of that lookup and exactly that error, and the lookup
is the only call made: neither routes nor spaces are queried. When that first lookup reports
domain-not-found, the name has a "." and the second lookup (of the name without its host)
fails with any error, the result is again the zero Route and exactly that error, without any
routes or spaces query, the warnings being those of the first lookup followed by those of the
failed one. -/
theorem GetRouteByNameAndSpace_lookup_failure (cc : CloudController)
    (routePath spaceGUID : GoString) (history : List Exchange) :
    (∀ (domain : Domain) (w : Warnings) (e : GoError),
        cc.GetDomainByName history (routeDomainName routePath) = (domain, w, some e) →
        isDomainNotFoundError (some e) = false →
        Actor.GetRouteByNameAndSpace cc routePath spaceGUID history
          = ((Route.zero, w, some e),
              history ++ [lookupExchange (routeDomainName routePath) w (some e)]))
    ∧ (∀ (domain1 domain2 : Domain) (w1 w2 : Warnings) (e e2 : GoError),
        cc.GetDomainByName history (routeDomainName routePath) = (domain1, w1, some e) →
        (isDomainNotFoundError (some e) && routeNameHasDot routePath) = true →
        cc.GetDomainByName
            (history ++ [lookupExchange (routeDomainName routePath) w1 (some e)])
            (routeDomainAfterHost routePath) = (domain2, w2, some e2) →
        Actor.GetRouteByNameAndSpace cc routePath spaceGUID history
          = ((Route.zero, w1 ++ w2, some e2),
              history ++ [lookupExchange (routeDomainName routePath) w1 (some e),
                lookupExchange (routeDomainAfterHost routePath) w2 (some e2)])) := by
  constructor
  · intro domain w e hd hno
    have hp := parseRoutePath_failed cc routePath history domain w e hd (by simp [hno])
    exact GetRouteByNameAndSpace_parse_failed cc routePath spaceGUID history _ _ _ _ _ _ _ hp
  · intro domain1 domain2 w1 w2 e e2 h1 hyes h2
    have hp := parseRoutePath_host cc routePath history domain1 domain2 w1 w2 e (some e2)
      h1 hyes h2
    exact GetRouteByNameAndSpace_parse_failed cc routePath spaceGUID history _ _ _ _ _ _ _ hp

theorem GetRouteByNameAndSpace_lookup_failure_witness :
    Actor.GetRouteByNameAndSpace sampleBrokenCloudController
        (str "sub.example.com/my-route/path") (str "space-guid") []
      = ((Route.zero, [str "get-domains-warning"], some (errors_New (str "get-domain-error"))),
          [] ++ [lookupExchange (routeDomainName (str "sub.example.com/my-route/path"))
            [str "get-domains-warning"] (some (errors_New (str "get-domain-error")))]) :=
  (GetRouteByNameAndSpace_lookup_failure sampleBrokenCloudController
      (str "sub.example.com/my-route/path") (str "space-guid") []).1
    { Name := [], GUID := [] } [str "get-domains-warning"] (errors_New (str "get-domain-error"))
    rfl rfl

/-! ## The end of the stream -/

theorem streamLogs_loop_nil_sound (schedule : List SelectCase) :
    ∀ (messages : RecvChan LogMessage) (logErrs : RecvChan GoError)
      (messagesClosed errLogsClosed : Bool) (effects : List Effect)
      (result : Option GoError) (effects1 : List Effect),
      logErrs.pending = [] →
      (messagesClosed = true → messages.pending = [] ∧ messages.closes = true) →
      (errLogsClosed = true → logErrs.closes = true) →
      LogsCommand.streamLogs.loop schedule messages logErrs messagesClosed errLogsClosed effects
        = some (result, effects1) →
      result = none ∧ messages.closes = true ∧ logErrs.closes = true
        ∧ effects1 = effects ++ messages.pending.map Effect.DisplayLogMessage := by
  induction schedule with
  | nil => intro _ _ _ _ _ _ _ _ _ _ h; simp [LogsCommand.streamLogs.loop] at h
  | cons c schedule ih =>
    intro messages logErrs mc ec effects result effects1 herr hmc hec h
    cases c with
    | messages =>
      unfold LogsCommand.streamLogs.loop at h
      cases hp : messages.pending with
      | nil =>
        simp only [hp] at h
        by_cases hc : messages.closes = true
        · simp only [hc, if_true, Bool.true_and] at h
          cases ec with
          | true =>
            simp only [if_true, Option.some.injEq, Prod.mk.injEq] at h
            exact ⟨h.1.symm, hc, hec rfl, by simp [← h.2]⟩
          | false =>
            simp only [Bool.false_eq_true, if_false] at h
            have := ih messages logErrs true false effects result effects1 herr
              (fun _ => ⟨hp, hc⟩) (by simp) h
            simpa [hp] using this
        · simp [hc] at h
      | cons m rest =>
        simp only [hp] at h
        have hmcf : mc = false := by
          cases mc with
          | false => rfl
          | true => have := (hmc rfl).1; rw [hp] at this; exact absurd this (by simp)
        subst hmcf
        simp only [Bool.false_and, Bool.false_eq_true, if_false] at h
        have := ih { messages with pending := rest } logErrs false ec _ result effects1 herr
          (by simp) hec h
        simpa using this
    | logErrs =>
      unfold LogsCommand.streamLogs.loop at h
      simp only [herr] at h
      by_cases hc : logErrs.closes = true
      · simp only [hc, if_true, Bool.and_true] at h
        cases mc with
        | true =>
          simp only [if_true, Option.some.injEq, Prod.mk.injEq] at h
          have hm := hmc rfl
          exact ⟨h.1.symm, hm.2, hc, by simp [← h.2, hm.1]⟩
        | false =>
          simp only [Bool.false_eq_true, if_false] at h
          exact ih messages logErrs false true effects result effects1 herr (by simp)
            (fun _ => hc) h
      · simp [hc] at h

theorem streamLogs_loop_nil_returns (schedule : List SelectCase) :
    ∀ (messages : RecvChan LogMessage) (logErrs : RecvChan GoError)
      (messagesClosed errLogsClosed : Bool) (effects : List Effect),
      logErrs.pending = [] → messages.closes = true → logErrs.closes = true →
      (messagesClosed = true → messages.pending = []) →
      ¬ (messagesClosed = true ∧ errLogsClosed = true) →
      (messagesClosed = true
        ∨ messages.pending.length + 1 ≤ schedule.count SelectCase.messages) →
      (errLogsClosed = true ∨ 1 ≤ schedule.count SelectCase.logErrs) →
      LogsCommand.streamLogs.loop schedule messages logErrs messagesClosed errLogsClosed effects
        = some (none, effects ++ messages.pending.map Effect.DisplayLogMessage) := by
  induction schedule with
  | nil =>
    intro messages logErrs mc ec effects _ _ _ _ hnot h1 h2
    simp only [List.count_nil, Nat.le_zero_eq, Nat.add_one_ne_zero, or_false] at h1 h2
    exact absurd ⟨h1, h2⟩ hnot
  | cons c schedule ih =>
    intro messages logErrs mc ec effects herr hmcl hecl hmc hnot h1 h2
    cases c with
    | messages =>
      unfold LogsCommand.streamLogs.loop
      cases hp : messages.pending with
      | nil =>
        simp only [hmcl, if_true, Bool.true_and]
        cases ec with
        | true => simp
        | false =>
          simp only [Bool.false_eq_true, if_false]
          have := ih messages logErrs true false effects herr hmcl hecl (fun _ => hp)
            (by simp) (Or.inl rfl) (by simpa using h2)
          simpa [hp] using this
      | cons m rest =>
        have hmcf : mc = false := by
          cases mc with
          | false => rfl
          | true => have := hmc rfl; rw [hp] at this; exact absurd this (by simp)
        subst hmcf
        simp only [Bool.false_and, Bool.false_eq_true, if_false]
        have := ih { messages with pending := rest } logErrs false ec
          (effects ++ [Effect.DisplayLogMessage m]) herr hmcl hecl (by simp) (by simp)
          (by
            right
            simp only [hp, Bool.false_eq_true, false_or, List.length_cons,
              List.count_cons_self] at h1
            simpa using h1)
          (by simpa using h2)
        simpa using this
    | logErrs =>
      unfold LogsCommand.streamLogs.loop
      simp only [herr, hecl, if_true, Bool.and_true]
      cases mc with
      | true =>
        simp only [if_true]
        simp [hmc rfl]
      | false =>
        simp only [Bool.false_eq_true, if_false]
        exact ih messages logErrs false true effects herr hmcl hecl (by simp) (by simp)
          (by simpa using h1) (Or.inl rfl)

theorem streamLogs_loop_nil_observed (schedule : List SelectCase) :
    ∀ (messages : RecvChan LogMessage) (logErrs : RecvChan GoError)
      (messagesClosed errLogsClosed : Bool) (effects : List Effect)
      (result : Option GoError) (effects1 : List Effect),
      logErrs.pending = [] →
      (messagesClosed = true → messages.pending = []) →
      LogsCommand.streamLogs.loop schedule messages logErrs messagesClosed errLogsClosed effects
        = some (result, effects1) →
      (messagesClosed = true
        ∨ messages.pending.length + 1 ≤ schedule.count SelectCase.messages)
      ∧ (errLogsClosed = true ∨ 1 ≤ schedule.count SelectCase.logErrs) := by
  induction schedule with
  | nil => intro _ _ _ _ _ _ _ _ _ h; simp [LogsCommand.streamLogs.loop] at h
  | cons c schedule ih =>
    intro messages logErrs mc ec effects result effects1 herr hmc h
    cases c with
    | messages =>
      unfold LogsCommand.streamLogs.loop at h
      cases hp : messages.pending with
      | nil =>
        simp only [hp] at h
        by_cases hc : messages.closes = true
        · simp only [hc, if_true, Bool.true_and] at h
          cases ec with
          | true => exact ⟨Or.inr (by simp), Or.inl rfl⟩
          | false =>
            simp only [Bool.false_eq_true, if_false] at h
            have := ih messages logErrs true false effects result effects1 herr
              (fun _ => hp) h
            exact ⟨Or.inr (by simp), by simpa using this.2⟩
        · simp [hc] at h
      | cons m rest =>
        simp only [hp] at h
        have hmcf : mc = false := by
          cases mc with
          | false => rfl
          | true => have := hmc rfl; rw [hp] at this; exact absurd this (by simp)
        subst hmcf
        simp only [Bool.false_and, Bool.false_eq_true, if_false] at h
        have := ih { messages with pending := rest } logErrs false ec _ result effects1 herr
          (by simp) h
        refine ⟨Or.inr ?_, by simpa using this.2⟩
        have h1 := this.1
        simp only [Bool.false_eq_true, false_or] at h1
        simpa using h1
    | logErrs =>
      unfold LogsCommand.streamLogs.loop at h
      simp only [herr] at h
      by_cases hc : logErrs.closes = true
      · simp only [hc, if_true, Bool.and_true] at h
        cases mc with
        | true => exact ⟨Or.inl rfl, Or.inr (by simp)⟩
        | false =>
          simp only [Bool.false_eq_true, if_false] at h
          have := ih messages logErrs false true effects result effects1 herr (by simp) h
          exact ⟨by simpa using this.1, Or.inr (by simp)⟩
      · simp [hc] at h

/-- Claim C21: when the actor has returned its channels without error and the error channel
delivers no error, every run of `streamLogs` that returns, returns nil; in such a run both
channels were closed, the message case of the `select` fired once for each message and once
more to find the message channel closed, the error case fired to find the error channel
closed, and what was done is: display the warnings, then display every message of the
message channel once, in channel order. When both channels do get closed, every schedule in
which the cases fire that often returns in this way. -/
theorem streamLogs_returns_nil_after_both_closed (cmd : LogsCommand)
    (messages : RecvChan LogMessage) (logErrs : RecvChan GoError) (warnings : Warnings)
    (hactor : cmd.Actor.GetStreamingLogsForApplicationByNameAndSpace cmd.AppName cmd.SpaceGUID
        cmd.LogCacheClient = (messages, logErrs, warnings, none))
    (herr : logErrs.pending = []) :
    (∀ (schedule : List SelectCase) (result : Option GoError) (effects : List Effect),
        cmd.streamLogs schedule = some (result, effects) →
        result = none ∧ messages.closes = true ∧ logErrs.closes = true
          ∧ messages.pending.length + 1 ≤ schedule.count SelectCase.messages
          ∧ 1 ≤ schedule.count SelectCase.logErrs
          ∧ effects = [Effect.DisplayWarnings warnings]
              ++ messages.pending.map Effect.DisplayLogMessage)
    ∧ (messages.closes = true → logErrs.closes = true →
        ∀ schedule : List SelectCase,
          messages.pending.length + 1 ≤ schedule.count SelectCase.messages →
          1 ≤ schedule.count SelectCase.logErrs →
          cmd.streamLogs schedule
            = some (none, [Effect.DisplayWarnings warnings]
                ++ messages.pending.map Effect.DisplayLogMessage)) := by
  constructor
  · intro schedule result effects h
    simp only [LogsCommand.streamLogs, hactor] at h
    have h1 := streamLogs_loop_nil_sound schedule _ _ _ _ _ _ _ herr (by simp) (by simp) h
    have h2 := streamLogs_loop_nil_observed schedule _ _ _ _ _ _ _ herr (by simp) h
    exact ⟨h1.1, h1.2.1, h1.2.2.1, by simpa using h2.1, by simpa using h2.2, h1.2.2.2⟩
  · intro hmc hec schedule hm he
    simp only [LogsCommand.streamLogs, hactor]
    exact streamLogs_loop_nil_returns schedule _ _ _ _ _ herr hmc hec (by simp) (by simp)
      (Or.inr hm) (Or.inr he)

theorem streamLogs_returns_nil_after_both_closed_witness :
    sampleQuietLogsCommand.streamLogs
        [SelectCase.messages, SelectCase.logErrs, SelectCase.messages, SelectCase.messages,
          SelectCase.messages]
      = some (none, [Effect.DisplayWarnings [str "some-warning"]]
          ++ sampleLogMessages.map Effect.DisplayLogMessage) :=
  (streamLogs_returns_nil_after_both_closed sampleQuietLogsCommand
      { pending := sampleLogMessages, closes := true } { pending := [], closes := true }
      [str "some-warning"] rfl rfl).2 rfl rfl
    [SelectCase.messages, SelectCase.logErrs, SelectCase.messages, SelectCase.messages,
      SelectCase.messages] (by decide) (by decide)

/-! ## Splitting and trimming strings -/

theorem strings_Index_some (sep : GoString) :
    ∀ (s : GoString) (m : Nat), strings_Index s sep = some m →
      s = s.take m ++ sep ++ s.drop (m + sep.length) := by
  intro s
  induction s with
  | nil =>
    intro m h
    unfold strings_Index at h
    by_cases hs : sep = []
    · subst hs; simp
    · simp [hs] at h
  | cons b rest ih =>
    intro m h
    unfold strings_Index at h
    by_cases hp : sep.isPrefixOf (b :: rest) = true
    · simp only [hp, if_true, Option.some.injEq] at h
      subst h
      obtain ⟨t, ht⟩ := List.isPrefixOf_iff_prefix.mp hp
      rw [← ht]
      simp
    · simp only [hp, Bool.false_eq_true, if_false, Option.map_eq_some'] at h
      obtain ⟨m1, hm1, hm⟩ := h
      subst hm
      have := ih m1 hm1
      simp only [List.take_succ_cons, List.cons_append]
      rw [show m1 + 1 + sep.length = (m1 + sep.length) + 1 by omega, List.drop_succ_cons]
      exact congrArg (List.cons b) this

theorem strings_Index_single_none (c : Byte) :
    ∀ s : GoString, strings_Index s [c] = none ↔ c ∉ s := by
  intro s
  induction s with
  | nil => simp [strings_Index]
  | cons b rest ih =>
    unfold strings_Index
    by_cases hb : b = c
    · subst hb
      simp [List.isPrefixOf]
    · have hne : ([c] : List Byte).isPrefixOf (b :: rest) = false := by
        simp [List.isPrefixOf]
        exact fun h => hb h.symm
      simp only [hne, Bool.false_eq_true, if_false, Option.map_eq_none', ih, List.mem_cons,
        not_or]
      exact ⟨fun h => ⟨fun hcb => hb hcb.symm, h⟩, fun h => h.2⟩

theorem strings_Index_single_first (c : Byte) :
    ∀ (s : GoString) (m : Nat), strings_Index s [c] = some m → c ∉ s.take m := by
  intro s
  induction s with
  | nil => intro m _; simp
  | cons b rest ih =>
    intro m h
    unfold strings_Index at h
    by_cases hp : ([c] : List Byte).isPrefixOf (b :: rest) = true
    · simp only [hp, if_true, Option.some.injEq] at h
      subst h
      simp
    · simp only [hp, Bool.false_eq_true, if_false, Option.map_eq_some'] at h
      obtain ⟨m1, hm1, hm⟩ := h
      subst hm
      have hb : c ≠ b := by
        intro hcb
        subst hcb
        simp [List.isPrefixOf] at hp
      simp only [List.take_succ_cons, List.mem_cons, not_or]
      exact ⟨hb, ih m1 hm1⟩

theorem strings_SplitN_two (s sep : GoString) :
    strings_SplitN s sep 2
      = match strings_Index s sep with
        | none => [s]
        | some m => [s.take m, s.drop (m + sep.length)] := by
  unfold strings_SplitN
  cases strings_Index s sep with
  | none => rfl
  | some m => simp [strings_SplitN]

/-- What a split at the first occurrence of a one-byte separator yields: without the
separator the whole text and no second piece; else the text before and the text after the
first separator. -/
theorem split_single (s : GoString) (c : Byte) :
    (c ∉ s ∧ strings_SplitN s [c] 2 = [s])
    ∨ (∃ before after, c ∈ s ∧ strings_SplitN s [c] 2 = [before, after]
        ∧ s = before ++ [c] ++ after ∧ c ∉ before) := by
  rw [strings_SplitN_two]
  cases h : strings_Index s [c] with
  | none => exact Or.inl ⟨(strings_Index_single_none c s).mp h, rfl⟩
  | some m =>
    refine Or.inr ⟨s.take m, s.drop (m + 1), ?_, rfl, ?_, strings_Index_single_first c s m h⟩
    · by_contra hc
      have := (strings_Index_single_none c s).mpr hc
      rw [h] at this
      exact absurd this (by simp)
    · simpa using strings_Index_some [c] s m h

theorem route_split (routePath : GoString) :
    routeDomainName routePath ++ routePathPart routePath = routePath
    ∧ (47 : Byte) ∉ routeDomainName routePath
    ∧ ((47 : Byte) ∉ routePath → routePathPart routePath = [])
    ∧ ((47 : Byte) ∈ routePath → ∃ rest, routePathPart routePath = 47 :: rest) := by
  have hs : str "/" = [47] := by decide
  unfold routeDomainName routePathPart
  rw [hs]
  rcases split_single routePath 47 with ⟨hno, h⟩ | ⟨before, after, hin, h, heq, hb⟩
  · rw [h]
    exact ⟨by simp, by simpa using hno, fun _ => by simp, fun hc => absurd hc hno⟩
  · rw [h]
    refine ⟨?_, by simpa using hb, fun hc => absurd hin hc, fun _ => ⟨after, by simp⟩⟩
    simp [heq]

theorem host_split (routePath : GoString) (h : routeNameHasDot routePath = true) :
    routeHostPart routePath ++ str "." ++ routeDomainAfterHost routePath
        = routeDomainName routePath
    ∧ (46 : Byte) ∉ routeHostPart routePath
    ∧ (46 : Byte) ∈ routeDomainName routePath := by
  have hs : str "." = [46] := by decide
  unfold routeNameHasDot at h
  unfold routeHostPart routeDomainAfterHost
  rw [hs] at h ⊢
  rcases split_single (routeDomainName routePath) 46 with ⟨_, h1⟩ | ⟨before, after, hin, h1, heq, hb⟩
  · rw [h1] at h
    simp at h
  · rw [h1]
    exact ⟨by simp [heq], by simpa using hb, hin⟩

theorem strings_TrimPrefix_append (p t : GoString) : strings_TrimPrefix (p ++ t) p = t := by
  unfold strings_TrimPrefix
  have : p.isPrefixOf (p ++ t) = true := List.isPrefixOf_iff_prefix.mpr ⟨t, rfl⟩
  simp [this]

theorem strings_TrimSuffix_append (d p : GoString) : strings_TrimSuffix (d ++ p) p = d := by
  unfold strings_TrimSuffix
  have : p.isSuffixOf (d ++ p) = true := List.isSuffixOf_iff_suffix.mpr ⟨d, rfl⟩
  simp [this]

/-! ## The parts of a route path -/

theorem parseRoutePath_ok_cases (cc : CloudController) (routePath : GoString)
    (history history1 : List Exchange) (hostPart pathPart domainName domainGUID : GoString)
    (warnings : Warnings)
    (h : Actor.parseRoutePath cc routePath history
      = ((hostPart, pathPart, domainName, domainGUID, warnings, none), history1)) :
    ((cc.GetDomainByName history (routeDomainName routePath)).2.2 = none
      ∧ hostPart = [] ∧ pathPart = routePathPart routePath
      ∧ domainName = routeDomainName routePath)
    ∨ (isDomainNotFoundError (cc.GetDomainByName history (routeDomainName routePath)).2.2 = true
      ∧ routeNameHasDot routePath = true
      ∧ hostPart = routeHostPart routePath ∧ pathPart = routePathPart routePath
      ∧ domainName = routeDomainAfterHost routePath) := by
  rcases hq : cc.GetDomainByName history (routeDomainName routePath) with ⟨domain, w, err⟩
  cases err with
  | none =>
    rw [parseRoutePath_found cc routePath history domain w hq] at h
    simp only [Prod.mk.injEq] at h
    obtain ⟨⟨h1, h2, h3, _⟩, _⟩ := h
    exact Or.inl ⟨rfl, h1.symm, h2.symm, h3.symm⟩
  | some e =>
    cases hn : (isDomainNotFoundError (some e) && routeNameHasDot routePath) with
    | false =>
      rw [parseRoutePath_failed cc routePath history domain w e hq hn] at h
      simp at h
    | true =>
      rcases hq2 : cc.GetDomainByName
        (history ++ [lookupExchange (routeDomainName routePath) w (some e)])
        (routeDomainAfterHost routePath) with ⟨domain2, w2, err2⟩
      rw [parseRoutePath_host cc routePath history domain domain2 w w2 e err2 hq hn hq2] at h
      cases err2 with
      | some e2 => simp at h
      | none =>
        simp only [Prod.mk.injEq] at h
        obtain ⟨⟨h1, h2, h3, _⟩, _⟩ := h
        simp only [Bool.and_eq_true] at hn
        exact Or.inr ⟨hn.1, hn.2, h1.symm, h2.symm, h3.symm⟩

/-- Claim C24: whenever `parseRoutePath` succeeds its results reassemble the route path. If the
text before the first "/" was found as a domain, the host part is empty and the domain name
followed by the path part is the route path; otherwise the first lookup reported
domain-not-found, the name contains a ".", the host part is what stands before its first "."
and host part, ".", domain name and path part together give the route path. In both cases the
path part is empty when the route path has no "/" and otherwise starts with "/". -/
theorem parseRoutePath_reassembles (cc : CloudController) (routePath : GoString)
    (history history1 : List Exchange) (hostPart pathPart domainName domainGUID : GoString)
    (warnings : Warnings)
    (h : Actor.parseRoutePath cc routePath history
      = ((hostPart, pathPart, domainName, domainGUID, warnings, none), history1)) :
    ((cc.GetDomainByName history (routeDomainName routePath)).2.2 = none →
        hostPart = [] ∧ domainName ++ pathPart = routePath ∧ (47 : Byte) ∉ domainName)
    ∧ ((cc.GetDomainByName history (routeDomainName routePath)).2.2 ≠ none →
        isDomainNotFoundError (cc.GetDomainByName history (routeDomainName routePath)).2.2 = true
        ∧ (46 : Byte) ∈ routeDomainName routePath
        ∧ (46 : Byte) ∉ hostPart
        ∧ (47 : Byte) ∉ hostPart ++ str "." ++ domainName
        ∧ hostPart ++ str "." ++ domainName ++ pathPart = routePath)
    ∧ ((47 : Byte) ∉ routePath → pathPart = [])
    ∧ ((47 : Byte) ∈ routePath → ∃ rest, pathPart = 47 :: rest) := by
  obtain ⟨hsplit, hfirst, hnone, hsome⟩ := route_split routePath
  rcases parseRoutePath_ok_cases cc routePath history history1 hostPart pathPart domainName
    domainGUID warnings h with ⟨hq, hh, hp, hd⟩ | ⟨hq, hdot, hh, hp, hd⟩
  · subst hh hp hd
    refine ⟨fun _ => ⟨rfl, hsplit, hfirst⟩, fun hne => absurd hq hne, hnone, hsome⟩
  · subst hh hp hd
    obtain ⟨hhost, hnodot, hin⟩ := host_split routePath hdot
    refine ⟨fun hnil => ?_, fun _ => ⟨hq, hin, hnodot, ?_, ?_⟩, hnone, hsome⟩
    · rw [hnil] at hq
      simp [isDomainNotFoundError] at hq
    · rw [hhost]; exact hfirst
    · rw [hhost]; exact hsplit

theorem parseRoutePath_reassembles_witness :
    ((sampleHostCloudController.GetDomainByName []
          (routeDomainName (str "sub.example.com/my-route/path"))).2.2 ≠ none →
        isDomainNotFoundError (sampleHostCloudController.GetDomainByName []
          (routeDomainName (str "sub.example.com/my-route/path"))).2.2 = true
        ∧ (46 : Byte) ∈ routeDomainName (str "sub.example.com/my-route/path")
        ∧ (46 : Byte) ∉ str "sub"
        ∧ (47 : Byte) ∉ str "sub" ++ str "." ++ str "example.com"
        ∧ str "sub" ++ str "." ++ str "example.com" ++ str "/my-route/path"
            = str "sub.example.com/my-route/path")
    ∧ ((47 : Byte) ∈ str "sub.example.com/my-route/path" →
        ∃ rest, str "/my-route/path" = 47 :: rest) :=
  ⟨(parseRoutePath_reassembles sampleHostCloudController (str "sub.example.com/my-route/path")
      []
      [lookupExchange (str "sub.example.com") [str "not-found-warning"]
          (some (GoError.DomainNotFoundError (str "sub.example.com") [])),
        lookupExchange (str "example.com") [str "found-warning"] none]
      (str "sub") (str "/my-route/path") (str "example.com") (str "domain-guid")
      [str "not-found-warning", str "found-warning"] (by rfl)).2.1,
   (parseRoutePath_reassembles sampleHostCloudController (str "sub.example.com/my-route/path")
      []
      [lookupExchange (str "sub.example.com") [str "not-found-warning"]
          (some (GoError.DomainNotFoundError (str "sub.example.com") [])),
        lookupExchange (str "example.com") [str "found-warning"] none]
      (str "sub") (str "/my-route/path") (str "example.com") (str "domain-guid")
      [str "not-found-warning", str "found-warning"] (by rfl)).2.2.2⟩

/-! ## The domain name of a URL -/

/-- Claim C25 as stated fails for an empty host: with the empty domain (which does not start
with ".") and the path ".x", `getDomainName` of the URL ".x" is "x" and not the domain. -/
theorem getDomainName_empty_host_counterexample :
    ¬ ((str ".").isPrefixOf ([] : GoString) = true)
    ∧ getDomainName (([] : GoString) ++ str ".x") [] (str ".x") = str "x"
    ∧ getDomainName (([] : GoString) ++ str ".x") [] (str ".x") ≠ [] := by
  decide

/-- Claim C25, amended: `getDomainName` inverts the construction of a URL. For every host, in
particular every non-empty one, every domain and every path,
`getDomainName(host + "." + domain + path, host, path)` is the domain; and for an empty host,
`getDomainName(domain + path, "", path)` is the domain whenever `domain + path` does not start
with ".", which is so when the domain is not empty and does not start with ".". -/
theorem getDomainName_inverts_URL (host domain path : GoString) :
    getDomainName (host ++ str "." ++ domain ++ path) host path = domain
    ∧ ((str ".").isPrefixOf (domain ++ path) = false →
        getDomainName (domain ++ path) [] path = domain)
    ∧ (domain ≠ [] → (str ".").isPrefixOf domain = false →
        getDomainName (domain ++ path) [] path = domain) := by
  have key : (str ".").isPrefixOf (domain ++ path) = false →
      getDomainName (domain ++ path) [] path = domain := by
    intro h
    unfold getDomainName strings_TrimPrefix
    simp only [List.nil_append, h, Bool.false_eq_true, if_false]
    exact strings_TrimSuffix_append domain path
  refine ⟨?_, key, ?_⟩
  · unfold getDomainName
    rw [List.append_assoc (host ++ str "."), strings_TrimPrefix_append]
    exact strings_TrimSuffix_append domain path
  · intro hne hdot
    apply key
    cases domain with
    | nil => exact absurd rfl hne
    | cons b rest =>
      have hs : str "." = [46] := by decide
      rw [hs] at hdot ⊢
      simpa [List.isPrefixOf] using hdot

theorem getDomainName_inverts_URL_witness :
    (str ".").isPrefixOf (str "example.com" ++ str "/the-path") = false
    ∧ getDomainName (str "example.com" ++ str "/the-path") [] (str "/the-path")
        = str "example.com" :=
  ⟨by decide,
   (getDomainName_inverts_URL [] (str "example.com") (str "/the-path")).2.1 (by decide)⟩

/-! ## The application name override -/

theorem HandleAppNameOverride_search (appName : GoString)
    (apps : List pushmanifestparser_Application) :
    HandleAppNameOverride.search appName apps [pushmanifestparser_Application.zero]
      = match apps.find? (fun app => app.Name == appName) with
        | some app => ([app], true)
        | none => ([pushmanifestparser_Application.zero], false) := by
  induction apps with
  | nil => rfl
  | cons app rest ih =>
    unfold HandleAppNameOverride.search
    by_cases h : (app.Name == appName) = true
    · simp [h, List.find?]
    · simp only [h, Bool.false_eq_true, if_false, ih]
      simp [List.find?, h]

theorem Manifest_helpers (manifest : Manifest) :
    ((manifest.ContainsMultipleApps && manifest.HasAppWithNoName) = true
      ↔ manifest.Applications.length > 1 ∧ ∃ app ∈ manifest.Applications, app.Name = [])
    ∧ (manifest.HasAppWithNoName = true ↔ ∃ app ∈ manifest.Applications, app.Name = []) := by
  simp [Manifest.ContainsMultipleApps, Manifest.HasAppWithNoName]

theorem find?_name_none (appName : GoString) (apps : List pushmanifestparser_Application) :
    apps.find? (fun app => app.Name == appName) = none ↔ ∀ app ∈ apps, app.Name ≠ appName := by
  simp

/-- Claim C22: whenever `HandleAppNameOverride` returns a nil error for a non-empty AppName
override, the returned manifest has exactly one application and its name is the override:
either the first application of the manifest that already carries this name, unchanged, or,
when no application carries it, the only application of the manifest with its name replaced by
the override and its other fields untouched. The other field of the manifest is untouched. -/
theorem HandleAppNameOverride_single_app (manifest result : Manifest)
    (overrides : FlagOverrides) (hname : overrides.AppName ≠ [])
    (h : HandleAppNameOverride manifest overrides = (result, none)) :
    ∃ app, result.Applications = [app] ∧ app.Name = overrides.AppName
      ∧ result.PathToManifest = manifest.PathToManifest
      ∧ (manifest.Applications.find? (fun a => a.Name == overrides.AppName) = some app
        ∨ ((∀ a ∈ manifest.Applications, a.Name ≠ overrides.AppName)
          ∧ ∃ only, manifest.Applications = [only]
            ∧ app = { only with Name := overrides.AppName })) := by
  unfold HandleAppNameOverride at h
  have hne : (overrides.AppName != []) = true := by simpa using hname
  split at h
  · simp at h
  · simp only [hne, if_true, HandleAppNameOverride_search] at h
    cases hf : manifest.Applications.find? (fun a => a.Name == overrides.AppName) with
    | some app =>
      simp only [hf, Bool.not_true, Bool.false_eq_true, if_false, Prod.mk.injEq, and_true] at h
      subst h
      have hn := List.find?_some hf
      exact ⟨app, rfl, by simpa using hn, rfl, Or.inl rfl⟩
    | none =>
      simp only [hf, Bool.not_false, if_true] at h
      split at h
      · rename_i hlen
        simp only [Prod.mk.injEq, and_true] at h
        subst h
        obtain ⟨only, honly⟩ := List.length_eq_one.mp hlen
        refine ⟨{ only with Name := overrides.AppName }, ?_, rfl, ?_,
          Or.inr ⟨(find?_name_none _ _).mp hf, only, honly, rfl⟩⟩
        · simp [Manifest.setFirstName, honly]
        · simp [Manifest.setFirstName, honly]
      · simp at h

theorem HandleAppNameOverride_single_app_witness :
    ∃ app, sampleFlameManifest.Applications = [app] ∧ app.Name = str "flame"
      ∧ sampleFlameManifest.PathToManifest = sampleManifest.PathToManifest
      ∧ (sampleManifest.Applications.find? (fun a => a.Name == str "flame") = some app
        ∨ ((∀ a ∈ sampleManifest.Applications, a.Name ≠ str "flame")
          ∧ ∃ only, sampleManifest.Applications = [only]
            ∧ app = { only with Name := str "flame" })) :=
  HandleAppNameOverride_single_app sampleManifest sampleFlameManifest
    { AppName := str "flame" } (by decide) (by decide)

/-- Claim C23: `HandleAppNameOverride` returns an error exactly in three cases. First, when the
manifest has more than one application and some application has no name, the error of text
"Found an application with no name specified.". Otherwise, when the override is not empty,
no application carries it and the manifest does not have exactly one application,
`AppNotInManifestError` with the override. Otherwise, when the override is empty and some
application has no name, `AppNameOrManifestRequiredError`. In every other case the error is
nil. With an empty override the manifest is returned unchanged. -/
theorem HandleAppNameOverride_errors (manifest : Manifest) (overrides : FlagOverrides) :
    ((manifest.Applications.length > 1 ∧ ∃ app ∈ manifest.Applications, app.Name = []) →
        (HandleAppNameOverride manifest overrides).2
          = some (PushError.errorString (str "Found an application with no name specified.")))
    ∧ (¬ (manifest.Applications.length > 1 ∧ ∃ app ∈ manifest.Applications, app.Name = []) →
        ((overrides.AppName ≠ [] ∧ (∀ app ∈ manifest.Applications, app.Name ≠ overrides.AppName)
            ∧ manifest.Applications.length ≠ 1) →
          (HandleAppNameOverride manifest overrides).2
            = some (PushError.AppNotInManifestError overrides.AppName))
        ∧ (¬ (overrides.AppName ≠ []
              ∧ (∀ app ∈ manifest.Applications, app.Name ≠ overrides.AppName)
              ∧ manifest.Applications.length ≠ 1) →
            ((overrides.AppName = [] ∧ ∃ app ∈ manifest.Applications, app.Name = []) →
              (HandleAppNameOverride manifest overrides).2
                = some PushError.AppNameOrManifestRequiredError)
            ∧ (¬ (overrides.AppName = [] ∧ ∃ app ∈ manifest.Applications, app.Name = []) →
              (HandleAppNameOverride manifest overrides).2 = none)))
    ∧ (overrides.AppName = [] → (HandleAppNameOverride manifest overrides).1 = manifest) := by
  obtain ⟨hguard, hnoname⟩ := Manifest_helpers manifest
  refine ⟨?_, ?_, ?_⟩
  · intro h1
    unfold HandleAppNameOverride
    simp [hguard.mpr h1]
  · intro h1
    have hg : (manifest.ContainsMultipleApps && manifest.HasAppWithNoName) = false := by
      cases hb : (manifest.ContainsMultipleApps && manifest.HasAppWithNoName) with
      | false => rfl
      | true => exact absurd (hguard.mp hb) h1
    by_cases hname : overrides.AppName = []
    · have hne : (overrides.AppName != []) = false := by simp [hname]
      refine ⟨fun h2 => absurd hname h2.1, fun _ => ⟨?_, ?_⟩⟩
      · intro h3
        unfold HandleAppNameOverride
        simp only [hg, hne, Bool.false_eq_true, if_false]
        simp [hnoname.mpr h3.2]
      · intro h3
        have : manifest.HasAppWithNoName = false := by
          cases hb : manifest.HasAppWithNoName with
          | false => rfl
          | true => exact absurd ⟨hname, hnoname.mp hb⟩ h3
        unfold HandleAppNameOverride
        simp only [hg, hne, Bool.false_eq_true, if_false]
        simp [this]
    · have hne : (overrides.AppName != []) = true := by simpa using hname
      cases hf : manifest.Applications.find? (fun a => a.Name == overrides.AppName) with
      | some app =>
        have hin : ¬ ∀ a ∈ manifest.Applications, a.Name ≠ overrides.AppName := by
          intro hall
          rw [(find?_name_none _ _).mpr hall] at hf
          exact absurd hf (by simp)
        have hval : (HandleAppNameOverride manifest overrides).2 = none := by
          unfold HandleAppNameOverride
          simp only [hg, hne, HandleAppNameOverride_search, hf]
          rfl
        exact ⟨fun h2 => absurd h2.2.1 hin,
          fun _ => ⟨fun h3 => absurd h3.1 hname, fun _ => hval⟩⟩
      | none =>
        have hall := (find?_name_none _ _).mp hf
        by_cases hlen : manifest.Applications.length = 1
        · have hval : (HandleAppNameOverride manifest overrides).2 = none := by
            unfold HandleAppNameOverride
            simp only [hg, hne, HandleAppNameOverride_search, hf, hlen]
            rfl
          exact ⟨fun h2 => absurd hlen h2.2.2,
            fun _ => ⟨fun h3 => absurd h3.1 hname, fun _ => hval⟩⟩
        · have hval : (HandleAppNameOverride manifest overrides).2
              = some (PushError.AppNotInManifestError overrides.AppName) := by
            unfold HandleAppNameOverride
            simp only [hg, hne, HandleAppNameOverride_search, hf, hlen]
            rfl
          exact ⟨fun _ => hval, fun h2 => absurd ⟨hname, hall, hlen⟩ h2⟩
  · intro hname
    have hne : (overrides.AppName != []) = false := by simp [hname]
    unfold HandleAppNameOverride
    simp only [hne, Bool.false_eq_true, if_false]
    split
    · rfl
    · split <;> rfl

theorem HandleAppNameOverride_errors_witness :
    (HandleAppNameOverride sampleManifest { AppName := str "ember" }).2
        = some (PushError.AppNotInManifestError (str "ember"))
    ∧ (HandleAppNameOverride sampleNamelessManifest { AppName := [] }).2
        = some PushError.AppNameOrManifestRequiredError
    ∧ (HandleAppNameOverride sampleNamelessManifest { AppName := [] }).1
        = sampleNamelessManifest :=
  ⟨((HandleAppNameOverride_errors sampleManifest { AppName := str "ember" }).2.1
      (by decide)).1 (by decide),
   (((HandleAppNameOverride_errors sampleNamelessManifest { AppName := [] }).2.1
      (by decide)).2 (by decide)).1 (by decide),
   (HandleAppNameOverride_errors sampleNamelessManifest { AppName := [] }).2.2 rfl⟩

/-! ## Go maps as association lists -/

theorem lookup_filter_ne {ν : Type} (m : List (GoString × ν)) (k k1 : GoString) (h : k1 ≠ k) :
    (m.filter fun p => !(p.1 == k)).lookup k1 = m.lookup k1 := by
  induction m with
  | nil => rfl
  | cons p rest ih =>
    obtain ⟨k0, v0⟩ := p
    by_cases h0 : k0 = k
    · subst h0
      have hne : (k1 == k0) = false := by simpa using h
      simp [List.filter, List.lookup, hne, ih]
    · have hk : (!(k0 == k)) = true := by simpa using h0
      simp only [List.filter, hk, List.lookup]
      rw [ih]

theorem mapIndex_mapAssign_self {ν : Type} [Inhabited ν] (m : List (GoString × ν))
    (k : GoString) (v : ν) : mapIndex (mapAssign m k v) k = v := by
  simp [mapIndex, mapAssign, List.lookup]

theorem mapIndex_mapAssign_ne {ν : Type} [Inhabited ν] (m : List (GoString × ν))
    (k k1 : GoString) (v : ν) (h : k1 ≠ k) :
    mapIndex (mapAssign m k v) k1 = mapIndex m k1 := by
  have hne : (k1 == k) = false := by simpa using h
  simp only [mapIndex, mapAssign, List.lookup, hne]
  rw [lookup_filter_ne m k k1 h]

theorem mapHas_mapAssign {ν : Type} (m : List (GoString × ν)) (k k1 : GoString) (v : ν) :
    mapHas (mapAssign m k v) k1 = (k1 == k || mapHas m k1) := by
  by_cases h : k1 = k
  · subst h
    simp [mapHas, mapAssign, List.lookup]
  · have hne : (k1 == k) = false := by simpa using h
    simp only [mapHas, mapAssign, List.lookup, hne, Bool.false_or]
    rw [lookup_filter_ne m k k1 h]

theorem mapIndex_nil {ν : Type} [Inhabited ν] (k : GoString) :
    mapIndex ([] : List (GoString × ν)) k = default := rfl

theorem mapHas_nil {ν : Type} (k : GoString) : mapHas ([] : List (GoString × ν)) k = false := rfl

/-- Reading a map filled by successive assignments: the value of the last element assigned
under the key, if any, else what the map held before. -/
theorem mapIndex_foldl_assign {α ν : Type} [Inhabited ν] (key : α → GoString) (val : α → ν)
    (l : List α) :
    ∀ (m0 : List (GoString × ν)) (k : GoString),
      mapIndex (l.foldl (fun m x => mapAssign m (key x) (val x)) m0) k
        = match l.reverse.find? (fun x => key x == k) with
          | some x => val x
          | none => mapIndex m0 k := by
  induction l with
  | nil => intro m0 k; rfl
  | cons x xs ih =>
    intro m0 k
    simp only [List.foldl_cons, List.reverse_cons, List.find?_append]
    rw [ih]
    cases hf : xs.reverse.find? (fun x => key x == k) with
    | some y => simp
    | none =>
      by_cases hk : key x = k
      · subst hk
        simp [mapIndex_mapAssign_self]
      · have hne : (key x == k) = false := by simpa using hk
        simp [List.find?, hne, mapIndex_mapAssign_ne m0 (key x) k (val x) (fun h => hk h.symm)]

theorem keys_mapAssign_nodup {ν : Type} (m : List (GoString × ν)) (k : GoString) (v : ν)
    (h : (m.map Prod.fst).Nodup) : ((mapAssign m k v).map Prod.fst).Nodup := by
  unfold mapAssign
  simp only [List.map_cons, List.nodup_cons]
  constructor
  · simp
  · exact List.Nodup.sublist ((List.filter_sublist m).map Prod.fst) h

theorem filter_absent {ν : Type} (m : List (GoString × ν)) (k : GoString)
    (h : k ∉ m.map Prod.fst) : (m.filter fun p => !(p.1 == k)) = m := by
  rw [List.filter_eq_self]
  intro p hp
  have : p.1 ≠ k := fun hk => h (by rw [← hk]; exact List.mem_map_of_mem Prod.fst hp)
  simpa using this

theorem sum_lengths_split {α : Type} (m : List (GoString × List α)) (k : GoString)
    (h : (m.map Prod.fst).Nodup) :
    (m.map fun p => p.2.length).sum
      = (mapIndex m k).length + ((m.filter fun p => !(p.1 == k)).map fun p => p.2.length).sum := by
  induction m with
  | nil => rfl
  | cons p rest ih =>
    obtain ⟨k0, v0⟩ := p
    simp only [List.map_cons, List.nodup_cons] at h
    by_cases h0 : k0 = k
    · subst h0
      have hf := filter_absent rest k0 h.1
      simp [mapIndex, List.lookup, List.filter, hf]
    · have hne : (k == k0) = false := by simpa using fun hk : k = k0 => h0 hk.symm
      have hk : (!(k0 == k)) = true := by simpa using h0
      have := ih h.2
      simp only [mapIndex] at this
      simp only [List.map_cons, List.sum_cons, mapIndex, List.lookup, hne, List.filter, hk]
      omega

theorem sum_lengths_mapAssign {α : Type} (m : List (GoString × List α)) (k : GoString)
    (x : α) (h : (m.map Prod.fst).Nodup) :
    ((mapAssign m k (mapIndex m k ++ [x])).map fun p => p.2.length).sum
      = (m.map fun p => p.2.length).sum + 1 := by
  rw [sum_lengths_split m k h]
  simp [mapAssign]
  omega

/-! ## Users by role type -/

theorem roles_foldl (userOf : GoString → User) (roles : List ccv3_Role) :
    ∀ m0 : List (RoleType × List User), (m0.map Prod.fst).Nodup →
      (∀ t, mapIndex (roles.foldl (fun m role =>
            mapAssign m role.Type_ (mapIndex m role.Type_ ++ [userOf role.UserGUID])) m0) t
          = mapIndex m0 t
            ++ (roles.filter fun r => r.Type_ == t).map fun r => userOf r.UserGUID)
      ∧ (∀ t, mapHas (roles.foldl (fun m role =>
            mapAssign m role.Type_ (mapIndex m role.Type_ ++ [userOf role.UserGUID])) m0) t
          = (mapHas m0 t || roles.any fun r => r.Type_ == t))
      ∧ ((roles.foldl (fun m role =>
            mapAssign m role.Type_ (mapIndex m role.Type_ ++ [userOf role.UserGUID])) m0).map
          Prod.fst).Nodup
      ∧ ((roles.foldl (fun m role =>
            mapAssign m role.Type_ (mapIndex m role.Type_ ++ [userOf role.UserGUID])) m0).map
          fun p => p.2.length).sum
          = (m0.map fun p => p.2.length).sum + roles.length := by
  induction roles with
  | nil => intro m0 h; exact ⟨fun t => by simp, fun t => by simp, h, by simp⟩
  | cons r rs ih =>
    intro m0 h
    have hnd := keys_mapAssign_nodup m0 r.Type_ (mapIndex m0 r.Type_ ++ [userOf r.UserGUID]) h
    obtain ⟨ha, hb, hc, hd⟩ := ih _ hnd
    simp only [List.foldl_cons]
    refine ⟨fun t => ?_, fun t => ?_, hc, ?_⟩
    · rw [ha t]
      by_cases ht : t = r.Type_
      · subst ht
        simp [mapIndex_mapAssign_self, List.filter]
      · have hne : (r.Type_ == t) = false := by simpa using fun hx : r.Type_ = t => ht hx.symm
        simp [mapIndex_mapAssign_ne m0 r.Type_ t _ ht, List.filter, hne]
    · rw [hb t, mapHas_mapAssign]
      by_cases ht : t = r.Type_
      · subst ht
        simp
      · have hne : (r.Type_ == t) = false := by simpa using fun hx : r.Type_ = t => ht hx.symm
        have hne1 : (t == r.Type_) = false := by simpa using ht
        simp [hne, hne1]
    · rw [hd, sum_lengths_mapAssign m0 r.Type_ (userOf r.UserGUID) h, List.length_cons]
      exact Nat.add_right_comm _ _ _

/-- Claim C30: when the roles query succeeds, `getUsersByRoleType` returns a map in which, for
every role type t, the list under t has one entry per returned role of type t, in the order
in which the roles were returned, each entry being the included user whose GUID is the user
GUID of the role: the last such user when several included users share the GUID, the zero
User when none has it. A role type is a key of the map exactly when some returned role has
this type, each key occurs once, and the lists of the map hold as many users in all as there
are roles. The warnings of the query are returned with a nil error. -/
theorem getUsersByRoleType_groups_users (cc : CloudController) (guid : GoString)
    (filterKey : QueryKey) (history : List Exchange) (roles : List ccv3_Role)
    (includes : IncludedResources) (warnings : Warnings)
    (h : cc.GetRoles history
        [{ Key := filterKey, Values := [guid] },
         { Key := QueryKey.Include, Values := [str "user"] }]
      = (roles, includes, warnings, none)) :
    ∃ usersByRoleType : List (RoleType × List User),
      Actor.getUsersByRoleType cc guid filterKey history
        = ((usersByRoleType, warnings, none),
            history ++ [{ call := Call.GetRoles
                            [{ Key := filterKey, Values := [guid] },
                             { Key := QueryKey.Include, Values := [str "user"] }]
                          warnings := warnings, err := none }])
      ∧ (∀ t : RoleType, mapIndex usersByRoleType t
          = (roles.filter fun r => r.Type_ == t).map fun r =>
              (includes.Users.reverse.find? fun u => u.GUID == r.UserGUID).getD default)
      ∧ (∀ t : RoleType, mapHas usersByRoleType t = roles.any fun r => r.Type_ == t)
      ∧ (usersByRoleType.map Prod.fst).Nodup
      ∧ (usersByRoleType.map fun p => p.2.length).sum = roles.length := by
  have hrun := roles_foldl
    (fun g => mapIndex (includes.Users.foldl (fun (m : List (GoString × User)) user =>
        mapAssign m user.GUID user) []) g) roles [] (by simp)
  obtain ⟨ha, hb, hc, hd⟩ := hrun
  refine ⟨_, ?_, ?_, ?_, hc, ?_⟩
  · simp only [Actor.getUsersByRoleType, CloudController.callGetRoles, h]
  · intro t
    rw [ha t]
    simp only [mapIndex_nil, List.nil_append]
    show List.map _ _ = List.map _ _
    apply List.map_congr_left
    intro r _
    rw [mapIndex_foldl_assign (fun u : User => u.GUID) (fun u => u) includes.Users [] r.UserGUID]
    cases includes.Users.reverse.find? (fun u => u.GUID == r.UserGUID) with
    | some u => rfl
    | none => rfl
  · intro t
    rw [hb t]
    simp [mapHas_nil]
  · rw [hd]
    simp

theorem getUsersByRoleType_groups_users_witness :
    ∃ usersByRoleType : List (RoleType × List User),
      Actor.getUsersByRoleType sampleRolesCloudController (str "org-guid")
          QueryKey.OrganizationGUIDFilter []
        = ((usersByRoleType, [str "get-roles-warning"], none),
            [] ++ [{ call := Call.GetRoles
                            [{ Key := QueryKey.OrganizationGUIDFilter, Values := [str "org-guid"] },
                             { Key := QueryKey.Include, Values := [str "user"] }]
                     warnings := [str "get-roles-warning"], err := none }])
      ∧ mapIndex usersByRoleType (str "organization_manager")
          = [sampleUser "user-1" "renamed", default]
      ∧ mapHas usersByRoleType (str "space_developer") = false
      ∧ (usersByRoleType.map fun p => p.2.length).sum = 3 := by
  obtain ⟨m, h1, h2, h3, _, h5⟩ :=
    getUsersByRoleType_groups_users sampleRolesCloudController (str "org-guid")
      QueryKey.OrganizationGUIDFilter []
      [sampleRole "organization_manager" "user-1", sampleRole "organization_user" "user-2",
        sampleRole "organization_manager" "user-3"]
      { Users := [sampleUser "user-1" "first", sampleUser "user-2" "second",
                  sampleUser "user-1" "renamed"] }
      [str "get-roles-warning"] rfl
  refine ⟨m, h1, ?_, ?_, h5⟩
  · rw [h2]
    decide
  · rw [h3]
    decide

/-! ## Creating a space role -/

theorem CreateOrgRole_eq (cc : CloudController) (roleType : RoleType)
    (orgGUID userNameOrGUID userOrigin : GoString) (isClient : Bool) (history : List Exchange)
    (created : ccv3_Role) (w : Warnings) (err : Option GoError)
    (h : cc.CreateRole history (userRole roleType orgGUID [] userNameOrGUID userOrigin isClient)
      = (created, w, err)) :
    Actor.CreateOrgRole cc roleType orgGUID userNameOrGUID userOrigin isClient history
      = ((w, err), history
          ++ [roleExchange (userRole roleType orgGUID [] userNameOrGUID userOrigin isClient)
                w err]) := by
  cases isClient <;>
    · simp only [userRole, Bool.false_eq_true, if_false, if_true] at h
      simp [Actor.CreateOrgRole, CloudController.callCreateRole, ccv3_Role.zero, h, roleExchange,
        userRole]

/-- Claim C29: `CreateSpaceRole` first asks for the creation of the organization-user role of
the same user. If that fails with an error that is not a role-already-exists error, it
returns that error with the warnings of that call, and that call is the only one made: the
space role is never attempted. If it succeeds or fails with a role-already-exists error, the
space role is created next, the warnings returned are those of the organization role
followed by those of the space role, and the error returned is that of the creation of the
space role. -/
theorem CreateSpaceRole_org_role_first (cc : CloudController) (roleType : RoleType)
    (orgGUID spaceGUID userNameOrGUID userOrigin : GoString) (isClient : Bool)
    (history : List Exchange) (created1 : ccv3_Role) (w1 : Warnings) (err1 : Option GoError)
    (h1 : cc.CreateRole history
        (userRole constant_OrgUserRole orgGUID [] userNameOrGUID userOrigin isClient)
      = (created1, w1, err1)) :
    (∀ e, err1 = some e → isRoleAlreadyExistsError e = false →
        Actor.CreateSpaceRole cc roleType orgGUID spaceGUID userNameOrGUID userOrigin isClient
            history
          = ((w1, some e), history
              ++ [roleExchange
                    (userRole constant_OrgUserRole orgGUID [] userNameOrGUID userOrigin isClient)
                    w1 (some e)]))
    ∧ ((err1 = none ∨ ∃ e, err1 = some e ∧ isRoleAlreadyExistsError e = true) →
        ∀ (created2 : ccv3_Role) (w2 : Warnings) (err2 : Option GoError),
          cc.CreateRole
              (history ++ [roleExchange
                (userRole constant_OrgUserRole orgGUID [] userNameOrGUID userOrigin isClient)
                w1 err1])
              (userRole roleType [] spaceGUID userNameOrGUID userOrigin isClient)
            = (created2, w2, err2) →
          Actor.CreateSpaceRole cc roleType orgGUID spaceGUID userNameOrGUID userOrigin isClient
              history
            = ((w1 ++ w2, err2), history
                ++ [roleExchange
                      (userRole constant_OrgUserRole orgGUID [] userNameOrGUID userOrigin
                        isClient) w1 err1,
                    roleExchange
                      (userRole roleType [] spaceGUID userNameOrGUID userOrigin isClient)
                      w2 err2])) := by
  have horg := CreateOrgRole_eq cc constant_OrgUserRole orgGUID userNameOrGUID userOrigin
    isClient history created1 w1 err1 h1
  constructor
  · intro e he hnot
    subst he
    simp only [Actor.CreateSpaceRole, horg, hnot]
    rfl
  · intro hok created2 w2 err2 h2
    have hattempt : cc.callCreateRole
          (userRole roleType [] spaceGUID userNameOrGUID userOrigin isClient)
          (history ++ [roleExchange
            (userRole constant_OrgUserRole orgGUID [] userNameOrGUID userOrigin isClient)
            w1 err1])
        = ((created2, w2, err2), history
            ++ [roleExchange
                  (userRole constant_OrgUserRole orgGUID [] userNameOrGUID userOrigin isClient)
                  w1 err1]
            ++ [roleExchange (userRole roleType [] spaceGUID userNameOrGUID userOrigin isClient)
                  w2 err2]) := by
      simp only [CloudController.callCreateRole, h2]
      rfl
    have hunfold :
        Actor.CreateSpaceRole cc roleType orgGUID spaceGUID userNameOrGUID userOrigin isClient
            history
          = (match Actor.CreateOrgRole cc constant_OrgUserRole orgGUID userNameOrGUID userOrigin
                isClient history with
            | ((warnings, err), history1) =>
              match err with
              | some e =>
                if !(isRoleAlreadyExistsError e) then ((warnings, some e), history1)
                else
                  match cc.callCreateRole
                      (userRole roleType [] spaceGUID userNameOrGUID userOrigin isClient)
                      history1 with
                  | ((_, ccv3Warnings, err), history2) =>
                    ((warnings ++ ccv3Warnings, err), history2)
              | none =>
                match cc.callCreateRole
                    (userRole roleType [] spaceGUID userNameOrGUID userOrigin isClient)
                    history1 with
                | ((_, ccv3Warnings, err), history2) =>
                  ((warnings ++ ccv3Warnings, err), history2)) := by
      cases isClient <;> rfl
    rw [hunfold, horg]
    rcases hok with hnone | ⟨e, he, hyes⟩
    · subst hnone
      simp only [hattempt, List.append_assoc, List.singleton_append]
    · subst he
      simp only [hyes, Bool.not_true, Bool.false_eq_true, if_false, hattempt, List.append_assoc,
        List.singleton_append]

theorem CreateSpaceRole_org_role_first_witness :
    Actor.CreateSpaceRole sampleDestinationsCloudController (str "space_developer")
        (str "org-guid") (str "space-guid") (str "some-user") (str "uaa") false []
      = (([str "create-org-role-warning"] ++ [str "create-space-role-warning"], none),
          [] ++ [roleExchange
                  (userRole constant_OrgUserRole (str "org-guid") [] (str "some-user") (str "uaa")
                    false)
                  [str "create-org-role-warning"]
                  (some (GoError.RoleAlreadyExistsError (str "User already has the role"))),
                 roleExchange
                  (userRole (str "space_developer") [] (str "space-guid") (str "some-user")
                    (str "uaa") false)
                  [str "create-space-role-warning"] none]) :=
  (CreateSpaceRole_org_role_first sampleDestinationsCloudController (str "space_developer")
      (str "org-guid") (str "space-guid") (str "some-user") (str "uaa") false []
      (userRole constant_OrgUserRole (str "org-guid") [] (str "some-user") (str "uaa") false)
      [str "create-org-role-warning"]
      (some (GoError.RoleAlreadyExistsError (str "User already has the role"))) (by rfl)).2
    (Or.inr ⟨_, rfl, rfl⟩)
    (userRole (str "space_developer") [] (str "space-guid") (str "some-user") (str "uaa") false)
    [str "create-space-role-warning"] none (by rfl)

/-! ## The destination of an application -/

theorem GetRouteDestinations_eq (cc : CloudController) (routeGUID : GoString)
    (history : List Exchange) (dests : List ccv3_RouteDestination) (w : Warnings)
    (err : Option GoError)
    (h : cc.GetRouteDestinations history routeGUID = (dests, w, err)) :
    Actor.GetRouteDestinations cc routeGUID history
      = ((dests.map fun dst => ({ GUID := dst.GUID, App := dst.App } : RouteDestination), w, err),
          history ++ [destinationsExchange routeGUID w err]) := by
  simp only [Actor.GetRouteDestinations, CloudController.callGetRouteDestinations, h,
    foldl_append_singleton, List.nil_append]
  rfl

theorem destination_search (appGUID : GoString) (dests : List ccv3_RouteDestination) :
    Actor.GetRouteDestinationByAppGUID.search appGUID
        (dests.map fun dst => ({ GUID := dst.GUID, App := dst.App } : RouteDestination))
      = (dests.find? (isWebDestinationOf appGUID)).map fun dst =>
          ({ GUID := dst.GUID, App := dst.App } : RouteDestination) := by
  induction dests with
  | nil => rfl
  | cons d rest ih =>
    simp only [List.map_cons, Actor.GetRouteDestinationByAppGUID.search, List.find?,
      isWebDestinationOf]
    by_cases hd : (d.App.GUID == appGUID && d.App.Process.Type_ == constant_ProcessTypeWeb) = true
    · simp [hd]
    · simp only [hd, Bool.false_eq_true, if_false]
      rw [ih]

/-- Claim C27: if fetching the destinations fails, `GetRouteDestinationByAppGUID` returns that
error (with the zero RouteDestination and the warnings). Otherwise it returns, with a nil
error, the first destination in the collaborator's order whose app GUID is the given GUID and
whose process type is web; and if no destination satisfies both conditions it returns the
zero RouteDestination and a `RouteDestinationNotFoundError` carrying the app GUID, the
process type web and the route GUID. One destinations request is made in each case. -/
theorem GetRouteDestinationByAppGUID_first_web (cc : CloudController)
    (routeGUID appGUID : GoString) (history : List Exchange)
    (dests : List ccv3_RouteDestination) (w : Warnings) (err : Option GoError)
    (h : cc.GetRouteDestinations history routeGUID = (dests, w, err)) :
    (∀ e, err = some e →
        Actor.GetRouteDestinationByAppGUID cc routeGUID appGUID history
          = ((RouteDestination.zero, w, some (DestinationError.collaborator e)),
              history ++ [destinationsExchange routeGUID w err]))
    ∧ (err = none →
        (∀ d, dests.find? (isWebDestinationOf appGUID) = some d →
          Actor.GetRouteDestinationByAppGUID cc routeGUID appGUID history
            = (({ GUID := d.GUID, App := d.App }, w, none),
                history ++ [destinationsExchange routeGUID w err])
          ∧ d.App.GUID = appGUID ∧ d.App.Process.Type_ = str "web")
        ∧ (dests.find? (isWebDestinationOf appGUID) = none →
          Actor.GetRouteDestinationByAppGUID cc routeGUID appGUID history
            = ((RouteDestination.zero, w,
                some (DestinationError.RouteDestinationNotFoundError appGUID (str "web")
                  routeGUID)),
                history ++ [destinationsExchange routeGUID w err]))) := by
  have hd := GetRouteDestinations_eq cc routeGUID history dests w err h
  constructor
  · intro e he
    subst he
    simp only [Actor.GetRouteDestinationByAppGUID, hd]
  · intro hnone
    subst hnone
    constructor
    · intro d hfind
      refine ⟨?_, ?_⟩
      · simp only [Actor.GetRouteDestinationByAppGUID, hd, destination_search, hfind,
          Option.map_some']
      · have hp := List.find?_some hfind
        simpa [isWebDestinationOf, constant_ProcessTypeWeb] using hp
    · intro hfind
      simp only [Actor.GetRouteDestinationByAppGUID, hd, destination_search, hfind,
        Option.map_none', constant_ProcessTypeWeb]

theorem GetRouteDestinationByAppGUID_first_web_witness :
    (Actor.GetRouteDestinationByAppGUID sampleDestinationsCloudController (str "route-guid")
        (str "app-1") []
      = (({ GUID := (sampleDestination "dst-2" "app-1" "web").GUID,
            App := (sampleDestination "dst-2" "app-1" "web").App },
          [str "get-destinations-warning"], none),
          [] ++ [destinationsExchange (str "route-guid") [str "get-destinations-warning"] none])
      ∧ (sampleDestination "dst-2" "app-1" "web").App.GUID = str "app-1"
      ∧ (sampleDestination "dst-2" "app-1" "web").App.Process.Type_ = str "web")
    ∧ Actor.GetRouteDestinationByAppGUID sampleDestinationsCloudController (str "route-guid")
        (str "app-3") []
      = ((RouteDestination.zero, [str "get-destinations-warning"],
          some (DestinationError.RouteDestinationNotFoundError (str "app-3") (str "web")
            (str "route-guid"))),
          [] ++ [destinationsExchange (str "route-guid") [str "get-destinations-warning"] none]) :=
  ⟨((GetRouteDestinationByAppGUID_first_web sampleDestinationsCloudController
        (str "route-guid") (str "app-1") []
        [sampleDestination "dst-1" "app-1" "worker", sampleDestination "dst-2" "app-1" "web",
          sampleDestination "dst-3" "app-2" "web"]
        [str "get-destinations-warning"] none rfl).2 rfl).1
      (sampleDestination "dst-2" "app-1" "web") (by decide),
   ((GetRouteDestinationByAppGUID_first_web sampleDestinationsCloudController
        (str "route-guid") (str "app-3") []
        [sampleDestination "dst-1" "app-1" "worker", sampleDestination "dst-2" "app-1" "web",
          sampleDestination "dst-3" "app-2" "web"]
        [str "get-destinations-warning"] none rfl).2 rfl).2 (by decide)⟩

/-! ## Deleting a route -/

/-- Claim C28: when the domain lookup of `DeleteRoute` reports domain-not-found, `DeleteRoute`
returns a nil error, its warnings are the warnings of the lookup followed by the text of the
not-found error, and the lookup is the only call made: no route is queried or deleted. When
the domain is found and the routes query succeeds without any route, `DeleteRoute` returns
`RouteNotFoundError` with the given domain name, host and path, with the warnings of the
lookup and of the query, and these two calls are the only ones made: nothing is deleted. -/
theorem DeleteRoute_not_found (cc : CloudController) (domainName hostname path : GoString)
    (history : List Exchange) (domain : Domain) (w : Warnings) (err : Option GoError)
    (h : cc.GetDomainByName history domainName = (domain, w, err)) :
    (∀ name guid, err = some (GoError.DomainNotFoundError name guid) →
        Actor.DeleteRoute cc domainName hostname path history
          = ((w ++ [GoError.Error (GoError.DomainNotFoundError name guid)], none),
              history ++ [lookupExchange domainName w err]))
    ∧ (err = none →
        ∀ wr : Warnings,
          cc.GetRoutes (history ++ [lookupExchange domainName w err])
              (deleteFilters domain.GUID hostname path) = ([], wr, none) →
          Actor.DeleteRoute cc domainName hostname path history
            = ((w ++ wr, some (GoError.RouteNotFoundError domainName [] hostname path)),
                history ++ [lookupExchange domainName w err,
                  routesExchange (deleteFilters domain.GUID hostname path) wr none])) := by
  constructor
  · intro name guid he
    subst he
    simp only [Actor.DeleteRoute, CloudController.callGetDomainByName, h, List.nil_append]
    rfl
  · intro he wr hr
    subst he
    unfold lookupExchange deleteFilters at hr
    simp only [Actor.DeleteRoute, CloudController.callGetDomainByName, h, List.nil_append,
      CloudController.callGetRoutes, hr]
    simp [lookupExchange, routesExchange, deleteFilters]

theorem DeleteRoute_not_found_witness :
    Actor.DeleteRoute sampleNoDomainCloudController (str "example.com") (str "host")
        (str "/path") []
      = (([str "get-domains-warning"]
            ++ [GoError.Error (GoError.DomainNotFoundError (str "example.com") [])], none),
          [] ++ [lookupExchange (str "example.com") [str "get-domains-warning"]
                  (some (GoError.DomainNotFoundError (str "example.com") []))])
    ∧ Actor.DeleteRoute sampleNoRouteCloudController (str "example.com") (str "host")
        (str "/path") []
      = (([str "get-domains-warning"] ++ [str "get-routes-warning"],
            some (GoError.RouteNotFoundError (str "example.com") [] (str "host") (str "/path"))),
          [] ++ [lookupExchange (str "example.com") [str "get-domains-warning"] none,
            routesExchange (deleteFilters (str "domain-guid") (str "host") (str "/path"))
              [str "get-routes-warning"] none]) :=
  ⟨(DeleteRoute_not_found sampleNoDomainCloudController (str "example.com") (str "host")
      (str "/path") [] { Name := [], GUID := [] } [str "get-domains-warning"]
      (some (GoError.DomainNotFoundError (str "example.com") [])) rfl).1
      (str "example.com") [] rfl,
   (DeleteRoute_not_found sampleNoRouteCloudController (str "example.com") (str "host")
      (str "/path") [] { Name := str "domain-name", GUID := str "domain-guid" }
      [str "get-domains-warning"] none rfl).2 rfl [str "get-routes-warning"] rfl⟩

/-! ## The summaries of routes -/

theorem summaries_destination_step (routeGUID : GoString) (st : GetRouteSummaries.State)
    (d : RouteDestination) (hnd : st.uniqueAppGUIDs.Nodup)
    (hset : ∀ g, mapHas st.destinationAppGUIDs g = true ↔ g ∈ st.uniqueAppGUIDs) :
    (GetRouteSummaries.destination routeGUID st d).allWarnings = st.allWarnings
    ∧ (∀ g, mapIndex (GetRouteSummaries.destination routeGUID st d).destinationAppGUIDsByRouteGUID g
          = mapIndex st.destinationAppGUIDsByRouteGUID g
              ++ (if g = routeGUID then [d.App.GUID] else []))
    ∧ (GetRouteSummaries.destination routeGUID st d).uniqueAppGUIDs.Nodup
    ∧ (∀ g, mapHas (GetRouteSummaries.destination routeGUID st d).destinationAppGUIDs g = true
          ↔ g ∈ (GetRouteSummaries.destination routeGUID st d).uniqueAppGUIDs)
    ∧ (∀ g, g ∈ (GetRouteSummaries.destination routeGUID st d).uniqueAppGUIDs
          ↔ g ∈ st.uniqueAppGUIDs ∨ g = d.App.GUID) := by
  have hby : ∀ (m : List (GoString × List GoString)) (g : GoString),
      mapIndex (mapAssign m routeGUID (mapIndex m routeGUID ++ [d.App.GUID])) g
        = mapIndex m g ++ (if g = routeGUID then [d.App.GUID] else []) := by
    intro m g
    by_cases hg : g = routeGUID
    · subst hg
      rw [mapIndex_mapAssign_self, if_pos rfl]
    · rw [mapIndex_mapAssign_ne m routeGUID g _ hg, if_neg hg, List.append_nil]
  by_cases h : mapHas st.destinationAppGUIDs d.App.GUID = true
  · have hmem : d.App.GUID ∈ st.uniqueAppGUIDs := (hset _).mp h
    simp only [GetRouteSummaries.destination, h, Bool.not_true, Bool.false_eq_true, if_false]
    refine ⟨trivial, hby _, hnd, hset, ?_⟩
    intro g
    constructor
    · exact Or.inl
    · rintro (hg | hg)
      · exact hg
      · rw [hg]; exact hmem
  · have hf : mapHas st.destinationAppGUIDs d.App.GUID = false := by simpa using h
    have hnmem : d.App.GUID ∉ st.uniqueAppGUIDs := fun hm => h ((hset _).mpr hm)
    simp only [GetRouteSummaries.destination, hf, Bool.not_false, if_true]
    refine ⟨trivial, hby _, ?_, ?_, ?_⟩
    · rw [List.nodup_append]
      refine ⟨hnd, List.nodup_singleton _, ?_⟩
      intro a ha hb
      rw [List.mem_singleton] at hb
      exact hnmem (hb ▸ ha)
    · intro g
      rw [mapHas_mapAssign, List.mem_append, List.mem_singleton, Bool.or_eq_true, hset]
      simp only [beq_iff_eq]
      exact Or.comm
    · intro g
      rw [List.mem_append, List.mem_singleton]

theorem summaries_destinations_fold (routeGUID : GoString) (dests : List RouteDestination) :
    ∀ st : GetRouteSummaries.State, st.uniqueAppGUIDs.Nodup →
      (∀ g, mapHas st.destinationAppGUIDs g = true ↔ g ∈ st.uniqueAppGUIDs) →
      (dests.foldl (GetRouteSummaries.destination routeGUID) st).allWarnings = st.allWarnings
      ∧ (∀ g, mapIndex
            (dests.foldl (GetRouteSummaries.destination routeGUID) st).destinationAppGUIDsByRouteGUID g
            = mapIndex st.destinationAppGUIDsByRouteGUID g
                ++ (if g = routeGUID then dests.map (fun d => d.App.GUID) else []))
      ∧ (dests.foldl (GetRouteSummaries.destination routeGUID) st).uniqueAppGUIDs.Nodup
      ∧ (∀ g, mapHas (dests.foldl (GetRouteSummaries.destination routeGUID) st).destinationAppGUIDs g
            = true
            ↔ g ∈ (dests.foldl (GetRouteSummaries.destination routeGUID) st).uniqueAppGUIDs)
      ∧ (∀ g, g ∈ (dests.foldl (GetRouteSummaries.destination routeGUID) st).uniqueAppGUIDs
            ↔ g ∈ st.uniqueAppGUIDs ∨ g ∈ dests.map (fun d => d.App.GUID)) := by
  induction dests with
  | nil =>
    intro st hnd hset
    refine ⟨rfl, ?_, hnd, hset, ?_⟩
    · intro g; simp
    · intro g; simp
  | cons d rest ih =>
    intro st hnd hset
    obtain ⟨hw, hby, hnd1, hset1, hmem1⟩ := summaries_destination_step routeGUID st d hnd hset
    obtain ⟨hw2, hby2, hnd2, hset2, hmem2⟩ := ih _ hnd1 hset1
    simp only [List.foldl_cons]
    refine ⟨hw2.trans hw, ?_, hnd2, hset2, ?_⟩
    · intro g
      rw [hby2, hby]
      by_cases hg : g = routeGUID
      · simp [hg]
      · simp [hg]
    · intro g
      rw [hmem2, hmem1, List.map_cons, List.mem_cons, or_assoc]

theorem summaries_step_unique (routeGUID : GoString) (st : GetRouteSummaries.State)
    (d : RouteDestination)
    (hset : ∀ g, mapHas st.destinationAppGUIDs g = true ↔ g ∈ st.uniqueAppGUIDs) :
    (GetRouteSummaries.destination routeGUID st d).uniqueAppGUIDs
      = if d.App.GUID ∈ st.uniqueAppGUIDs then st.uniqueAppGUIDs
        else st.uniqueAppGUIDs ++ [d.App.GUID] := by
  by_cases h : mapHas st.destinationAppGUIDs d.App.GUID = true
  · have hmem : d.App.GUID ∈ st.uniqueAppGUIDs := (hset _).mp h
    simp only [GetRouteSummaries.destination, h, Bool.not_true, Bool.false_eq_true, if_false,
      hmem, if_true]
  · have hf : mapHas st.destinationAppGUIDs d.App.GUID = false := by simpa using h
    have hnmem : d.App.GUID ∉ st.uniqueAppGUIDs := fun hm => h ((hset _).mpr hm)
    simp only [GetRouteSummaries.destination, hf, Bool.not_false, if_true, hnmem, if_false]

theorem summaries_fold_unique (routeGUID : GoString) (dests : List RouteDestination) :
    ∀ st : GetRouteSummaries.State, st.uniqueAppGUIDs.Nodup →
      (∀ g, mapHas st.destinationAppGUIDs g = true ↔ g ∈ st.uniqueAppGUIDs) →
      (dests.foldl (GetRouteSummaries.destination routeGUID) st).uniqueAppGUIDs
        = (dests.map fun d => d.App.GUID).foldl
            (fun acc g => if g ∈ acc then acc else acc ++ [g]) st.uniqueAppGUIDs := by
  induction dests with
  | nil => intro st _ _; rfl
  | cons d rest ih =>
    intro st hnd hset
    obtain ⟨_, _, hnd1, hset1, _⟩ := summaries_destination_step routeGUID st d hnd hset
    simp only [List.foldl_cons, List.map_cons]
    rw [ih _ hnd1 hset1, summaries_step_unique routeGUID st d hset]

theorem summaries_collect (cc : CloudController)
    (asked : List (Route × List ccv3_RouteDestination × Warnings)) :
    ∀ (st : GetRouteSummaries.State) (history : List Exchange),
      answersDestinations cc asked history = true →
      st.uniqueAppGUIDs.Nodup →
      (∀ g, mapHas st.destinationAppGUIDs g = true ↔ g ∈ st.uniqueAppGUIDs) →
      ∃ st1 : GetRouteSummaries.State,
        GetRouteSummaries.collect cc (asked.map Prod.fst) st history
          = (none, st1, history ++ destinationsExchanges asked)
        ∧ st1.allWarnings = st.allWarnings ++ asked.flatMap (fun p => p.2.2)
        ∧ (∀ g, mapIndex st1.destinationAppGUIDsByRouteGUID g
              = mapIndex st.destinationAppGUIDsByRouteGUID g
                  ++ (asked.filter fun p => p.1.GUID == g).flatMap
                      (fun p => p.2.1.map fun d => d.App.GUID))
        ∧ st1.uniqueAppGUIDs.Nodup
        ∧ (∀ g, mapHas st1.destinationAppGUIDs g = true ↔ g ∈ st1.uniqueAppGUIDs)
        ∧ (∀ g, g ∈ st1.uniqueAppGUIDs ↔ g ∈ st.uniqueAppGUIDs ∨ g ∈ askedAppGUIDs asked)
        ∧ st1.uniqueAppGUIDs
            = (askedAppGUIDs asked).foldl (fun acc g => if g ∈ acc then acc else acc ++ [g])
                st.uniqueAppGUIDs := by
  induction asked with
  | nil =>
    intro st history _ hnd hset
    refine ⟨st, ?_, ?_, ?_, hnd, hset, ?_, rfl⟩
    · simp [GetRouteSummaries.collect, destinationsExchanges]
    · simp
    · intro g; simp
    · intro g; simp [askedAppGUIDs]
  | cons p rest ih =>
    obtain ⟨r, dests, w⟩ := p
    intro st history hok hnd hset
    simp only [answersDestinations, Bool.and_eq_true, decide_eq_true_eq] at hok
    obtain ⟨hfirst, hrest⟩ := hok
    have hcall := GetRouteDestinations_eq cc r.GUID history dests w none hfirst
    obtain ⟨hw, hby, hnd1, hset1, hmem1⟩ :=
      summaries_destinations_fold r.GUID
        (dests.map fun dst => ({ GUID := dst.GUID, App := dst.App } : RouteDestination))
        { st with allWarnings := st.allWarnings ++ w } hnd hset
    have hu1 := summaries_fold_unique r.GUID
        (dests.map fun dst => ({ GUID := dst.GUID, App := dst.App } : RouteDestination))
        { st with allWarnings := st.allWarnings ++ w } hnd hset
    obtain ⟨st2, hrun, hw2, hby2, hnd2, hset2, hmem2, hu2⟩ :=
      ih _ (history ++ [destinationsExchange r.GUID w none]) hrest hnd1 hset1
    refine ⟨st2, ?_, ?_, ?_, hnd2, hset2, ?_, ?_⟩
    · simp only [List.map_cons]
      unfold GetRouteSummaries.collect
      rw [hcall]
      simp only []
      rw [hrun]
      simp [destinationsExchanges]
    · rw [hw2, hw, List.flatMap_cons, List.append_assoc]
    · intro g
      rw [hby2, hby]
      simp only [List.map_map]
      by_cases hg : g = r.GUID
      · subst hg
        simp [List.filter_cons, Function.comp_def]
      · have hne : (r.GUID == g) = false := by simpa using fun h => hg h.symm
        simp [List.filter_cons, hne, hg]
    · intro g
      rw [hmem2, hmem1]
      simp only [askedAppGUIDs, List.flatMap_cons, List.mem_append, List.map_map,
        Function.comp_def, or_assoc]
    · rw [hu2, hu1]
      simp only [askedAppGUIDs, List.flatMap_cons, List.foldl_append, List.map_map,
        Function.comp_def]

theorem filter_by_key {α : Type} (key : α → GoString) (l : List α)
    (h : (l.map key).Nodup) (x : α) (hx : x ∈ l) :
    (l.filter fun y => key y == key x) = [x] := by
  induction l with
  | nil => cases hx
  | cons y ys ih =>
    rw [List.map_cons, List.nodup_cons] at h
    obtain ⟨hy, hys⟩ := h
    rcases List.mem_cons.mp hx with hxy | hin
    · subst hxy
      have hnil : (ys.filter fun z => key z == key x) = [] := by
        rw [List.filter_eq_nil_iff]
        intro z hz hzx
        exact hy (List.mem_map.mpr ⟨z, hz, by simpa using hzx⟩)
      simp [List.filter_cons, hnil]
    · have hne : (key y == key x) = false := by
        have : key y ≠ key x := fun he => hy (List.mem_map.mpr ⟨x, hin, he.symm⟩)
        simpa using this
      simp only [List.filter_cons, hne, Bool.false_eq_true, if_false]
      exact ih hys hin

theorem count_of_nodup (l : List GoString) (h : l.Nodup) (g : GoString) (hg : g ∈ l) :
    l.count g = 1 := by
  induction l with
  | nil => cases hg
  | cons b rest ih =>
    rw [List.nodup_cons] at h
    rw [List.count_cons]
    by_cases hb : b = g
    · subst hb
      rw [List.count_eq_zero_of_not_mem h.1]
      simp
    · have hin : g ∈ rest := by
        rcases List.mem_cons.mp hg with he | hin
        · exact absurd he.symm hb
        · exact hin
      have hne : (b == g) = false := by simpa using hb
      rw [ih h.2 hin, hne]
      rfl

theorem appNames_lookup (apps : List Application) (g : GoString) :
    mapIndex (apps.foldl (fun (m : List (GoString × GoString)) app =>
        mapAssign m app.GUID app.Name) []) g = appNameOf apps g := by
  rw [mapIndex_foldl_assign (fun (a : Application) => a.GUID) (fun a => a.Name)]
  unfold appNameOf
  cases apps.reverse.find? (fun x => x.GUID == g) <;> rfl

/-- Claim C26: when every collaborator call that `GetRouteSummaries` makes succeeds (each
destinations request, made at the history left by the requests before it, and the
applications request made after them for the list that the method built) and the routes have
pairwise distinct GUIDs, `GetRouteSummaries` returns no error and a permutation of one
summary per route, whose `AppNames` lists, in the order of the destinations of that route, the
name of the application with the destination's application GUID (the empty string if the
answer has no such application). The list of application GUIDs requested is the list of the
application GUIDs of the destinations, route after route, reduced to first occurrences: it
holds each of them exactly once. -/
theorem GetRouteSummaries_one_per_route (cc : CloudController)
    (LessIgnoreCase : GoString → GoString → Bool)
    (sort_Slice : (RouteSummary → RouteSummary → Bool) → List RouteSummary → List RouteSummary)
    (routes : List Route) (history : List Exchange)
    (asked : List (Route × List ccv3_RouteDestination × Warnings))
    (apps : List Application) (wa : Warnings)
    (hsort : ∀ less l, (sort_Slice less l).Perm l)
    (hroutes : asked.map Prod.fst = routes)
    (hdest : answersDestinations cc asked history = true)
    (happs : cc.GetApplicationsByGUIDs (history ++ destinationsExchanges asked)
        (firstOccurrences (askedAppGUIDs asked)) = (apps, wa, none))
    (hdistinct : (routes.map fun r => r.GUID).Nodup) :
    ∃ summaries : List RouteSummary,
      Actor.GetRouteSummaries cc LessIgnoreCase sort_Slice routes history
        = ((summaries, asked.flatMap (fun p => p.2.2) ++ wa, none),
           (history ++ destinationsExchanges asked)
             ++ [appsExchange (firstOccurrences (askedAppGUIDs asked)) wa none])
      ∧ (firstOccurrences (askedAppGUIDs asked)).Nodup
      ∧ (∀ g, g ∈ firstOccurrences (askedAppGUIDs asked) ↔ g ∈ askedAppGUIDs asked)
      ∧ (∀ g ∈ askedAppGUIDs asked, (firstOccurrences (askedAppGUIDs asked)).count g = 1)
      ∧ summaries.Perm (asked.map fun p =>
          ({ Route := p.1
             AppNames := p.2.1.map fun d => appNameOf apps d.App.GUID } : RouteSummary))
      ∧ (summaries.map fun s => s.Route).Perm routes
      ∧ summaries.length = routes.length := by
  subst hroutes
  obtain ⟨st1, hrun, hw, hby, hnd, _, hmem, hu⟩ :=
    summaries_collect cc asked
      { allWarnings := [], destinationAppGUIDsByRouteGUID := [], destinationAppGUIDs := [],
        uniqueAppGUIDs := [] } history hdest List.nodup_nil (by intro g; simp [mapHas_nil])
  have hreq : st1.uniqueAppGUIDs = firstOccurrences (askedAppGUIDs asked) := hu
  rw [← hreq] at happs
  rw [← hreq]
  have hkeys : (asked.map fun p => p.1.GUID).Nodup := by
    simpa [List.map_map, Function.comp_def] using hdistinct
  have hlist :
      ((asked.map Prod.fst).map fun r =>
        ({ Route := r
           AppNames := (mapIndex st1.destinationAppGUIDsByRouteGUID r.GUID).map
             (mapIndex (apps.foldl (fun (m : List (GoString × GoString)) app =>
               mapAssign m app.GUID app.Name) [])) } : RouteSummary))
        = asked.map fun p =>
            ({ Route := p.1
               AppNames := p.2.1.map fun d => appNameOf apps d.App.GUID } : RouteSummary) := by
    rw [List.map_map]
    apply List.map_congr_left
    intro p hp
    have h1 : mapIndex st1.destinationAppGUIDsByRouteGUID p.1.GUID
        = p.2.1.map fun d => d.App.GUID := by
      rw [hby, filter_by_key (fun p => p.1.GUID) asked hkeys p hp]
      simp [mapIndex_nil]
      rfl
    simp only [Function.comp_def]
    rw [h1, List.map_map]
    congr 1
    apply List.map_congr_left
    intro d _
    exact appNames_lookup apps d.App.GUID
  have hperm := hsort (fun a b => LessIgnoreCase a.Route.SpaceName b.Route.SpaceName)
    (asked.map fun p =>
      ({ Route := p.1
         AppNames := p.2.1.map fun d => appNameOf apps d.App.GUID } : RouteSummary))
  have hroute : (asked.map fun p =>
      ({ Route := p.1
         AppNames := p.2.1.map fun d => appNameOf apps d.App.GUID } : RouteSummary)).map
        (fun s => s.Route) = asked.map Prod.fst := by
    rw [List.map_map]
    rfl
  refine ⟨_, ?_, hnd, ?_, ?_, hperm, ?_, ?_⟩
  · unfold Actor.GetRouteSummaries
    rw [hrun]
    simp only [CloudController.callGetApplicationsByGUIDs, happs, foldl_append_singleton,
      List.nil_append, hw, hlist]
    rfl
  · intro g
    rw [hmem]
    simp
  · intro g hg
    exact count_of_nodup _ hnd g ((hmem g).mpr (Or.inr hg))
  · have := hperm.map (fun s => s.Route)
    rw [hroute] at this
    exact this
  · have := hperm.length_eq
    simpa using this

theorem GetRouteSummaries_one_per_route_witness :
    ∃ summaries : List RouteSummary,
      Actor.GetRouteSummaries sampleStatefulCloudController sampleLessIgnoreCase sampleSort
          sampleRoutes []
        = ((summaries,
            sampleAsked.flatMap (fun p => p.2.2) ++ [str "get-apps-warning"], none),
           ([] ++ destinationsExchanges sampleAsked)
             ++ [appsExchange (firstOccurrences (askedAppGUIDs sampleAsked))
                  [str "get-apps-warning"] none])
      ∧ (firstOccurrences (askedAppGUIDs sampleAsked)).Nodup
      ∧ (∀ g, g ∈ firstOccurrences (askedAppGUIDs sampleAsked) ↔ g ∈ askedAppGUIDs sampleAsked)
      ∧ (∀ g ∈ askedAppGUIDs sampleAsked,
          (firstOccurrences (askedAppGUIDs sampleAsked)).count g = 1)
      ∧ summaries.Perm (sampleAsked.map fun p =>
          ({ Route := p.1
             AppNames := p.2.1.map fun d =>
               appNameOf [{ Name := str "first-app", GUID := str "app-1" },
                 { Name := str "second-app", GUID := str "app-2" }] d.App.GUID }
            : RouteSummary))
      ∧ (summaries.map fun s => s.Route).Perm sampleRoutes
      ∧ summaries.length = sampleRoutes.length :=
  GetRouteSummaries_one_per_route sampleStatefulCloudController sampleLessIgnoreCase
    sampleSort sampleRoutes [] sampleAsked
    [{ Name := str "first-app", GUID := str "app-1" },
     { Name := str "second-app", GUID := str "app-2" }] [str "get-apps-warning"]
    (fun _ l => List.perm_insertionSort _ l) (by decide) (by decide) (by decide) (by decide)

theorem GetRouteSummaries_sample_run :
    (Actor.GetRouteSummaries sampleStatefulCloudController sampleLessIgnoreCase sampleSort
        sampleRoutes []).1.1.map (fun s => (s.Route.GUID, s.AppNames))
      = [(str "route-2", [str "second-app", []]),
         (str "route-1", [str "first-app", str "first-app", str "second-app"])]
    ∧ firstOccurrences (askedAppGUIDs sampleAsked) = [str "app-1", str "app-2", str "app-3"] := by
  decide

end V7Action
